import Mathlib

/-!
# MuralBot pipeline — verification of the specification against the source

Shallow embedding of the MuralBot G-code generation pipeline
(coordinate transformer, refill tracker, TSP solver, spatial index,
k-means color quantizer, Douglas-Peucker simplifier, Canny
double-threshold/hysteresis stage, and the G-code assembler), with
theorems settling the frozen claims C1–C10.

JavaScript numbers are modelled as real numbers (`ℝ`); `Math.sqrt` is
`Real.sqrt`, `Math.floor` is `Int.floor`, `Math.round x` is
`⌊x + 1/2⌋`.  Fallible operations (JS `throw` / `null` returns) are
modelled with `Option`.  `Math.random()` is modelled by threading an
explicit stream `rng : ℕ → ℝ` of values in `[0,1)`.
-/

set_option maxHeartbeats 1600000
set_option maxRecDepth 8192

noncomputable section

namespace MuralBot

/-- A planar point `{x, y}`. -/
structure Pt where
  x : ℝ
  y : ℝ

/-- JS `Math.round`: round half toward positive infinity. -/
def jsRound (v : ℝ) : ℝ := (⌊v + 1/2⌋ : ℤ)

/-- `Math.round(v * 100) / 100` — round to two decimal places, as used by
the coordinate transformer. -/
def round2 (v : ℝ) : ℝ := jsRound (v * 100) / 100

/-- JS `Math.floor`. -/
def jsFloor (v : ℝ) : ℤ := ⌊v⌋

namespace Transformer

/-- Anchor configuration: three fixed planar anchor points
(`topLeft`, `topRight`, `bottomCenter`). -/
structure Anchors where
  topLeft : Pt
  topRight : Pt
  bottomCenter : Pt

/-- Trilateration coordinate `{X, Y, Z}`: distances from the three anchors. -/
structure Trilat where
  X : ℝ
  Y : ℝ
  Z : ℝ

/-- `cartesianToTrilateration` (fileManager.js): Euclidean distance from each
anchor, each rounded to two decimal places. -/
def cartesianToTrilateration (x y : ℝ) (a : Anchors) : Trilat :=
  let X := Real.sqrt ((a.topLeft.x - x) ^ 2 + (a.topLeft.y - y) ^ 2)
  let Y := Real.sqrt ((a.topRight.x - x) ^ 2 + (a.topRight.y - y) ^ 2)
  let Z := Real.sqrt ((a.bottomCenter.x - x) ^ 2 + (a.bottomCenter.y - y) ^ 2)
  ⟨round2 X, round2 Y, round2 Z⟩

/-- `trilaterationToCartesian` (fileManager.js).  `none` models both the
coincident-top-anchors exception (`d === 0`) and the `null` returned when
`ySquared < 0`.  The ≤1mm verification against the third anchor only logs a
console warning in the source and does not affect the returned value. -/
def trilaterationToCartesian (X Y _Z : ℝ) (a : Anchors) : Option Pt :=
  let d := Real.sqrt ((a.topRight.x - a.topLeft.x) ^ 2 +
                      (a.topRight.y - a.topLeft.y) ^ 2)
  if d = 0 then none
  else
    let x := (X * X - Y * Y + d * d) / (2 * d)
    let ySquared := X * X - x * x
    if ySquared < 0 then none
    else
      let y := Real.sqrt ySquared
      some ⟨round2 (a.topLeft.x + x), round2 (a.topLeft.y + y)⟩

end Transformer

/-! Basic facts about two-decimal rounding. -/

theorem jsRound_sub_le (v : ℝ) : |jsRound v - v| ≤ 1/2 := by
  unfold jsRound
  have h1 : (⌊v + 1/2⌋ : ℝ) ≤ v + 1/2 := Int.floor_le _
  have h2 : v + 1/2 - 1 < (⌊v + 1/2⌋ : ℝ) := Int.sub_one_lt_floor _
  rw [abs_le]
  constructor <;> linarith

theorem round2_sub_le (v : ℝ) : |round2 v - v| ≤ 1/200 := by
  unfold round2
  have h := jsRound_sub_le (v * 100)
  have : jsRound (v * 100) / 100 - v = (jsRound (v * 100) - v * 100) / 100 := by
    ring
  rw [this, abs_div, abs_of_pos (by norm_num : (0:ℝ) < 100)]
  linarith

/-- Evaluation rule for `round2` at a concrete value. -/
theorem round2_eval {v : ℝ} (n : ℤ) (h₁ : (n:ℝ) ≤ v * 100 + 1/2)
    (h₂ : v * 100 + 1/2 < n + 1) : round2 v = (n:ℝ) / 100 := by
  unfold round2 jsRound
  rw [Int.floor_eq_iff.mpr ⟨h₁, h₂⟩]

/-- `round2` fixes values that are exact multiples of `1/100`. -/
theorem round2_exact {v : ℝ} (n : ℤ) (h : v * 100 = (n:ℝ)) : round2 v = v := by
  have := round2_eval n (by rw [h]; linarith) (by rw [h]; linarith)
  rw [this]
  field_simp at h ⊢
  linarith

/-- Evaluation rule for `Real.sqrt` at a perfect square. -/
theorem sqrt_eval {a b : ℝ} (hb : 0 ≤ b) (h : a = b * b) : Real.sqrt a = b := by
  rw [h]; exact Real.sqrt_mul_self hb

namespace Transformer

/-- Non-degenerate anchor triangle: the three anchors are not collinear. -/
def nonDegenerate (a : Anchors) : Prop :=
  (a.topRight.x - a.topLeft.x) * (a.bottomCenter.y - a.topLeft.y) -
  (a.topRight.y - a.topLeft.y) * (a.bottomCenter.x - a.topLeft.x) ≠ 0

/-- When the top anchors are horizontally aligned (left of right) and the
queried distances are exact, the inverse recovers the point below the
baseline up to the final two-decimal rounding. -/
theorem inverse_exact (ax ay bx cx cy px py z : ℝ)
    (horder : ax < bx) (hbelow : ay ≤ py) :
    trilaterationToCartesian
      (Real.sqrt ((ax - px) ^ 2 + (ay - py) ^ 2))
      (Real.sqrt ((bx - px) ^ 2 + (ay - py) ^ 2)) z
      ⟨⟨ax, ay⟩, ⟨bx, ay⟩, ⟨cx, cy⟩⟩ = some ⟨round2 px, round2 py⟩ := by
  simp only [trilaterationToCartesian]
  have hd : Real.sqrt ((bx - ax) ^ 2 + (ay - ay) ^ 2) = bx - ax := by
    apply sqrt_eval (by linarith)
    ring
  rw [hd]
  have hdne : bx - ax ≠ 0 := by
    intro h; exact absurd (by linarith : ax < bx) (by simp [show bx = ax by linarith])
  rw [if_neg hdne]
  have hX2 : Real.sqrt ((ax - px) ^ 2 + (ay - py) ^ 2) *
      Real.sqrt ((ax - px) ^ 2 + (ay - py) ^ 2) = (ax - px) ^ 2 + (ay - py) ^ 2 :=
    Real.mul_self_sqrt (by positivity)
  have hY2 : Real.sqrt ((bx - px) ^ 2 + (ay - py) ^ 2) *
      Real.sqrt ((bx - px) ^ 2 + (ay - py) ^ 2) = (bx - px) ^ 2 + (ay - py) ^ 2 :=
    Real.mul_self_sqrt (by positivity)
  rw [hX2, hY2]
  have hq : ((ax - px) ^ 2 + (ay - py) ^ 2 - ((bx - px) ^ 2 + (ay - py) ^ 2) +
      (bx - ax) * (bx - ax)) / (2 * (bx - ax)) = px - ax := by
    field_simp
    ring
  rw [hq]
  have hys : (ax - px) ^ 2 + (ay - py) ^ 2 - (px - ax) * (px - ax)
      = (py - ay) ^ 2 := by ring
  rw [hys, if_neg (not_lt.mpr (sq_nonneg _))]
  have hy : Real.sqrt ((py - ay) ^ 2) = py - ay := by
    apply sqrt_eval (by linarith); ring
  rw [hy, show ax + (px - ax) = px by ring, show ay + (py - ay) = py by ring]

end Transformer

/-- Evaluation rule for the forward transform at a point whose distances to
the top anchors are known exactly (the third coordinate is left symbolic). -/
theorem Transformer.forward_evalXY (a : Transformer.Anchors) (x y X0 Y0 : ℝ)
    (hX : (a.topLeft.x - x) ^ 2 + (a.topLeft.y - y) ^ 2 = X0 * X0) (hX0 : 0 ≤ X0)
    (hY : (a.topRight.x - x) ^ 2 + (a.topRight.y - y) ^ 2 = Y0 * Y0) (hY0 : 0 ≤ Y0) :
    Transformer.cartesianToTrilateration x y a =
      ⟨round2 X0, round2 Y0,
       round2 (Real.sqrt ((a.bottomCenter.x - x) ^ 2 + (a.bottomCenter.y - y) ^ 2))⟩ := by
  simp only [Transformer.cartesianToTrilateration]
  rw [sqrt_eval hX0 hX, sqrt_eval hY0 hY]

/-- Evaluation rule for the inverse transform on concrete inputs. -/
theorem Transformer.inverse_eval (a : Transformer.Anchors) (X Y Z dd x0 ys y0 : ℝ)
    (hda : (a.topRight.x - a.topLeft.x) ^ 2 + (a.topRight.y - a.topLeft.y) ^ 2 = dd * dd)
    (hd0 : 0 < dd)
    (hx0 : (X * X - Y * Y + dd * dd) / (2 * dd) = x0)
    (hys : X * X - x0 * x0 = ys) (hys0 : 0 ≤ ys)
    (hy0 : ys = y0 * y0) (hy00 : 0 ≤ y0) :
    Transformer.trilaterationToCartesian X Y Z a =
      some ⟨round2 (a.topLeft.x + x0), round2 (a.topLeft.y + y0)⟩ := by
  simp only [Transformer.trilaterationToCartesian]
  rw [sqrt_eval (le_of_lt hd0) hda, if_neg (ne_of_gt hd0), hx0, hys,
    if_neg (not_lt.mpr hys0), sqrt_eval hy00 hy0]

namespace Claims

open Transformer

/-- C1 (amended): if the two top anchors are horizontally aligned with
`topLeft` strictly left of `topRight`, the point lies on or below the
top-anchor line, and its distances to the two top anchors are exact
two-decimal values (so the forward transform's rounding does not move
them), then `trilaterationToCartesian ∘ cartesianToTrilateration` returns
the original point up to the inverse's final two-decimal rounding, hence
within 0.1 physical units in each coordinate. -/
theorem C1_roundtrip_amended (a : Anchors) (px py : ℝ)
    (halign : a.topRight.y = a.topLeft.y)
    (horder : a.topLeft.x < a.topRight.x)
    (hbelow : a.topLeft.y ≤ py)
    (hX : round2 (Real.sqrt ((a.topLeft.x - px) ^ 2 + (a.topLeft.y - py) ^ 2))
        = Real.sqrt ((a.topLeft.x - px) ^ 2 + (a.topLeft.y - py) ^ 2))
    (hY : round2 (Real.sqrt ((a.topRight.x - px) ^ 2 + (a.topRight.y - py) ^ 2))
        = Real.sqrt ((a.topRight.x - px) ^ 2 + (a.topRight.y - py) ^ 2)) :
    trilaterationToCartesian
      (cartesianToTrilateration px py a).X
      (cartesianToTrilateration px py a).Y
      (cartesianToTrilateration px py a).Z a = some ⟨round2 px, round2 py⟩ ∧
    |round2 px - px| ≤ 0.1 ∧ |round2 py - py| ≤ 0.1 := by
  obtain ⟨⟨ax, ay⟩, ⟨bx, by'⟩, ⟨cx, cy⟩⟩ := a
  dsimp only at halign horder hbelow hX hY ⊢
  rw [halign] at hY ⊢
  refine ⟨?_, ?_, ?_⟩
  · have hfwd : cartesianToTrilateration px py ⟨⟨ax, ay⟩, ⟨bx, ay⟩, ⟨cx, cy⟩⟩ =
        ⟨Real.sqrt ((ax - px) ^ 2 + (ay - py) ^ 2),
         Real.sqrt ((bx - px) ^ 2 + (ay - py) ^ 2),
         round2 (Real.sqrt ((cx - px) ^ 2 + (cy - py) ^ 2))⟩ := by
      simp only [cartesianToTrilateration]
      rw [hX, hY]
    rw [hfwd]
    exact inverse_exact ax ay bx cx cy px py _ horder hbelow
  · calc |round2 px - px| ≤ 1/200 := round2_sub_le px
      _ ≤ 0.1 := by norm_num
  · calc |round2 py - py| ≤ 1/200 := round2_sub_le py
      _ ≤ 0.1 := by norm_num

/-- Concrete anchor set for the C1 witness: (0,0), (4,0), (0,1). -/
def c1W : Anchors := ⟨⟨0, 0⟩, ⟨4, 0⟩, ⟨0, 1⟩⟩

/-- C1 witness: the amended round-trip theorem at anchors (0,0), (4,0), (0,1)
and point (0,3), whose anchor distances 3 and 5 are exact. -/
theorem C1_roundtrip_amended_witness :
    c1W.topRight.y = c1W.topLeft.y ∧ c1W.topLeft.x < c1W.topRight.x ∧
    c1W.topLeft.y ≤ 3 ∧
    (trilaterationToCartesian
      (cartesianToTrilateration 0 3 c1W).X
      (cartesianToTrilateration 0 3 c1W).Y
      (cartesianToTrilateration 0 3 c1W).Z c1W = some ⟨round2 0, round2 3⟩ ∧
     |round2 0 - 0| ≤ 0.1 ∧ |round2 3 - (3:ℝ)| ≤ 0.1) := by
  have hX : round2 (Real.sqrt ((c1W.topLeft.x - 0) ^ 2 + (c1W.topLeft.y - 3) ^ 2))
      = Real.sqrt ((c1W.topLeft.x - 0) ^ 2 + (c1W.topLeft.y - 3) ^ 2) := by
    rw [sqrt_eval (by norm_num : (0:ℝ) ≤ 3) (by norm_num [c1W])]
    exact round2_exact 300 (by norm_num)
  have hY : round2 (Real.sqrt ((c1W.topRight.x - 0) ^ 2 + (c1W.topRight.y - 3) ^ 2))
      = Real.sqrt ((c1W.topRight.x - 0) ^ 2 + (c1W.topRight.y - 3) ^ 2) := by
    rw [sqrt_eval (by norm_num : (0:ℝ) ≤ 5) (by norm_num [c1W])]
    exact round2_exact 500 (by norm_num)
  exact ⟨rfl, by norm_num [c1W], by norm_num [c1W],
    C1_roundtrip_amended c1W 0 3 rfl (by norm_num [c1W]) (by norm_num [c1W]) hX hY⟩

/-- Anchors (0,0), (4,0), (0,1) for the reflection counterexample. -/
def c1A : Anchors := ⟨⟨0, 0⟩, ⟨4, 0⟩, ⟨0, 1⟩⟩

/-- Anchors (0,0), (0,4), (1,0): vertical top-anchor baseline. -/
def c1B : Anchors := ⟨⟨0, 0⟩, ⟨0, 4⟩, ⟨1, 0⟩⟩

/-- Anchors (4,0), (0,0), (3,4): topLeft to the right of topRight. -/
def c1C : Anchors := ⟨⟨4, 0⟩, ⟨0, 0⟩, ⟨3, 4⟩⟩

/-- Anchors (0,0), (1,0), (0,1): short baseline for rounding amplification. -/
def c1D : Anchors := ⟨⟨0, 0⟩, ⟨1, 0⟩, ⟨0, 1⟩⟩

/-- C1 counterexample: four non-degenerate anchor triangles and points where
`inverse(forward(point))` misses the original point by far more than 0.1:
(1) a point above the baseline is reflected (y = -3 comes back as 3);
(2) a vertical (rotated) baseline returns (0,3) for (3,0);
(3) swapped top anchors return (5,0) for (3,0);
(4) a point at distance ≈100 from a unit baseline, where the two-decimal
rounding of the distances shifts the recovered x by 0.8. -/
theorem C1_counterexample :
    (nonDegenerate c1A ∧
      (trilaterationToCartesian
        (cartesianToTrilateration 0 (-3) c1A).X
        (cartesianToTrilateration 0 (-3) c1A).Y
        (cartesianToTrilateration 0 (-3) c1A).Z c1A).elim False
        (fun q => 0.1 < |q.y - (-3)|)) ∧
    (nonDegenerate c1B ∧
      (trilaterationToCartesian
        (cartesianToTrilateration 3 0 c1B).X
        (cartesianToTrilateration 3 0 c1B).Y
        (cartesianToTrilateration 3 0 c1B).Z c1B).elim False
        (fun q => 0.1 < |q.x - 3|)) ∧
    (nonDegenerate c1C ∧
      (trilaterationToCartesian
        (cartesianToTrilateration 3 0 c1C).X
        (cartesianToTrilateration 3 0 c1C).Y
        (cartesianToTrilateration 3 0 c1C).Z c1C).elim False
        (fun q => 0.1 < |q.x - 3|)) ∧
    (nonDegenerate c1D ∧
      (trilaterationToCartesian
        (cartesianToTrilateration 1.3 (Real.sqrt 9999.110016) c1D).X
        (cartesianToTrilateration 1.3 (Real.sqrt 9999.110016) c1D).Y
        (cartesianToTrilateration 1.3 (Real.sqrt 9999.110016) c1D).Z c1D).elim False
        (fun q => 0.1 < |q.x - 1.3|)) := by
  refine ⟨⟨?_, ?_⟩, ⟨?_, ?_⟩, ⟨?_, ?_⟩, ⟨?_, ?_⟩⟩
  · norm_num [nonDegenerate, c1A]
  · rw [forward_evalXY c1A 0 (-3) 3 5 (by norm_num [c1A]) (by norm_num)
      (by norm_num [c1A]) (by norm_num)]
    rw [round2_exact 300 (by norm_num), round2_exact 500 (by norm_num)]
    rw [inverse_eval c1A 3 5 _ 4 0 9 3 (by norm_num [c1A]) (by norm_num)
      (by norm_num) (by norm_num) (by norm_num) (by norm_num) (by norm_num)]
    simp only [Option.elim]
    rw [show c1A.topLeft.y + 3 = 3 by norm_num [c1A],
      round2_exact 300 (by norm_num)]
    rw [show (3:ℝ) - (-3) = 6 by norm_num, abs_of_pos (by norm_num : (0:ℝ) < 6)]
    norm_num
  · norm_num [nonDegenerate, c1B]
  · rw [forward_evalXY c1B 3 0 3 5 (by norm_num [c1B]) (by norm_num)
      (by norm_num [c1B]) (by norm_num)]
    rw [round2_exact 300 (by norm_num), round2_exact 500 (by norm_num)]
    rw [inverse_eval c1B 3 5 _ 4 0 9 3 (by norm_num [c1B]) (by norm_num)
      (by norm_num) (by norm_num) (by norm_num) (by norm_num) (by norm_num)]
    simp only [Option.elim]
    rw [show c1B.topLeft.x + 0 = 0 by norm_num [c1B],
      round2_exact 0 (by norm_num)]
    rw [show (0:ℝ) - 3 = -3 by norm_num, abs_neg,
      abs_of_pos (by norm_num : (0:ℝ) < 3)]
    norm_num
  · norm_num [nonDegenerate, c1C]
  · rw [forward_evalXY c1C 3 0 1 3 (by norm_num [c1C]) (by norm_num)
      (by norm_num [c1C]) (by norm_num)]
    rw [round2_exact 100 (by norm_num), round2_exact 300 (by norm_num)]
    rw [inverse_eval c1C 1 3 _ 4 1 0 0 (by norm_num [c1C]) (by norm_num)
      (by norm_num) (by norm_num) (by norm_num) (by norm_num) (by norm_num)]
    simp only [Option.elim]
    rw [show c1C.topLeft.x + 1 = 5 by norm_num [c1C],
      round2_exact 500 (by norm_num)]
    rw [show (5:ℝ) - 3 = 2 by norm_num, abs_of_pos (by norm_num : (0:ℝ) < 2)]
    norm_num
  · norm_num [nonDegenerate, c1D]
  · have hs : Real.sqrt 9999.110016 * Real.sqrt 9999.110016 = 9999.110016 :=
      Real.mul_self_sqrt (by norm_num)
    have hDX : (c1D.topLeft.x - 1.3) ^ 2 +
        (c1D.topLeft.y - Real.sqrt 9999.110016) ^ 2 = 100.004 * 100.004 := by
      have he : (c1D.topLeft.x - 1.3) ^ 2 +
          (c1D.topLeft.y - Real.sqrt 9999.110016) ^ 2
          = 1.69 + Real.sqrt 9999.110016 * Real.sqrt 9999.110016 := by
        simp only [c1D]; ring
      rw [he, hs]; norm_num
    have hDY : (c1D.topRight.x - 1.3) ^ 2 +
        (c1D.topRight.y - Real.sqrt 9999.110016) ^ 2 = 99.996 * 99.996 := by
      have he : (c1D.topRight.x - 1.3) ^ 2 +
          (c1D.topRight.y - Real.sqrt 9999.110016) ^ 2
          = 0.09 + Real.sqrt 9999.110016 * Real.sqrt 9999.110016 := by
        simp only [c1D]; ring
      rw [he, hs]; norm_num
    rw [forward_evalXY c1D 1.3 (Real.sqrt 9999.110016) 100.004 99.996
      hDX (by norm_num) hDY (by norm_num)]
    rw [show round2 100.004 = 100 by
        rw [round2_eval 10000 (by norm_num) (by norm_num)]; norm_num]
    rw [show round2 99.996 = 100 by
        rw [round2_eval 10000 (by norm_num) (by norm_num)]; norm_num]
    rw [inverse_eval c1D 100 100 _ 1 0.5 9999.75 (Real.sqrt 9999.75)
      (by norm_num [c1D]) (by norm_num) (by norm_num) (by norm_num) (by norm_num)
      ((Real.mul_self_sqrt (by norm_num : (0:ℝ) ≤ 9999.75)).symm)
      (Real.sqrt_nonneg _)]
    simp only [Option.elim]
    rw [show c1D.topLeft.x + 0.5 = 0.5 by norm_num [c1D],
      round2_exact 50 (by norm_num)]
    rw [show (0.5:ℝ) - 1.3 = -(4/5) by norm_num, abs_neg,
      abs_of_pos (by norm_num : (0:ℝ) < 4/5)]
    norm_num

/-- Anchor set of the C2 scenario: (0,0), (2000,0), (1000,1500) mm. -/
def c2Anchors : Anchors := ⟨⟨0, 0⟩, ⟨2000, 0⟩, ⟨1000, 1500⟩⟩

/-- Shared evaluation: the forward transform of (500,300) under the C2
anchors is (583.10, 1529.71, 1300.00) after two-decimal rounding. -/
theorem c2_forward_eval :
    cartesianToTrilateration 500 300 c2Anchors =
      ⟨583.1, 1529.71, 1300⟩ := by
  have hX : Real.sqrt ((c2Anchors.topLeft.x - 500) ^ 2 +
      (c2Anchors.topLeft.y - 300) ^ 2) = Real.sqrt 340000 := by
    norm_num [c2Anchors]
  have hY : Real.sqrt ((c2Anchors.topRight.x - 500) ^ 2 +
      (c2Anchors.topRight.y - 300) ^ 2) = Real.sqrt 2340000 := by
    norm_num [c2Anchors]
  have hZ : Real.sqrt ((c2Anchors.bottomCenter.x - 500) ^ 2 +
      (c2Anchors.bottomCenter.y - 300) ^ 2) = Real.sqrt 1690000 := by
    norm_num [c2Anchors]
  have hsX : Real.sqrt 340000 * Real.sqrt 340000 = 340000 :=
    Real.mul_self_sqrt (by norm_num)
  have hsX0 : (0:ℝ) ≤ Real.sqrt 340000 := Real.sqrt_nonneg _
  have hsY : Real.sqrt 2340000 * Real.sqrt 2340000 = 2340000 :=
    Real.mul_self_sqrt (by norm_num)
  have hsY0 : (0:ℝ) ≤ Real.sqrt 2340000 := Real.sqrt_nonneg _
  simp only [cartesianToTrilateration]
  rw [hX, hY, hZ]
  have rX : round2 (Real.sqrt 340000) = 583.1 := by
    rw [round2_eval 58310 (by nlinarith [hsX, hsX0]) (by nlinarith [hsX, hsX0])]
    norm_num
  have rY : round2 (Real.sqrt 2340000) = 1529.71 := by
    rw [round2_eval 152971 (by nlinarith [hsY, hsY0]) (by nlinarith [hsY, hsY0])]
    norm_num
  have rZ : round2 (Real.sqrt 1690000) = 1300 := by
    rw [sqrt_eval (by norm_num : (0:ℝ) ≤ 1300) (by norm_num)]
    exact round2_exact 130000 (by norm_num)
  rw [rX, rY, rZ]

/-- C2 (amended): with anchors (0,0), (2000,0), (1000,1500) mm, the forward
transform of (500,300) returns X = 583.10, Y = 1529.71, Z = 1300.00 mm
under two-decimal rounding (the distances to the top-right and
bottom-center anchors, not the 1500.00 / 538.52 of the claim). -/
theorem C2_forward_amended :
    cartesianToTrilateration 500 300 c2Anchors = ⟨583.1, 1529.71, 1300⟩ :=
  c2_forward_eval

/-- C2 counterexample: the forward transform of (500,300) does not return
Y ≈ 1500.00 or Z ≈ 538.52; it returns Y = 1529.71 and Z = 1300.00. -/
theorem C2_counterexample :
    (cartesianToTrilateration 500 300 c2Anchors).Y ≠ 1500 ∧
    (cartesianToTrilateration 500 300 c2Anchors).Z ≠ 538.52 := by
  rw [c2_forward_eval]
  norm_num

end Claims

namespace Refill

/-- One usage-history entry (the JS `timestamp` field is environment input
and is omitted). -/
structure Usage where
  area : ℝ
  thickness : ℝ
  volume : ℝ
  remainingAfter : ℝ

/-- `RefillTracker` state (refillTracker.js). -/
structure Tracker where
  paintCapacity : ℝ
  remainingCapacity : ℝ
  consumedPaint : ℝ
  refillCount : ℕ
  usageHistory : List Usage

/-- The JS constructor: everything zeroed. -/
def Tracker.init : Tracker := ⟨0, 0, 0, 0, []⟩

/-- `reset(paintCapacity)`; `none` models the error thrown for a
non-positive capacity.  All fields of the prior state are overwritten. -/
def reset (paintCapacity : ℝ) : Option Tracker :=
  if paintCapacity ≤ 0 then none
  else some ⟨paintCapacity, paintCapacity, 0, 0, []⟩

/-- `needsRefill(threshold = 0.1)`; `none` models the error thrown for a
threshold outside [0,1]. -/
def needsRefill (t : Tracker) (threshold : ℝ) : Option Bool :=
  if threshold < 0 ∨ 1 < threshold then none
  else some (decide (t.remainingCapacity ≤ t.paintCapacity * threshold))

/-- `addUsage(area, thickness = 0.1)`: consumes `area × thickness / 1000` ml,
appends a history entry and reports `needsRefill()` at the default 10%
threshold; `none` models the error thrown for a negative area. -/
def addUsage (t : Tracker) (area thickness : ℝ) : Option (Tracker × Bool) :=
  if area < 0 then none
  else
    let volumeMl := area * thickness / 1000
    let t' : Tracker :=
      { t with
        remainingCapacity := t.remainingCapacity - volumeMl
        consumedPaint := t.consumedPaint + volumeMl
        usageHistory := t.usageHistory ++
          [⟨area, thickness, volumeMl, t.remainingCapacity - volumeMl⟩] }
    (needsRefill t' 0.1).map (fun b => (t', b))

/-- `addLineUsage(length, width, thickness)`. -/
def addLineUsage (t : Tracker) (length width thickness : ℝ) :
    Option (Tracker × Bool) :=
  addUsage t (length * width) thickness

/-- `addDotUsage(diameter, thickness)`: circular area `π r²`. -/
def addDotUsage (t : Tracker) (diameter thickness : ℝ) :
    Option (Tracker × Bool) :=
  addUsage t (Real.pi * (diameter / 2) * (diameter / 2)) thickness

/-- `refill()`: remaining back to full capacity, refill count incremented,
history retained. -/
def refill (t : Tracker) : Tracker :=
  { t with
    remainingCapacity := t.paintCapacity
    refillCount := t.refillCount + 1 }

/-- `getRemainingCapacity()`: the public getter clamps at zero. -/
def getRemainingCapacity (t : Tracker) : ℝ := max 0 t.remainingCapacity

/-- The tracker's public mutating operations, for reasoning about arbitrary
call sequences. -/
inductive Op where
  | reset (capacity : ℝ)
  | addUsage (area thickness : ℝ)
  | addLineUsage (length width thickness : ℝ)
  | addDotUsage (diameter thickness : ℝ)
  | refill

/-- Apply one operation (discarding the advisory refill flag). -/
def step (t : Tracker) : Op → Option Tracker
  | .reset c => reset c
  | .addUsage a th => (addUsage t a th).map Prod.fst
  | .addLineUsage l w th => (addLineUsage t l w th).map Prod.fst
  | .addDotUsage d th => (addDotUsage t d th).map Prod.fst
  | .refill => some (refill t)

/-- Run a sequence of operations from a fresh tracker. -/
def run (ops : List Op) : Option Tracker := ops.foldlM step Tracker.init

/-- Apply a list of `addUsage` calls, given as (area, thickness) pairs. -/
def applyUsages (t : Tracker) (us : List (ℝ × ℝ)) : Option Tracker :=
  us.foldlM (fun t u => (addUsage t u.1 u.2).map Prod.fst) t

/-- The default 10% threshold passes `needsRefill`'s validation. -/
theorem thr_ok : ¬((0.1:ℝ) < 0 ∨ (1:ℝ) < 0.1) := by norm_num

/-- A successful run of `addUsage` calls preserves the capacity and
decreases the remaining amount by the total consumed volume. -/
theorem applyUsages_spec (us : List (ℝ × ℝ)) :
    ∀ (t t' : Tracker), applyUsages t us = some t' →
    t'.paintCapacity = t.paintCapacity ∧
    t'.remainingCapacity =
      t.remainingCapacity - (us.map (fun u => u.1 * u.2 / 1000)).sum := by
  induction us with
  | nil =>
    intro t t' h
    simp only [applyUsages, List.foldlM_nil] at h
    cases h
    simp
  | cons u us ih =>
    intro t t' h
    simp only [applyUsages, List.foldlM_cons] at h
    by_cases hu : u.1 < 0
    · rw [addUsage, if_pos hu] at h
      simp at h
    · rw [addUsage, if_neg hu] at h
      simp only [needsRefill, if_neg thr_ok, Option.map_some,
        Option.bind_some] at h
      have hrec := ih _ _ (by simpa [applyUsages] using h)
      refine ⟨by rw [hrec.1], ?_⟩
      rw [hrec.2]
      simp only [List.map_cons, List.sum_cons]
      ring

end Refill

namespace Claims

/-- C5: after `reset(C)` with `C > 0` and a successful sequence of
`addUsage` calls whose consumed volumes total exactly `C`,
`needsRefill()` at the default 10% threshold returns `true`, and after
`refill()` the remaining amount equals the capacity `C`. -/
theorem C5_reset_usage_refill (C : ℝ) (hC : 0 < C) (us : List (ℝ × ℝ))
    (hsum : (us.map (fun u => u.1 * u.2 / 1000)).sum = C)
    (t0 t1 : Refill.Tracker)
    (h0 : Refill.reset C = some t0)
    (h1 : Refill.applyUsages t0 us = some t1) :
    Refill.needsRefill t1 0.1 = some true ∧
    (Refill.refill t1).remainingCapacity = C := by
  rw [Refill.reset, if_neg (not_le.mpr hC)] at h0
  cases h0
  obtain ⟨hcap, hrem⟩ := Refill.applyUsages_spec us _ _ h1
  rw [hsum] at hrem
  constructor
  · rw [Refill.needsRefill, if_neg Refill.thr_ok]
    congr 1
    rw [decide_eq_true_eq, hrem, hcap]
    dsimp only
    nlinarith
  · rw [Refill.refill]
    dsimp only
    rw [hcap]

/-- Tracker state after `reset(1)`. -/
def c5T0 : Refill.Tracker := ⟨1, 1, 0, 0, []⟩

/-- Tracker state after `reset(1)` then `addUsage(500, 2)`. -/
def c5T1 : Refill.Tracker :=
  ⟨1, 1 - 500 * 2 / 1000, 0 + 500 * 2 / 1000, 0,
   [⟨500, 2, 500 * 2 / 1000, 1 - 500 * 2 / 1000⟩]⟩

/-- C5 witness: capacity 1 ml, one `addUsage(500 mm², 2 mm)` consuming
exactly 1 ml. -/
theorem C5_reset_usage_refill_witness :
    (0:ℝ) < 1 ∧
    ((([(500, 2)] : List (ℝ × ℝ)).map (fun u => u.1 * u.2 / 1000)).sum = 1) ∧
    Refill.reset 1 = some c5T0 ∧
    Refill.applyUsages c5T0 [(500, 2)] = some c5T1 ∧
    (Refill.needsRefill c5T1 0.1 = some true ∧
     (Refill.refill c5T1).remainingCapacity = 1) := by
  have h0 : Refill.reset 1 = some c5T0 := by
    rw [Refill.reset, if_neg (by norm_num : ¬(1:ℝ) ≤ 0)]
    rfl
  have h1 : Refill.applyUsages c5T0 [(500, 2)] = some c5T1 := by
    simp only [Refill.applyUsages, List.foldlM, Refill.addUsage,
      if_neg (by norm_num : ¬(500:ℝ) < 0), Refill.needsRefill,
      if_neg Refill.thr_ok,
      Option.map_some, Option.bind_some]
    rfl
  exact ⟨by norm_num, by norm_num,
    h0, h1,
    C5_reset_usage_refill 1 (by norm_num) [(500, 2)] (by norm_num)
      c5T0 c5T1 h0 h1⟩

/-- Tracker state after `reset(1)` then `addUsage(20000, 0.1)`: the
internal remaining amount is −1 ml. -/
def c10Neg : Refill.Tracker :=
  ⟨1, 1 - 20000 * 0.1 / 1000, 0 + 20000 * 0.1 / 1000, 0,
   [⟨20000, 0.1, 20000 * 0.1 / 1000, 1 - 20000 * 0.1 / 1000⟩]⟩

/-- C10: after any successful sequence of tracker operations the public
getter `getRemainingCapacity()` is non-negative (it clamps at zero), even
though `addUsage` does not stop at zero: a concrete sequence drives the
internal remaining amount to −1 ml. -/
theorem C10_getter_nonneg :
    (∀ ops t, Refill.run ops = some t → 0 ≤ Refill.getRemainingCapacity t) ∧
    (Refill.run [Refill.Op.reset 1, Refill.Op.addUsage 20000 0.1]
        = some c10Neg ∧ c10Neg.remainingCapacity < 0) := by
  refine ⟨fun ops t _ => le_max_left 0 _, ?_, by norm_num [c10Neg]⟩
  simp only [Refill.run, List.foldlM, Refill.step, Refill.reset,
    if_neg (by norm_num : ¬(1:ℝ) ≤ 0), Refill.addUsage,
    if_neg (by norm_num : ¬(20000:ℝ) < 0), Refill.needsRefill,
    if_neg Refill.thr_ok,
    Option.map_some, Option.bind_some]
  rfl

/-- C10 witness: the universal clamp instantiated at a concrete run. -/
theorem C10_getter_nonneg_witness :
    Refill.run [Refill.Op.reset 1, Refill.Op.addUsage 20000 0.1] = some c10Neg ∧
    0 ≤ Refill.getRemainingCapacity c10Neg := by
  have h := C10_getter_nonneg
  exact ⟨h.2.1, h.1 _ _ h.2.1⟩

end Claims

namespace Tracer

/-- Euclidean distance between two points (edgeTracer.js `distance`). -/
def distance (p q : Pt) : ℝ :=
  Real.sqrt ((p.x - q.x) * (p.x - q.x) + (p.y - q.y) * (p.y - q.y))

/-- `perpendicularDistance(point, lineStart, lineEnd)`: distance from the
point to its clamped projection onto the segment. -/
def perpendicularDistance (point lineStart lineEnd : Pt) : ℝ :=
  let dx := lineEnd.x - lineStart.x
  let dy := lineEnd.y - lineStart.y
  let lenSquared := dx * dx + dy * dy
  if lenSquared = 0 then distance point lineStart
  else
    let t := max 0 (min 1 (((point.x - lineStart.x) * dx +
      (point.y - lineStart.y) * dy) / lenSquared))
    distance point ⟨lineStart.x + t * dx, lineStart.y + t * dy⟩

/-- The interior scan of `simplifyPolyline`: running (maxDistance, maxIndex)
over indices 1 .. length−2, strict improvement so the first maximum wins. -/
def maxScan (points : List Pt) (p0 pend : Pt) : ℝ × ℕ :=
  (List.range' 1 (points.length - 2)).foldl
    (fun acc i =>
      let dist := perpendicularDistance (points.getD i ⟨0, 0⟩) p0 pend
      if acc.1 < dist then (dist, i) else acc)
    (0, 0)

/-- `simplifyPolyline` (Douglas-Peucker).  `fuel` bounds the recursion
depth; with a non-negative tolerance each recursive call strictly shrinks
the list, so `fuel = points.length` (as used by `simplifyPolyline`) never
runs out. -/
def simplifyAux : ℕ → List Pt → ℝ → List Pt
  | 0, points, _ => points
  | fuel + 1, points, tolerance =>
    if points.length ≤ 2 then points
    else
      let last := points.length - 1
      let scan := maxScan points (points.getD 0 ⟨0, 0⟩) (points.getD last ⟨0, 0⟩)
      if tolerance < scan.1 then
        let left := simplifyAux fuel (points.take (scan.2 + 1)) tolerance
        let right := simplifyAux fuel (points.drop scan.2) tolerance
        left.dropLast ++ right
      else
        [points.getD 0 ⟨0, 0⟩, points.getD last ⟨0, 0⟩]

/-- `simplifyPolyline(points, tolerance)`. -/
def simplifyPolyline (points : List Pt) (tolerance : ℝ) : List Pt :=
  simplifyAux points.length points tolerance

/-- `p` lies on the segment from `a` to `b`. -/
def onSegment (a b p : Pt) : Prop :=
  ∃ t : ℝ, 0 ≤ t ∧ t ≤ 1 ∧
    p.x = a.x + t * (b.x - a.x) ∧ p.y = a.y + t * (b.y - a.y)

theorem distance_self (p : Pt) : distance p p = 0 := by
  simp [distance]

/-- A point on the segment has perpendicular distance zero. -/
theorem perpDist_eq_zero_of_onSegment (a b p : Pt) (h : onSegment a b p) :
    perpendicularDistance p a b = 0 := by
  obtain ⟨t, ht0, ht1, hx, hy⟩ := h
  simp only [perpendicularDistance]
  by_cases hlen : (b.x - a.x) * (b.x - a.x) + (b.y - a.y) * (b.y - a.y) = 0
  · rw [if_pos hlen]
    have hxz : b.x - a.x = 0 := by
      nlinarith [sq_nonneg (b.x - a.x), sq_nonneg (b.y - a.y)]
    have hyz : b.y - a.y = 0 := by
      nlinarith [sq_nonneg (b.x - a.x), sq_nonneg (b.y - a.y)]
    simp only [distance]
    rw [show p.x - a.x = 0 by rw [hx, hxz]; ring,
        show p.y - a.y = 0 by rw [hy, hyz]; ring]
    norm_num
  · rw [if_neg hlen]
    have hq : ((p.x - a.x) * (b.x - a.x) + (p.y - a.y) * (b.y - a.y)) /
        ((b.x - a.x) * (b.x - a.x) + (b.y - a.y) * (b.y - a.y)) = t := by
      rw [show (p.x - a.x) * (b.x - a.x) + (p.y - a.y) * (b.y - a.y) =
          t * ((b.x - a.x) * (b.x - a.x) + (b.y - a.y) * (b.y - a.y)) by
        rw [hx, hy]; ring]
      field_simp
    rw [hq, min_eq_right ht1, max_eq_right ht0]
    simp only [distance]
    rw [show p.x - (a.x + t * (b.x - a.x)) = 0 by rw [hx]; ring,
        show p.y - (a.y + t * (b.y - a.y)) = 0 by rw [hy]; ring]
    norm_num

/-- If every interior distance in the scan is zero, the scan returns (0,0). -/
theorem maxScan_fold_zero (f : ℕ → ℝ) (l : List ℕ) (hf : ∀ i ∈ l, f i = 0) :
    l.foldl (fun acc i => if acc.1 < f i then (f i, i) else acc)
      ((0, 0) : ℝ × ℕ) = (0, 0) := by
  induction l with
  | nil => rfl
  | cons j l ih =>
    simp only [List.foldl_cons]
    rw [hf j (List.mem_cons_self j l), if_neg (lt_irrefl 0)]
    exact ih (fun i hi => hf i (List.mem_cons_of_mem j hi))

/-- Polylines of at most two points are returned unchanged, whatever the
fuel. -/
theorem simplifyAux_short (fuel : ℕ) (points : List Pt) (tolerance : ℝ)
    (h : points.length ≤ 2) : simplifyAux fuel points tolerance = points := by
  cases fuel with
  | zero => rfl
  | succ n => rw [simplifyAux, if_pos h]

/-- When the interior scan finds maximum distance 0 and the tolerance is
non-negative, `simplifyPolyline` returns the two endpoints. -/
theorem simplify_of_scan_zero (points : List Pt) (tolerance : ℝ)
    (h3 : 3 ≤ points.length) (htol : 0 ≤ tolerance)
    (hscan : maxScan points (points.getD 0 ⟨0, 0⟩)
      (points.getD (points.length - 1) ⟨0, 0⟩) = (0, 0)) :
    simplifyPolyline points tolerance =
      [points.getD 0 ⟨0, 0⟩, points.getD (points.length - 1) ⟨0, 0⟩] := by
  have key : ∀ fuel, simplifyAux (fuel + 1) points tolerance =
      [points.getD 0 ⟨0, 0⟩, points.getD (points.length - 1) ⟨0, 0⟩] := by
    intro fuel
    rw [simplifyAux, if_neg (by omega : ¬points.length ≤ 2)]
    simp only [hscan]
    rw [if_neg (not_lt.mpr htol)]
  have key2 : ∀ fuel, fuel ≠ 0 → simplifyAux fuel points tolerance =
      [points.getD 0 ⟨0, 0⟩, points.getD (points.length - 1) ⟨0, 0⟩] := by
    intro fuel hf
    cases fuel with
    | zero => exact absurd rfl hf
    | succ n => exact key n
  rw [simplifyPolyline]
  exact key2 points.length (by omega)

end Tracer

namespace Claims

/-- C6 (amended): for every polyline of at least two points all of which
lie on the segment between its first and last point, `simplifyPolyline`
with any tolerance ≥ 0 — including 0 — returns exactly the two
endpoints.  (Tolerance 0 does not in general return the original
sequence: interior points on the chord are dropped.) -/
theorem C6_simplify_amended (points : List Pt) (tolerance : ℝ)
    (h2 : 2 ≤ points.length) (htol : 0 ≤ tolerance)
    (hseg : ∀ p ∈ points,
      Tracer.onSegment (points.getD 0 ⟨0, 0⟩)
        (points.getD (points.length - 1) ⟨0, 0⟩) p) :
    Tracer.simplifyPolyline points tolerance =
      [points.getD 0 ⟨0, 0⟩, points.getD (points.length - 1) ⟨0, 0⟩] := by
  rcases points with _ | ⟨a, rest0⟩
  · simp at h2
  rcases rest0 with _ | ⟨b, rest⟩
  · simp at h2
  rcases rest with _ | ⟨c, rest'⟩
  · rfl
  -- at least three points: the scan finds maximum distance 0
  set P : List Pt := a :: b :: c :: rest' with hP
  have hlen : 3 ≤ P.length := by simp [hP]
  have hscan : Tracer.maxScan P (P.getD 0 ⟨0, 0⟩) (P.getD (P.length - 1) ⟨0, 0⟩)
      = (0, 0) := by
    unfold Tracer.maxScan
    apply Tracer.maxScan_fold_zero
    intro i hi
    rw [List.mem_range'_1] at hi
    have hilt : i < P.length := by omega
    have hmem : P.getD i ⟨0, 0⟩ ∈ P := by
      rw [List.getD_eq_getElem _ _ hilt]
      exact List.getElem_mem hilt
    exact Tracer.perpDist_eq_zero_of_onSegment _ _ _ (hseg _ hmem)
  exact Tracer.simplify_of_scan_zero P tolerance hlen htol hscan

/-- The witness polyline for C6: three collinear points on a segment. -/
def c6W : List Pt := [⟨0, 0⟩, ⟨1, 0⟩, ⟨2, 0⟩]

/-- C6 witness: [(0,0),(1,0),(2,0)] with tolerance 2 collapses to its two
endpoints. -/
theorem C6_simplify_amended_witness :
    2 ≤ c6W.length ∧ (0:ℝ) ≤ 2 ∧
    Tracer.simplifyPolyline c6W 2 =
      [c6W.getD 0 ⟨0, 0⟩, c6W.getD (c6W.length - 1) ⟨0, 0⟩] := by
  have hseg : ∀ p ∈ c6W,
      Tracer.onSegment (c6W.getD 0 ⟨0, 0⟩) (c6W.getD (c6W.length - 1) ⟨0, 0⟩) p := by
    intro p hp
    simp only [c6W, List.mem_cons, List.not_mem_nil, or_false] at hp
    rcases hp with rfl | rfl | rfl
    · exact ⟨0, by norm_num [c6W, Tracer.onSegment]⟩
    · exact ⟨1/2, by norm_num [c6W, Tracer.onSegment]⟩
    · exact ⟨1, by norm_num [c6W, Tracer.onSegment]⟩
  exact ⟨by norm_num [c6W], by norm_num,
    C6_simplify_amended c6W 2 (by norm_num [c6W]) (by norm_num) hseg⟩

/-- The second counterexample polyline for C6: collinear with the x-axis,
but the middle point lies outside the segment between the endpoints. -/
def c6L : List Pt := [⟨0, 0⟩, ⟨10, 0⟩, ⟨2, 0⟩]

/-- C6 counterexample: (a) tolerance 0 does not return the original
sequence — the collinear polyline [(0,0),(1,0),(2,0)] collapses to its
endpoints; (b) a polyline lying on a straight line (all y = 0) whose
middle point is outside the endpoint segment is returned with all three
points at tolerance 2 > 0, not as the two endpoints. -/
theorem C6_counterexample :
    (Tracer.simplifyPolyline c6W 0 = [⟨0, 0⟩, ⟨2, 0⟩] ∧
     Tracer.simplifyPolyline c6W 0 ≠ c6W) ∧
    ((∀ p ∈ c6L, p.y = 0) ∧
     Tracer.simplifyPolyline c6L 2 = c6L ∧
     Tracer.simplifyPolyline c6L 2 ≠ [⟨0, 0⟩, ⟨2, 0⟩]) := by
  have hperp1 : Tracer.perpendicularDistance ⟨1, 0⟩ ⟨0, 0⟩ ⟨2, 0⟩ = 0 :=
    Tracer.perpDist_eq_zero_of_onSegment _ _ _
      ⟨1/2, by norm_num, by norm_num, by norm_num, by norm_num⟩
  have hscanW : Tracer.maxScan c6W (c6W.getD 0 ⟨0, 0⟩)
      (c6W.getD (c6W.length - 1) ⟨0, 0⟩) = (0, 0) := by
    simp only [Tracer.maxScan]
    rw [show c6W.length - 2 = 1 from rfl, show List.range' 1 1 = [1] from rfl,
      List.foldl_cons, List.foldl_nil,
      show c6W.getD 1 ⟨0, 0⟩ = ⟨1, 0⟩ from rfl,
      show c6W.getD 0 ⟨0, 0⟩ = ⟨0, 0⟩ from rfl,
      show c6W.getD (c6W.length - 1) ⟨0, 0⟩ = ⟨2, 0⟩ from rfl]
    rw [hperp1, if_neg (lt_irrefl 0)]
  have ha : Tracer.simplifyPolyline c6W 0 = [⟨0, 0⟩, ⟨2, 0⟩] := by
    have := Tracer.simplify_of_scan_zero c6W 0 (by norm_num [c6W]) le_rfl hscanW
    rw [this]
    rfl
  have hperp10 : Tracer.perpendicularDistance ⟨10, 0⟩ ⟨0, 0⟩ ⟨2, 0⟩ = 8 := by
    simp only [Tracer.perpendicularDistance]
    rw [if_neg (by norm_num :
      ¬(((⟨2, 0⟩ : Pt).x - (⟨0, 0⟩ : Pt).x) * ((⟨2, 0⟩ : Pt).x - (⟨0, 0⟩ : Pt).x) +
        ((⟨2, 0⟩ : Pt).y - (⟨0, 0⟩ : Pt).y) * ((⟨2, 0⟩ : Pt).y - (⟨0, 0⟩ : Pt).y) = 0))]
    rw [show (((⟨10, 0⟩ : Pt).x - (⟨0, 0⟩ : Pt).x) *
          ((⟨2, 0⟩ : Pt).x - (⟨0, 0⟩ : Pt).x) +
          ((⟨10, 0⟩ : Pt).y - (⟨0, 0⟩ : Pt).y) *
          ((⟨2, 0⟩ : Pt).y - (⟨0, 0⟩ : Pt).y)) /
          (((⟨2, 0⟩ : Pt).x - (⟨0, 0⟩ : Pt).x) * ((⟨2, 0⟩ : Pt).x - (⟨0, 0⟩ : Pt).x) +
          ((⟨2, 0⟩ : Pt).y - (⟨0, 0⟩ : Pt).y) * ((⟨2, 0⟩ : Pt).y - (⟨0, 0⟩ : Pt).y))
        = 5 by norm_num]
    rw [show min (1:ℝ) 5 = 1 by norm_num, show max (0:ℝ) 1 = 1 by norm_num]
    simp only [Tracer.distance]
    rw [show ((⟨10, 0⟩ : Pt).x - ((⟨0, 0⟩ : Pt).x + 1 * ((⟨2, 0⟩ : Pt).x - (⟨0, 0⟩ : Pt).x))) *
          ((⟨10, 0⟩ : Pt).x - ((⟨0, 0⟩ : Pt).x + 1 * ((⟨2, 0⟩ : Pt).x - (⟨0, 0⟩ : Pt).x))) +
          ((⟨10, 0⟩ : Pt).y - ((⟨0, 0⟩ : Pt).y + 1 * ((⟨2, 0⟩ : Pt).y - (⟨0, 0⟩ : Pt).y))) *
          ((⟨10, 0⟩ : Pt).y - ((⟨0, 0⟩ : Pt).y + 1 * ((⟨2, 0⟩ : Pt).y - (⟨0, 0⟩ : Pt).y)))
        = 8 * 8 by norm_num]
    exact sqrt_eval (by norm_num) rfl
  have hscanL : Tracer.maxScan c6L (c6L.getD 0 ⟨0, 0⟩)
      (c6L.getD (c6L.length - 1) ⟨0, 0⟩) = (8, 1) := by
    simp only [Tracer.maxScan]
    rw [show c6L.length - 2 = 1 from rfl, show List.range' 1 1 = [1] from rfl,
      List.foldl_cons, List.foldl_nil,
      show c6L.getD 1 ⟨0, 0⟩ = ⟨10, 0⟩ from rfl,
      show c6L.getD 0 ⟨0, 0⟩ = ⟨0, 0⟩ from rfl,
      show c6L.getD (c6L.length - 1) ⟨0, 0⟩ = ⟨2, 0⟩ from rfl]
    rw [hperp10, if_pos (by norm_num : (0:ℝ) < 8)]
  have hb : Tracer.simplifyPolyline c6L 2 = c6L := by
    have key : ∀ fuel, Tracer.simplifyAux (fuel + 1) c6L 2 = c6L := by
      intro fuel
      rw [Tracer.simplifyAux, if_neg (by norm_num [c6L] : ¬c6L.length ≤ 2)]
      simp only [hscanL]
      rw [if_pos (by norm_num : (2:ℝ) < 8)]
      rw [show c6L.take (1 + 1) = [⟨0, 0⟩, ⟨10, 0⟩] from rfl,
        show c6L.drop 1 = [⟨10, 0⟩, ⟨2, 0⟩] from rfl]
      rw [Tracer.simplifyAux_short fuel _ 2 (by norm_num),
        Tracer.simplifyAux_short fuel _ 2 (by norm_num)]
      rfl
    rw [Tracer.simplifyPolyline]
    exact key 2
  refine ⟨⟨ha, ?_⟩, ?_, hb, ?_⟩
  · rw [ha]
    intro h
    have := congrArg List.length h
    simp [c6W] at this
  · intro p hp
    simp only [c6L, List.mem_cons, List.not_mem_nil, or_false] at hp
    rcases hp with rfl | rfl | rfl <;> rfl
  · rw [hb]
    intro h
    have := congrArg List.length h
    simp [c6L] at this

end Claims

namespace Canny

/-!
Canny stages 4–5 (simulationRenderer.js).  Image grids are modelled as
functions `ℕ → ℕ → _` indexed by (x, y); the JS flat index `y*width + x`
is in bijection with (x, y) for in-bounds coordinates, and every access
in the loops is in-bounds.
-/

/-- `_nonMaximumSuppression`: the output array is zero-initialised and only
interior pixels (1 ≤ x < width−1, 1 ≤ y < height−1) are written. -/
def nonMaximumSuppression (magnitude direction : ℕ → ℕ → ℝ)
    (width height : ℕ) : ℕ → ℕ → ℝ :=
  fun x y =>
    if 1 ≤ x ∧ x + 1 < width ∧ 1 ≤ y ∧ y + 1 < height then
      let angle := direction x y * (180 / Real.pi)
      let normalizedAngle := if angle < 0 then angle + 180 else angle
      let mag := magnitude x y
      let pair :=
        if (0 ≤ normalizedAngle ∧ normalizedAngle < 22.5) ∨
           (157.5 ≤ normalizedAngle ∧ normalizedAngle ≤ 180) then
          (magnitude (x - 1) y, magnitude (x + 1) y)
        else if 22.5 ≤ normalizedAngle ∧ normalizedAngle < 67.5 then
          (magnitude (x + 1) (y - 1), magnitude (x - 1) (y + 1))
        else if 67.5 ≤ normalizedAngle ∧ normalizedAngle < 112.5 then
          (magnitude x (y - 1), magnitude x (y + 1))
        else
          (magnitude (x - 1) (y - 1), magnitude (x + 1) (y + 1))
      if pair.1 ≤ mag ∧ pair.2 ≤ mag then mag else 0
    else 0

/-- The double-threshold pass of `_hysteresis`, applied to every pixel:
≥ high ⇒ STRONG (255), ≥ low ⇒ WEAK (128), else 0. -/
def doubleThreshold (m : ℕ → ℕ → ℝ) (low high : ℝ) : ℕ → ℕ → ℕ :=
  fun x y =>
    if high ≤ m x y then 255
    else if low ≤ m x y then 128
    else 0

/-- The interior pixels in the row-major order of the promotion loop. -/
def interiorCoords (width height : ℕ) : List (ℕ × ℕ) :=
  (List.range' 1 (height - 2)).flatMap
    (fun y => (List.range' 1 (width - 2)).map (fun x => (x, y)))

/-- The in-place weak-edge promotion loop of `_hysteresis`: a weak interior
pixel becomes strong if any 8-neighbour is strong in the current state,
otherwise 0. -/
def promote (width height : ℕ) (e0 : ℕ → ℕ → ℕ) : ℕ → ℕ → ℕ :=
  (interiorCoords width height).foldl
    (fun e c =>
      if e c.1 c.2 = 128 then
        if e (c.1 - 1) (c.2 - 1) = 255 ∨ e c.1 (c.2 - 1) = 255 ∨
           e (c.1 + 1) (c.2 - 1) = 255 ∨ e (c.1 - 1) c.2 = 255 ∨
           e (c.1 + 1) c.2 = 255 ∨ e (c.1 - 1) (c.2 + 1) = 255 ∨
           e c.1 (c.2 + 1) = 255 ∨ e (c.1 + 1) (c.2 + 1) = 255 then
          fun x y => if x = c.1 ∧ y = c.2 then 255 else e x y
        else
          fun x y => if x = c.1 ∧ y = c.2 then 0 else e x y
      else e)
    e0

/-- `_hysteresis`: double threshold, promotion sweep, then zero every
remaining weak pixel. -/
def hysteresis (m : ℕ → ℕ → ℝ) (width height : ℕ) (low high : ℝ) :
    ℕ → ℕ → ℕ :=
  let edges := doubleThreshold m low high
  let edges' := promote width height edges
  fun x y => if edges' x y = 128 then 0 else edges' x y

/-- The binary edge mask of `detectEdges` steps 4–5: hysteresis applied to
the non-maximum-suppressed magnitudes. -/
def cannyMask (magnitude direction : ℕ → ℕ → ℝ) (width height : ℕ)
    (low high : ℝ) : ℕ → ℕ → ℕ :=
  hysteresis (nonMaximumSuppression magnitude direction width height)
    width height low high

/-- The promotion loop never writes a cell that is not an interior cell. -/
theorem promote_preserves (width height : ℕ) (x y : ℕ)
    (hb : ∀ c ∈ interiorCoords width height, ¬(x = c.1 ∧ y = c.2)) :
    ∀ e0 : ℕ → ℕ → ℕ, promote width height e0 x y = e0 x y := by
  unfold promote
  generalize interiorCoords width height = l at hb
  induction l with
  | nil => intro e0; rfl
  | cons c l ih =>
    intro e0
    simp only [List.foldl_cons]
    have hnc := hb c (List.mem_cons_self c l)
    have ih' := ih (fun d hd => hb d (List.mem_cons_of_mem c hd))
    by_cases hw : e0 c.1 c.2 = 128
    · rw [if_pos hw]
      by_cases hs : e0 (c.1 - 1) (c.2 - 1) = 255 ∨ e0 c.1 (c.2 - 1) = 255 ∨
          e0 (c.1 + 1) (c.2 - 1) = 255 ∨ e0 (c.1 - 1) c.2 = 255 ∨
          e0 (c.1 + 1) c.2 = 255 ∨ e0 (c.1 - 1) (c.2 + 1) = 255 ∨
          e0 c.1 (c.2 + 1) = 255 ∨ e0 (c.1 + 1) (c.2 + 1) = 255
      · rw [if_pos hs, ih']
        exact if_neg hnc
      · rw [if_neg hs, ih']
        exact if_neg hnc
    · rw [if_neg hw, ih']

/-- A border cell is never an interior coordinate. -/
theorem border_not_interior (width height x y : ℕ)
    (hx : x < width) (hy : y < height)
    (hborder : x = 0 ∨ x = width - 1 ∨ y = 0 ∨ y = height - 1) :
    ∀ c ∈ interiorCoords width height, ¬(x = c.1 ∧ y = c.2) := by
  intro c hc
  unfold interiorCoords at hc
  rw [List.mem_flatMap] at hc
  obtain ⟨cy, hcy, hcx⟩ := hc
  rw [List.mem_map] at hcx
  obtain ⟨cx, hcx', rfl⟩ := hcx
  rw [List.mem_range'_1] at hcy hcx'
  rintro ⟨rfl, rfl⟩
  omega

end Canny

namespace Claims

/-- C9 (amended): for every magnitude/direction field (hence every input
image) and every threshold pair with a *positive* high threshold, the
Canny double-threshold + hysteresis stage never classifies a border pixel
as an edge.  (With highThreshold = 0 every border pixel becomes a strong
edge, so positivity is needed.) -/
theorem C9_border_amended (magnitude direction : ℕ → ℕ → ℝ)
    (width height : ℕ) (low high : ℝ) (hhigh : 0 < high) (x y : ℕ)
    (hx : x < width) (hy : y < height)
    (hborder : x = 0 ∨ x = width - 1 ∨ y = 0 ∨ y = height - 1) :
    Canny.cannyMask magnitude direction width height low high x y = 0 := by
  have hnms : Canny.nonMaximumSuppression magnitude direction width height x y
      = 0 := by
    unfold Canny.nonMaximumSuppression
    rw [if_neg]
    omega
  have hdt : Canny.doubleThreshold
      (Canny.nonMaximumSuppression magnitude direction width height)
      low high x y = if low ≤ 0 then 128 else 0 := by
    unfold Canny.doubleThreshold
    rw [hnms, if_neg (not_le.mpr hhigh)]
  have hpres := Canny.promote_preserves width height x y
    (Canny.border_not_interior width height x y hx hy hborder)
  unfold Canny.cannyMask Canny.hysteresis
  rw [hpres, hdt]
  by_cases hl : low ≤ 0
  · rw [if_pos hl, if_pos rfl]
  · rw [if_neg hl, if_neg (by norm_num)]

/-- C9 witness: a 3×3 zero-gradient field with thresholds (50, 100) has a
zero (non-edge) top-left border pixel. -/
theorem C9_border_amended_witness :
    (0:ℝ) < 100 ∧ (0:ℕ) < 3 ∧
    Canny.cannyMask (fun _ _ => 0) (fun _ _ => 0) 3 3 50 100 0 0 = 0 :=
  ⟨by norm_num, by norm_num,
   C9_border_amended (fun _ _ => 0) (fun _ _ => 0) 3 3 50 100 (by norm_num)
     0 0 (by norm_num) (by norm_num) (Or.inl rfl)⟩

/-- C9 counterexample: with lowThreshold = highThreshold = 0 (both within
[0,255]) every pixel of a 3×3 zero-gradient image — border pixels
included — is classified as a strong edge (255). -/
theorem C9_counterexample :
    Canny.cannyMask (fun _ _ => 0) (fun _ _ => 0) 3 3 0 0 0 0 = 255 := by
  have hnms : ∀ x y, Canny.nonMaximumSuppression
      (fun _ _ => 0) (fun _ _ => 0) 3 3 x y = 0 := by
    intro x y
    simp only [Canny.nonMaximumSuppression]
    split
    · split <;> rw [ite_self]
    · rfl
  have hdt : ∀ x y, Canny.doubleThreshold
      (Canny.nonMaximumSuppression (fun _ _ => 0) (fun _ _ => 0) 3 3)
      0 0 x y = 255 := by
    intro x y
    unfold Canny.doubleThreshold
    rw [hnms, if_pos le_rfl]
  unfold Canny.cannyMask Canny.hysteresis
  have hcoords : Canny.interiorCoords 3 3 = [(1, 1)] := rfl
  have hpromote : Canny.promote 3 3
      (Canny.doubleThreshold
        (Canny.nonMaximumSuppression (fun _ _ => 0) (fun _ _ => 0) 3 3) 0 0)
      = Canny.doubleThreshold
        (Canny.nonMaximumSuppression (fun _ _ => 0) (fun _ _ => 0) 3 3) 0 0 := by
    unfold Canny.promote
    rw [hcoords, List.foldl_cons, List.foldl_nil]
    rw [if_neg (by rw [hdt]; norm_num)]
  rw [hpromote, hdt]
  norm_num

end Claims

namespace Tsp

/-- Euclidean distance (tspSolver.js `distance`). -/
def distance (p q : Pt) : ℝ :=
  Real.sqrt ((p.x - q.x) * (p.x - q.x) + (p.y - q.y) * (p.y - q.y))

/-- Sum of distances between consecutive points of a path. -/
def pathLength : List Pt → ℝ
  | [] => 0
  | [_] => 0
  | p :: q :: rest => distance p q + pathLength (q :: rest)

/-- `calculateTourLength(tour, points)`: 0 for fewer than two stops, else
the sum of consecutive distances. -/
def calculateTourLength (tour : List ℕ) (points : List Pt) : ℝ :=
  pathLength (tour.map (fun i => points.getD i ⟨0, 0⟩))

/-- Fold with a `none` accumulator standing for the JS `Infinity` seed of
min/max reductions. -/
def foldOpt (f : ℝ → ℝ → ℝ) (g : Pt → ℝ) (points : List Pt) : Option ℝ :=
  points.foldl
    (fun acc p => some (match acc with | none => g p | some m => f m (g p)))
    none

/-- `SpatialIndex._calculateOptimalGridSize`. -/
def calculateOptimalGridSize (points : List Pt) : ℝ :=
  if points.length = 0 then 10
  else
    let minX := (foldOpt min Pt.x points).getD 0
    let minY := (foldOpt min Pt.y points).getD 0
    let maxX := (foldOpt max Pt.x points).getD 0
    let maxY := (foldOpt max Pt.y points).getD 0
    let area := (maxX - minX) * (maxY - minY)
    let targetCells := Real.sqrt points.length
    let avgDimension := Real.sqrt area
    max 1 (avgDimension / targetCells)

/-- The grid bucket map: JS `Map` keyed by the string `"cellX,cellY"`,
modelled by the integer pair (the key string is in bijection with it);
insertion order of keys and of bucket entries is preserved. -/
abbrev GridMap := List ((ℤ × ℤ) × List (ℕ × Pt))

/-- `_getCellKey`. -/
def cellKey (p : Pt) (gridSize : ℝ) : ℤ × ℤ :=
  (⌊p.x / gridSize⌋, ⌊p.y / gridSize⌋)

/-- Append an entry to the bucket of `k`, creating the bucket at the end
of the map if absent (JS `Map.set` semantics). -/
def gridInsert (g : GridMap) (k : ℤ × ℤ) (v : ℕ × Pt) : GridMap :=
  match g with
  | [] => [(k, [v])]
  | (k', vs) :: rest =>
    if k' = k then (k', vs ++ [v]) :: rest else (k', vs) :: gridInsert rest k v

/-- `_buildIndex`: insert every point under its cell key. -/
def buildGrid (points : List Pt) (gridSize : ℝ) : GridMap :=
  (List.range points.length).foldl
    (fun g i =>
      gridInsert g (cellKey (points.getD i ⟨0, 0⟩) gridSize)
        (i, points.getD i ⟨0, 0⟩))
    []

/-- Grid lookup (`grid.get(cellKey)`). -/
def gridFind (g : GridMap) (k : ℤ × ℤ) : Option (List (ℕ × Pt)) :=
  (g.find? (fun e => e.1 = k)).map Prod.snd

/-- The spatial index (spatialIndex.js constructor with auto grid size). -/
structure SpatialIndex where
  points : List Pt
  gridSize : ℝ
  grid : GridMap

/-- `new SpatialIndex(points)`. -/
def mkSpatialIndex (points : List Pt) : SpatialIndex :=
  let gs := calculateOptimalGridSize points
  ⟨points, gs, buildGrid points gs⟩

/-- The cell offsets `-cellRadius .. cellRadius` of `findInRadius`. -/
def cellOffsets (cellRadius : ℤ) : List ℤ :=
  if cellRadius < 0 then []
  else (List.range (cellRadius.toNat * 2 + 1)).map (fun k => -cellRadius + k)

/-- `findInRadius(point, radius)`: scan the cells within the Chebyshev
cell radius, keep entries within the Euclidean radius, in scan order. -/
def findInRadius (idx : SpatialIndex) (point : Pt) (radius : ℝ) :
    List (ℕ × Pt × ℝ) :=
  let cellX := ⌊point.x / idx.gridSize⌋
  let cellY := ⌊point.y / idx.gridSize⌋
  let cellRadius := ⌈radius / idx.gridSize⌉
  (cellOffsets cellRadius).flatMap fun dx =>
    (cellOffsets cellRadius).flatMap fun dy =>
      match gridFind idx.grid (cellX + dx, cellY + dy) with
      | none => []
      | some items =>
        items.filterMap fun it =>
          if distance point it.2 ≤ radius then
            some (it.1, it.2, distance point it.2)
          else none

/-- The candidate selection of the spatial branch of `nearestNeighbor`:
first unvisited candidate with strictly smaller distance wins
(`none` accumulator = the JS `Infinity` seed). -/
def pickCandidate (cands : List (ℕ × Pt × ℝ)) (visited : List ℕ) :
    Option (ℕ × ℝ) :=
  cands.foldl
    (fun acc c =>
      if c.1 ∈ visited then acc
      else
        match acc with
        | none => some (c.1, c.2.2)
        | some jd => if c.2.2 < jd.2 then some (c.1, c.2.2) else acc)
    none

/-- The expanding-ring search of `nearestNeighbor`: double the radius until
a candidate is found or the radius exceeds `maxRadius`.  The fuel only
bounds the doubling count; callers pass enough fuel that exhaustion would
require `radius > maxRadius` already (the grid size is ≥ 1). -/
def expandSearch (idx : SpatialIndex) (current : Pt) (visited : List ℕ)
    (maxRadius : ℝ) : ℕ → ℝ → Option (ℕ × ℝ)
  | 0, _ => none
  | fuel + 1, radius =>
    if radius ≤ maxRadius then
      match pickCandidate (findInRadius idx current radius) visited with
      | some r => some r
      | none => expandSearch idx current visited maxRadius fuel (radius * 2)
    else none

/-- One step of the brute-force nearest scan: skip visited indices, then
strictly improve on the running best (`none` = the `Infinity` seed). -/
def bruteStep (points : List Pt) (visited : List ℕ) (current : Pt)
    (acc : Option (ℕ × ℝ)) (i : ℕ) : Option (ℕ × ℝ) :=
  if i ∈ visited then acc
  else
    match acc with
    | none => some (i, distance current (points.getD i ⟨0, 0⟩))
    | some jd =>
      if distance current (points.getD i ⟨0, 0⟩) < jd.2 then
        some (i, distance current (points.getD i ⟨0, 0⟩))
      else acc

/-- The brute-force nearest scan of `nearestNeighbor` (ascending index,
strict improvement, so the earliest minimum wins). -/
def bruteNearest (points : List Pt) (visited : List ℕ) (current : Pt) :
    Option (ℕ × ℝ) :=
  (List.range points.length).foldl (bruteStep points visited current) none

/-- The greedy construction loop of `nearestNeighbor`.  One fuel unit per
iteration; each iteration either appends one unvisited index or stops, so
`fuel = points.length` (as passed by `nearestNeighbor`) never runs out. -/
def nnAux (points : List Pt) (useSpatial : Bool) (idx : SpatialIndex)
    (maxRadius : ℝ) : ℕ → List ℕ → List ℕ → ℕ → List ℕ
  | 0, _, tour, _ => tour
  | fuel + 1, visited, tour, current =>
    if visited.length < points.length then
      match (if useSpatial then
          expandSearch idx (points.getD current ⟨0, 0⟩) visited maxRadius
            ((Int.toNat ⌈maxRadius⌉).size + 1) idx.gridSize
        else bruteNearest points visited (points.getD current ⟨0, 0⟩)) with
      | none => tour
      | some jd =>
        nnAux points useSpatial idx maxRadius fuel
          (visited ++ [jd.1]) (tour ++ [jd.1]) jd.1
    else tour

/-- `nearestNeighbor(points, startIndex)`. -/
def nearestNeighbor (points : List Pt) (startIndex : ℕ) : List ℕ :=
  if points.length = 0 then []
  else if points.length = 1 then [0]
  else
    let useSpatial := decide (1000 < points.length)
    let idx := mkSpatialIndex points
    let maxRadius :=
      max |points.foldl (fun m p => max m p.x) 0|
          |points.foldl (fun m p => max m p.y) 0| * 2
    nnAux points useSpatial idx maxRadius points.length
      [startIndex] [startIndex] startIndex

/-- The (i, j) pairs tried by one 2-opt pass, in loop order:
`1 ≤ i < len−2`, `i+1 ≤ j < len−1`. -/
def twoOptPairs (len : ℕ) : List (ℕ × ℕ) :=
  (List.range' 1 (len - 3)).flatMap
    (fun i => (List.range' (i + 1) (len - 2 - i)).map (fun j => (i, j)))

/-- Reverse the sub-tour between positions `i` and `j` (inclusive). -/
def twoOptSwap (bt : List ℕ) (i j : ℕ) : List ℕ :=
  bt.take i ++ ((bt.drop i).take (j + 1 - i)).reverse ++ bt.drop (j + 1)

/-- The tour stop at position `k`: `points[bestTour[k]]`. -/
def stop (points : List Pt) (bt : List ℕ) (k : ℕ) : Pt :=
  points.getD (bt.getD k 0) ⟨0, 0⟩

/-- One candidate edge-pair trial of the 2-opt pass, with
A = stop (i−1), B = stop i, C = stop j, D = stop (j+1): swap exactly when
`dist(A,C) + dist(B,D) < dist(A,B) + dist(C,D)`. -/
def twoOptStep (points : List Pt) (acc : List ℕ × Bool) (ij : ℕ × ℕ) :
    List ℕ × Bool :=
  if distance (stop points acc.1 (ij.1 - 1)) (stop points acc.1 ij.2) +
      distance (stop points acc.1 ij.1) (stop points acc.1 (ij.2 + 1)) <
     distance (stop points acc.1 (ij.1 - 1)) (stop points acc.1 ij.1) +
      distance (stop points acc.1 ij.2) (stop points acc.1 (ij.2 + 1)) then
    (twoOptSwap acc.1 ij.1 ij.2, true)
  else acc

/-- One full i/j sweep of the 2-opt loop, with the `improved` flag. -/
def twoOptPass (points : List Pt) (len : ℕ) (bt : List ℕ) :
    List ℕ × Bool :=
  (twoOptPairs len).foldl (twoOptStep points) (bt, false)

/-- The outer `while (improved && iterations < maxIterations)` loop. -/
def twoOptLoop (points : List Pt) (len : ℕ) : ℕ → List ℕ → List ℕ
  | 0, bt => bt
  | fuel + 1, bt =>
    let r := twoOptPass points len bt
    if r.2 then twoOptLoop points len fuel r.1 else r.1

/-- `twoOpt(tour, points, maxIterations)`. -/
def twoOpt (tour : List ℕ) (points : List Pt) (maxIterations : ℕ) :
    List ℕ :=
  if tour.length < 4 then tour
  else twoOptLoop points tour.length maxIterations tour

/-- `solveTSP(points, {startIndex, optimize, maxIterations})`. -/
def solveTSP (points : List Pt) (startIndex : ℕ) (optimize : Bool)
    (maxIterations : ℕ) : List ℕ :=
  let tour := nearestNeighbor points startIndex
  if optimize ∧ 4 ≤ tour.length then twoOpt tour points maxIterations
  else tour

end Tsp

end MuralBot

namespace MuralBot

namespace Tsp

theorem distance_symm (p q : Pt) : distance p q = distance q p := by
  unfold distance
  congr 1
  ring

theorem pathLength_cons₂ (p q : Pt) (l : List Pt) :
    pathLength (p :: q :: l) = distance p q + pathLength (q :: l) := rfl

theorem headD_append (M B : List Pt) (d : Pt) (hM : M ≠ []) :
    (M ++ B).headD d = M.headD d := by
  cases M with
  | nil => exact absurd rfl hM
  | cons a M' => rfl

theorem getLastD_irrel (l : List Pt) (d1 d2 : Pt) (h : l ≠ []) :
    l.getLastD d1 = l.getLastD d2 := by
  cases l with
  | nil => exact absurd rfl h
  | cons a l' =>
    have hl : (a :: l').length - 1 < (a :: l').length := by simp
    rw [List.getLastD_eq_getLast?, List.getLastD_eq_getLast?,
      List.getLast?_eq_getElem?, List.getElem?_eq_getElem hl]
    rfl

theorem pathLength_append (xs ys : List Pt) (hx : xs ≠ []) (hy : ys ≠ []) :
    pathLength (xs ++ ys) =
      pathLength xs + distance (xs.getLastD ⟨0, 0⟩) (ys.headD ⟨0, 0⟩) +
        pathLength ys := by
  induction xs with
  | nil => exact absurd rfl hx
  | cons a xs ih =>
    cases xs with
    | nil =>
      cases ys with
      | nil => exact absurd rfl hy
      | cons b ys' =>
        rw [show ([a] : List Pt) ++ b :: ys' = a :: b :: ys' from rfl,
          pathLength_cons₂,
          show ([a] : List Pt).getLastD ⟨0, 0⟩ = a from rfl,
          List.headD_cons,
          show pathLength [a] = 0 from rfl]
        ring
    | cons a' xs' =>
      have ihne : (a' :: xs') ≠ [] := by simp
      rw [show (a :: a' :: xs') ++ ys = a :: ((a' :: xs') ++ ys) from rfl,
        show (a' :: xs') ++ ys = a' :: (xs' ++ ys) from rfl,
        pathLength_cons₂,
        show (a' : Pt) :: (xs' ++ ys) = (a' :: xs') ++ ys from rfl,
        ih ihne, pathLength_cons₂,
        show (a :: a' :: xs').getLastD ⟨0, 0⟩
          = (a' :: xs').getLastD ⟨0, 0⟩ from by
            rw [List.getLastD_cons]
            exact getLastD_irrel _ _ _ ihne]
      ring

theorem pathLength_reverse (l : List Pt) : pathLength l.reverse = pathLength l := by
  induction l with
  | nil => rfl
  | cons a l ih =>
    cases l with
    | nil => rfl
    | cons b l' =>
      rw [List.reverse_cons, pathLength_append _ _ (by simp) (by simp), ih]
      rw [List.getLastD_eq_getLast?, List.getLast?_reverse,
        show (b :: l').head? = some b from rfl,
        show (some b).getD (⟨0, 0⟩ : Pt) = b from rfl,
        pathLength_cons₂,
        show (([a] : List Pt)).headD ⟨0, 0⟩ = a from rfl,
        show pathLength [a] = 0 from rfl,
        distance_symm b a]
      ring

theorem append_ne_nil_right (M B : List Pt) (hB : B ≠ []) : M ++ B ≠ [] := by
  intro h
  rw [List.append_eq_nil] at h
  exact hB h.2

theorem pathLength_swap (L : List Pt) (i j : ℕ)
    (h1 : 1 ≤ i) (hij : i < j) (hj : j + 1 < L.length) :
    pathLength (L.take i ++ ((L.drop i).take (j + 1 - i)).reverse ++
        L.drop (j + 1))
      = pathLength L
        - (distance (L.getD (i - 1) ⟨0, 0⟩) (L.getD i ⟨0, 0⟩)
           + distance (L.getD j ⟨0, 0⟩) (L.getD (j + 1) ⟨0, 0⟩))
        + (distance (L.getD (i - 1) ⟨0, 0⟩) (L.getD j ⟨0, 0⟩)
           + distance (L.getD i ⟨0, 0⟩) (L.getD (j + 1) ⟨0, 0⟩)) := by
  have hAlen : (L.take i).length = i := by
    rw [List.length_take]
    exact Nat.min_eq_left (by omega)
  have hMlen : ((L.drop i).take (j + 1 - i)).length = j + 1 - i := by
    rw [List.length_take, List.length_drop]
    exact Nat.min_eq_left (by omega)
  have hBlen : (L.drop (j + 1)).length = L.length - (j + 1) := List.length_drop _ _
  have hAne : L.take i ≠ [] := by
    intro h; rw [h] at hAlen; simp at hAlen; omega
  have hMne : (L.drop i).take (j + 1 - i) ≠ [] := by
    intro h; rw [h] at hMlen; simp at hMlen; omega
  have hBne : L.drop (j + 1) ≠ [] := by
    intro h; rw [h] at hBlen; simp at hBlen; omega
  have hgA : (L.take i).getLastD ⟨0, 0⟩ = L.getD (i - 1) ⟨0, 0⟩ := by
    rw [List.getLastD_eq_getLast?, List.getLast?_eq_getElem?, hAlen,
      List.getElem?_take, if_pos (by omega : i - 1 < i),
      List.getD_eq_getElem?_getD]
  have hgMh : ((L.drop i).take (j + 1 - i)).headD ⟨0, 0⟩ = L.getD i ⟨0, 0⟩ := by
    rw [List.headD_eq_head?, List.head?_eq_getElem?, List.getElem?_take,
      if_pos (by omega : 0 < j + 1 - i), List.getElem?_drop, Nat.add_zero,
      List.getD_eq_getElem?_getD]
  have hgMl : ((L.drop i).take (j + 1 - i)).getLastD ⟨0, 0⟩
      = L.getD j ⟨0, 0⟩ := by
    rw [List.getLastD_eq_getLast?, List.getLast?_eq_getElem?, hMlen,
      List.getElem?_take, if_pos (by omega : j + 1 - i - 1 < j + 1 - i),
      List.getElem?_drop, List.getD_eq_getElem?_getD,
      show i + (j + 1 - i - 1) = j by omega]
  have hgB : (L.drop (j + 1)).headD ⟨0, 0⟩ = L.getD (j + 1) ⟨0, 0⟩ := by
    rw [List.headD_eq_head?, List.head?_eq_getElem?, List.getElem?_drop,
      List.getD_eq_getElem?_getD, Nat.add_zero]
  have hdecomp : L = L.take i ++ ((L.drop i).take (j + 1 - i) ++ L.drop (j + 1)) := by
    conv_lhs => rw [← List.take_append_drop i L]
    congr 1
    conv_lhs => rw [← List.take_append_drop (j + 1 - i) (L.drop i)]
    congr 1
    rw [List.drop_drop]
    congr 1
    omega
  have e1 : pathLength L =
      pathLength (L.take i)
        + distance (L.getD (i - 1) ⟨0, 0⟩) (L.getD i ⟨0, 0⟩)
        + pathLength ((L.drop i).take (j + 1 - i))
        + distance (L.getD j ⟨0, 0⟩) (L.getD (j + 1) ⟨0, 0⟩)
        + pathLength (L.drop (j + 1)) := by
    conv_lhs => rw [hdecomp]
    rw [pathLength_append _ _ hAne (append_ne_nil_right _ _ hBne),
      pathLength_append _ _ hMne hBne,
      headD_append _ _ _ hMne, hgA, hgMh, hgMl, hgB]
    ring
  have e2 : pathLength (L.take i ++ ((L.drop i).take (j + 1 - i)).reverse ++
        L.drop (j + 1))
      = pathLength (L.take i)
        + distance (L.getD (i - 1) ⟨0, 0⟩) (L.getD j ⟨0, 0⟩)
        + pathLength ((L.drop i).take (j + 1 - i))
        + distance (L.getD i ⟨0, 0⟩) (L.getD (j + 1) ⟨0, 0⟩)
        + pathLength (L.drop (j + 1)) := by
    rw [List.append_assoc,
      pathLength_append _ _ hAne
        (append_ne_nil_right _ _ hBne),
      pathLength_append _ _ (by simp [hMne]) hBne,
      headD_append _ _ _ (by simp [hMne]),
      pathLength_reverse,
      show ((L.drop i).take (j + 1 - i)).reverse.headD ⟨0, 0⟩
          = ((L.drop i).take (j + 1 - i)).getLastD ⟨0, 0⟩ from by
        rw [List.headD_eq_head?, List.head?_reverse, List.getLastD_eq_getLast?],
      show ((L.drop i).take (j + 1 - i)).reverse.getLastD ⟨0, 0⟩
          = ((L.drop i).take (j + 1 - i)).headD ⟨0, 0⟩ from by
        rw [List.getLastD_eq_getLast?, List.getLast?_reverse, List.headD_eq_head?],
      hgA, hgMh, hgMl, hgB]
    ring
  rw [e2, e1]
  ring

end Tsp

end MuralBot

namespace MuralBot

namespace Tsp

theorem stop_eq_map_getD (points : List Pt) (bt : List ℕ) (k : ℕ)
    (hk : k < bt.length) :
    (bt.map (fun i => points.getD i ⟨0, 0⟩)).getD k ⟨0, 0⟩
      = stop points bt k := by
  rw [List.getD_eq_getElem?_getD, List.getElem?_map,
    List.getElem?_eq_getElem hk, stop, List.getD_eq_getElem _ _ hk]
  rfl

theorem calc_swap (points : List Pt) (bt : List ℕ) (i j : ℕ)
    (h1 : 1 ≤ i) (hij : i < j) (hj : j + 1 < bt.length) :
    calculateTourLength (twoOptSwap bt i j) points =
      calculateTourLength bt points
        - (distance (stop points bt (i - 1)) (stop points bt i)
           + distance (stop points bt j) (stop points bt (j + 1)))
        + (distance (stop points bt (i - 1)) (stop points bt j)
           + distance (stop points bt i) (stop points bt (j + 1))) := by
  unfold calculateTourLength twoOptSwap
  rw [List.map_append, List.map_append, List.map_reverse, List.map_take,
    List.map_drop, List.map_take, List.map_drop]
  have hlen : (bt.map (fun i => points.getD i ⟨0, 0⟩)).length = bt.length :=
    List.length_map _ _
  rw [pathLength_swap _ i j h1 hij (by rw [hlen]; exact hj)]
  rw [stop_eq_map_getD points bt (i - 1) (by omega),
    stop_eq_map_getD points bt i (by omega),
    stop_eq_map_getD points bt j (by omega),
    stop_eq_map_getD points bt (j + 1) (by omega)]

theorem twoOptSwap_length (bt : List ℕ) (i j : ℕ)
    (hij : i ≤ j + 1) (hj : j + 1 ≤ bt.length) :
    (twoOptSwap bt i j).length = bt.length := by
  unfold twoOptSwap
  rw [List.length_append, List.length_append, List.length_reverse,
    List.length_take, List.length_take, List.length_drop, List.length_drop]
  rw [Nat.min_eq_left (by omega), Nat.min_eq_left (by omega)]
  omega

theorem twoOptSwap_perm (bt : List ℕ) (i j : ℕ)
    (hij : i ≤ j + 1) : (twoOptSwap bt i j).Perm bt := by
  have hdecomp : bt = bt.take i ++ ((bt.drop i).take (j + 1 - i) ++
      bt.drop (j + 1)) := by
    conv_lhs => rw [← List.take_append_drop i bt]
    congr 1
    conv_lhs => rw [← List.take_append_drop (j + 1 - i) (bt.drop i)]
    congr 1
    rw [List.drop_drop]
    congr 1
    omega
  conv_rhs => rw [hdecomp]
  unfold twoOptSwap
  rw [List.append_assoc]
  exact List.Perm.append_left _
    (List.Perm.append_right _ (List.reverse_perm _))

theorem twoOptStep_spec (points : List Pt) (len : ℕ) (acc : List ℕ × Bool)
    (ij : ℕ × ℕ) (hmem : ij ∈ twoOptPairs len) (hlen : acc.1.length = len) :
    (twoOptStep points acc ij).1.length = len ∧
    calculateTourLength (twoOptStep points acc ij).1 points ≤
      calculateTourLength acc.1 points ∧
    (twoOptStep points acc ij).1.Perm acc.1 := by
  have hbounds : 1 ≤ ij.1 ∧ ij.1 < ij.2 ∧ ij.2 + 1 < len := by
    unfold twoOptPairs at hmem
    rw [List.mem_flatMap] at hmem
    obtain ⟨i, hi, hmem2⟩ := hmem
    rw [List.mem_map] at hmem2
    obtain ⟨j, hj, rfl⟩ := hmem2
    rw [List.mem_range'_1] at hi hj
    exact (by omega : 1 ≤ i ∧ i < j ∧ j + 1 < len)
  unfold twoOptStep
  by_cases hc :
      distance (stop points acc.1 (ij.1 - 1)) (stop points acc.1 ij.2) +
        distance (stop points acc.1 ij.1) (stop points acc.1 (ij.2 + 1)) <
      distance (stop points acc.1 (ij.1 - 1)) (stop points acc.1 ij.1) +
        distance (stop points acc.1 ij.2) (stop points acc.1 (ij.2 + 1))
  · rw [if_pos hc]
    refine ⟨?_, ?_, ?_⟩
    · exact (twoOptSwap_length acc.1 ij.1 ij.2 (by omega) (by omega)).trans hlen
    · rw [calc_swap points acc.1 ij.1 ij.2 (by omega) (by omega) (by omega)]
      linarith
    · exact twoOptSwap_perm acc.1 ij.1 ij.2 (by omega)
  · rw [if_neg hc]
    exact ⟨hlen, le_refl _, List.Perm.refl _⟩

theorem twoOptFold_spec (points : List Pt) (len : ℕ) (l : List (ℕ × ℕ))
    (hl : ∀ ij ∈ l, ij ∈ twoOptPairs len) :
    ∀ acc : List ℕ × Bool, acc.1.length = len →
      (l.foldl (twoOptStep points) acc).1.length = len ∧
      calculateTourLength (l.foldl (twoOptStep points) acc).1 points ≤
        calculateTourLength acc.1 points ∧
      (l.foldl (twoOptStep points) acc).1.Perm acc.1 := by
  induction l with
  | nil => exact fun acc h => ⟨h, le_refl _, List.Perm.refl _⟩
  | cons ij l ih =>
    intro acc hacc
    simp only [List.foldl_cons]
    have hstep := twoOptStep_spec points len acc ij
      (hl ij (List.mem_cons_self ij l)) hacc
    have hrec := ih (fun x hx => hl x (List.mem_cons_of_mem ij hx))
      (twoOptStep points acc ij) hstep.1
    exact ⟨hrec.1, le_trans hrec.2.1 hstep.2.1, hrec.2.2.trans hstep.2.2⟩

theorem twoOptLoop_spec (points : List Pt) (len : ℕ) :
    ∀ (fuel : ℕ) (bt : List ℕ), bt.length = len →
      calculateTourLength (twoOptLoop points len fuel bt) points ≤
        calculateTourLength bt points ∧
      (twoOptLoop points len fuel bt).Perm bt := by
  intro fuel
  induction fuel with
  | zero => exact fun bt _ => ⟨le_refl _, List.Perm.refl _⟩
  | succ fuel ih =>
    intro bt hbt
    rw [twoOptLoop]
    have hpass := twoOptFold_spec points len (twoOptPairs len)
      (fun _ h => h) (bt, false) hbt
    by_cases himp : (twoOptPass points len bt).2
    · rw [if_pos himp]
      have hrec := ih (twoOptPass points len bt).1 hpass.1
      exact ⟨le_trans hrec.1 hpass.2.1, hrec.2.trans hpass.2.2⟩
    · rw [if_neg himp]
      exact ⟨hpass.2.1, hpass.2.2⟩

theorem twoOpt_spec (tour : List ℕ) (points : List Pt) (maxIter : ℕ) :
    calculateTourLength (twoOpt tour points maxIter) points ≤
      calculateTourLength tour points ∧
    (twoOpt tour points maxIter).Perm tour := by
  unfold twoOpt
  by_cases h4 : tour.length < 4
  · rw [if_pos h4]
    exact ⟨le_refl _, List.Perm.refl _⟩
  · rw [if_neg h4]
    exact twoOptLoop_spec points tour.length maxIter tour rfl

end Tsp

namespace Claims

/-- C7: for every point set (in particular any with ≥ 4 points) the tour
returned by `twoOpt` starting from the nearest-neighbor tour is no longer
than the nearest-neighbor tour itself: 2-opt only accepts strictly
improving edge-pair swaps. -/
theorem C7_twoOpt_no_longer (points : List Pt) (start maxIter : ℕ)
    (h4 : 4 ≤ points.length) :
    Tsp.calculateTourLength
        (Tsp.twoOpt (Tsp.nearestNeighbor points start) points maxIter) points ≤
      Tsp.calculateTourLength (Tsp.nearestNeighbor points start) points :=
  (Tsp.twoOpt_spec (Tsp.nearestNeighbor points start) points maxIter).1

/-- C7 witness: four collinear points. -/
theorem C7_twoOpt_no_longer_witness :
    4 ≤ ([⟨0, 0⟩, ⟨1, 0⟩, ⟨2, 0⟩, ⟨3, 0⟩] : List Pt).length ∧
    Tsp.calculateTourLength
        (Tsp.twoOpt
          (Tsp.nearestNeighbor [⟨0, 0⟩, ⟨1, 0⟩, ⟨2, 0⟩, ⟨3, 0⟩] 0)
          [⟨0, 0⟩, ⟨1, 0⟩, ⟨2, 0⟩, ⟨3, 0⟩] 1000)
        [⟨0, 0⟩, ⟨1, 0⟩, ⟨2, 0⟩, ⟨3, 0⟩] ≤
      Tsp.calculateTourLength
        (Tsp.nearestNeighbor [⟨0, 0⟩, ⟨1, 0⟩, ⟨2, 0⟩, ⟨3, 0⟩] 0)
        [⟨0, 0⟩, ⟨1, 0⟩, ⟨2, 0⟩, ⟨3, 0⟩] :=
  ⟨by norm_num,
   C7_twoOpt_no_longer [⟨0, 0⟩, ⟨1, 0⟩, ⟨2, 0⟩, ⟨3, 0⟩] 0 1000 (by norm_num)⟩

end Claims

end MuralBot

namespace MuralBot

namespace Tsp

theorem bruteStep_ne_none (points : List Pt) (visited : List ℕ)
    (current : Pt) (x : ℕ × ℝ) (i : ℕ) :
    bruteStep points visited current (some x) i ≠ none := by
  unfold bruteStep
  by_cases hv : i ∈ visited
  · rw [if_pos hv]; exact Option.noConfusion
  · rw [if_neg hv]
    dsimp only
    by_cases hd : distance current (points.getD i ⟨0, 0⟩) < x.2
    · rw [if_pos hd]; exact Option.noConfusion
    · rw [if_neg hd]; exact Option.noConfusion

theorem foldl_bruteStep_some (points : List Pt) (visited : List ℕ)
    (current : Pt) (l : List ℕ) :
    ∀ x : ℕ × ℝ,
      l.foldl (bruteStep points visited current) (some x) ≠ none := by
  induction l with
  | nil => intro x h; exact Option.noConfusion h
  | cons i l ih =>
    intro x
    simp only [List.foldl_cons]
    cases hs : bruteStep points visited current (some x) i with
    | none => exact absurd hs (bruteStep_ne_none points visited current x i)
    | some y => exact ih y

theorem bruteNearest_none (points : List Pt) (visited : List ℕ)
    (current : Pt)
    (h : bruteNearest points visited current = none) :
    ∀ i < points.length, i ∈ visited := by
  have key : ∀ l : List ℕ,
      l.foldl (bruteStep points visited current) none = none →
      ∀ i ∈ l, i ∈ visited := by
    intro l
    induction l with
    | nil => intro _ i hi; exact absurd hi (List.not_mem_nil i)
    | cons i l ih =>
      intro hfold i' hi'
      simp only [List.foldl_cons] at hfold
      by_cases hv : i ∈ visited
      · rw [bruteStep, if_pos hv] at hfold
        rcases List.mem_cons.mp hi' with rfl | hmem
        · exact hv
        · exact ih hfold i' hmem
      · rw [bruteStep, if_neg hv] at hfold
        exact absurd hfold (foldl_bruteStep_some points visited current l _)
  intro i hi
  exact key (List.range points.length) h i (List.mem_range.mpr hi)

theorem bruteNearest_some_spec (points : List Pt) (visited : List ℕ)
    (current : Pt) (jd : ℕ × ℝ)
    (h : bruteNearest points visited current = some jd) :
    jd.1 ∉ visited ∧ jd.1 < points.length := by
  have key : ∀ (l : List ℕ) (acc : Option (ℕ × ℝ)),
      (∀ x : ℕ × ℝ, acc = some x → x.1 ∉ visited ∧ x.1 < points.length) →
      (∀ i ∈ l, i < points.length) →
      ∀ x : ℕ × ℝ, l.foldl (bruteStep points visited current) acc = some x →
        x.1 ∉ visited ∧ x.1 < points.length := by
    intro l
    induction l with
    | nil => intro acc hacc _ x hx; exact hacc x hx
    | cons i l ih =>
      intro acc hacc hbd x hx
      simp only [List.foldl_cons] at hx
      refine ih (bruteStep points visited current acc i) ?_
        (fun i' hi' => hbd i' (List.mem_cons_of_mem i hi')) x hx
      intro y hy
      unfold bruteStep at hy
      by_cases hv : i ∈ visited
      · rw [if_pos hv] at hy; exact hacc y hy
      · rw [if_neg hv] at hy
        cases hA : acc with
        | none =>
          rw [hA] at hy
          cases hy
          exact ⟨hv, hbd i (List.mem_cons_self i l)⟩
        | some z =>
          rw [hA] at hy
          dsimp only at hy
          by_cases hd : distance current (points.getD i ⟨0, 0⟩) < z.2
          · rw [if_pos hd] at hy
            cases hy
            exact ⟨hv, hbd i (List.mem_cons_self i l)⟩
          · rw [if_neg hd] at hy
            exact hacc y (hA.trans hy)
  exact key (List.range points.length) none (fun x hx => Option.noConfusion hx)
    (fun i hi => List.mem_range.mp hi) jd h

theorem exists_unvisited (visited : List ℕ) (n : ℕ) (hnd : visited.Nodup)
    (hbd : ∀ v ∈ visited, v < n) (hlt : visited.length < n) :
    ∃ i, i < n ∧ i ∉ visited := by
  by_contra h
  push_neg at h
  have hsub : Finset.range n ⊆ visited.toFinset := fun x hx =>
    List.mem_toFinset.mpr (h x (Finset.mem_range.mp hx))
  have hcard := Finset.card_le_card hsub
  rw [Finset.card_range, List.toFinset_card_of_nodup hnd] at hcard
  omega

theorem perm_range_of_full (visited : List ℕ) (n : ℕ) (hnd : visited.Nodup)
    (hbd : ∀ v ∈ visited, v < n) (hge : n ≤ visited.length) :
    visited.Perm (List.range n) := by
  have hsub : visited.toFinset ⊆ Finset.range n := fun x hx =>
    Finset.mem_range.mpr (hbd x (List.mem_toFinset.mp hx))
  have heq : visited.toFinset = Finset.range n := by
    apply Finset.eq_of_subset_of_card_le hsub
    rw [Finset.card_range, List.toFinset_card_of_nodup hnd]
    exact hge
  apply List.perm_of_nodup_nodup_toFinset_eq hnd (List.nodup_range n)
  rw [heq]
  ext x
  simp

theorem nnAux_perm (points : List Pt) (idx : SpatialIndex) (maxR : ℝ) :
    ∀ (fuel : ℕ) (visited tour : List ℕ) (current : ℕ),
      tour = visited → visited.Nodup →
      (∀ v ∈ visited, v < points.length) →
      points.length ≤ fuel + visited.length →
      (nnAux points false idx maxR fuel visited tour current).Perm
        (List.range points.length) := by
  intro fuel
  induction fuel with
  | zero =>
    intro visited tour current htv hnd hbd hfl
    rw [nnAux, htv]
    exact perm_range_of_full visited _ hnd hbd (by omega)
  | succ fuel ih =>
    intro visited tour current htv hnd hbd hfl
    rw [nnAux]
    by_cases hlt : visited.length < points.length
    · rw [if_pos hlt]
      rw [if_neg (by simp : ¬(false = true))]
      obtain ⟨i0, hi0n, hi0v⟩ :=
        exists_unvisited visited points.length hnd hbd hlt
      cases hbn : bruteNearest points visited (points.getD current ⟨0, 0⟩) with
      | none =>
        exact absurd (bruteNearest_none points visited _ hbn i0 hi0n) hi0v
      | some jd =>
        have hspec := bruteNearest_some_spec points visited _ jd hbn
        apply ih (visited ++ [jd.1]) (tour ++ [jd.1]) jd.1
        · rw [htv]
        · rw [List.nodup_append]
          refine ⟨hnd, List.nodup_singleton _, fun a ha hb => ?_⟩
          rw [List.mem_singleton] at hb
          subst hb
          exact hspec.1 ha
        · intro v hv
          rcases List.mem_append.mp hv with hv1 | hv2
          · exact hbd v hv1
          · rw [List.mem_singleton] at hv2
            subst hv2
            exact hspec.2
        · rw [List.length_append, List.length_singleton]
          omega
    · rw [if_neg hlt, htv]
      exact perm_range_of_full visited _ hnd hbd (by omega)

end Tsp

end MuralBot

namespace MuralBot

namespace Tsp

theorem foldOpt_replicate (f : ℝ → ℝ → ℝ) (g : Pt → ℝ) (c : Pt)
    (hf : f (g c) (g c) = g c) :
    ∀ n, foldOpt f g (List.replicate (n + 1) c) = some (g c) := by
  have haux : ∀ m, List.foldl
      (fun acc p => some (match acc with | none => g p | some m' => f m' (g p)))
      (some (g c)) (List.replicate m c) = some (g c) := by
    intro m
    induction m with
    | zero => rfl
    | succ m ihm =>
      rw [List.replicate_succ, List.foldl_cons]
      change List.foldl _ (some (f (g c) (g c))) _ = _
      rw [hf]
      exact ihm
  intro n
  unfold foldOpt
  rw [List.replicate_succ, List.foldl_cons]
  change List.foldl _ (some (g c)) _ = _
  exact haux n

theorem foldl_max_replicate (g : Pt → ℝ) (hg : g ⟨0, 0⟩ = 0) :
    ∀ (n : ℕ) (a : ℝ), 0 ≤ a →
      (List.replicate n (⟨0, 0⟩ : Pt)).foldl (fun m p => max m (g p)) a = a := by
  intro n
  induction n with
  | zero => intro a _; rfl
  | succ n ihn =>
    intro a ha
    rw [List.replicate_succ, List.foldl_cons]
    change List.foldl _ (max a (g ⟨0, 0⟩)) _ = _
    rw [hg, max_eq_left ha]
    exact ihn a ha

theorem mkSpatialIndex_gridSize (points : List Pt) :
    (mkSpatialIndex points).gridSize = calculateOptimalGridSize points := rfl

theorem gridSize_replicate :
    (mkSpatialIndex (List.replicate 1001 (⟨0, 0⟩ : Pt))).gridSize = 1 := by
  rw [mkSpatialIndex_gridSize]
  simp only [calculateOptimalGridSize]
  rw [if_neg (by simp : ¬(List.replicate 1001 (⟨0, 0⟩ : Pt)).length = 0)]
  rw [show (1001 : ℕ) = 1000 + 1 from rfl]
  rw [foldOpt_replicate min Pt.x _ (min_self _) 1000,
    foldOpt_replicate min Pt.y _ (min_self _) 1000,
    foldOpt_replicate max Pt.x _ (max_self _) 1000,
    foldOpt_replicate max Pt.y _ (max_self _) 1000]
  simp only [Option.getD_some]
  rw [show ((0 : ℝ) - 0) * (0 - 0) = 0 from by ring]
  rw [Real.sqrt_zero, zero_div]
  exact max_eq_left zero_le_one

theorem maxRadius_replicate :
    max |(List.replicate 1001 (⟨0, 0⟩ : Pt)).foldl (fun m p => max m p.x) 0|
        |(List.replicate 1001 (⟨0, 0⟩ : Pt)).foldl (fun m p => max m p.y) 0|
      * 2 = 0 := by
  rw [foldl_max_replicate Pt.x rfl 1001 0 le_rfl,
    foldl_max_replicate Pt.y rfl 1001 0 le_rfl]
  rw [abs_zero, max_self, zero_mul]

/-- On 1001 coincident points the expanding-ring search gives up at once:
`maxRadius = 0 < gridSize = 1`, so `nearestNeighbor` returns only the
start index. -/
theorem nn_replicate_eval :
    nearestNeighbor (List.replicate 1001 (⟨0, 0⟩ : Pt)) 0 = [0] := by
  simp only [nearestNeighbor]
  rw [if_neg (by simp : ¬(List.replicate 1001 (⟨0, 0⟩ : Pt)).length = 0),
    if_neg (by simp : ¬(List.replicate 1001 (⟨0, 0⟩ : Pt)).length = 1)]
  rw [show decide (1000 < (List.replicate 1001 (⟨0, 0⟩ : Pt)).length) = true
    from by simp]
  rw [maxRadius_replicate]
  rw [show (List.replicate 1001 (⟨0, 0⟩ : Pt)).length = 1000 + 1 from by simp]
  rw [nnAux]
  rw [if_pos (by simp :
    ([0] : List ℕ).length < (List.replicate 1001 (⟨0, 0⟩ : Pt)).length)]
  rw [if_pos rfl]
  rw [show (Int.toNat ⌈(0 : ℝ)⌉).size + 1 = 0 + 1 from by
    norm_num [Int.ceil_zero]]
  rw [expandSearch, gridSize_replicate]
  rw [if_neg (by norm_num : ¬(1 : ℝ) ≤ 0)]

end Tsp

namespace Claims

/-- C4 (amended): for every non-empty list of at most 1000 points — the
regime in which `nearestNeighbor` uses the brute-force scan rather than
the spatial index — and every in-range start index, the nearest-neighbor
tour is a permutation of all input indices, and so is the tour after the
optional 2-opt improvement. -/
theorem C4_perm_amended (points : List Pt) (start maxIter : ℕ)
    (h0 : points ≠ []) (hsz : points.length ≤ 1000)
    (hstart : start < points.length) :
    (Tsp.nearestNeighbor points start).Perm (List.range points.length) ∧
    (Tsp.twoOpt (Tsp.nearestNeighbor points start) points maxIter).Perm
      (List.range points.length) := by
  have hperm : (Tsp.nearestNeighbor points start).Perm
      (List.range points.length) := by
    simp only [Tsp.nearestNeighbor]
    rw [if_neg (fun h => h0 (List.length_eq_zero.mp h))]
    by_cases h2 : points.length = 1
    · rw [if_pos h2, h2]
      rw [show List.range 1 = [0] from rfl]
    · rw [if_neg h2]
      rw [show decide (1000 < points.length) = false from by
        rw [decide_eq_false_iff_not]; omega]
      apply Tsp.nnAux_perm points _ _ points.length [start] [start] start rfl
        (List.nodup_singleton start)
      · intro v hv
        rw [List.mem_singleton] at hv
        subst hv
        exact hstart
      · rw [List.length_singleton]
        omega
  exact ⟨hperm, (Tsp.twoOpt_spec _ points maxIter).2.trans hperm⟩

/-- The witness point list for C4. -/
def c4W : List Pt := [⟨0, 0⟩, ⟨3, 4⟩]

/-- C4 witness: two points, start index 1. -/
theorem C4_perm_amended_witness :
    c4W ≠ [] ∧ c4W.length ≤ 1000 ∧ 1 < c4W.length ∧
    ((Tsp.nearestNeighbor c4W 1).Perm (List.range c4W.length) ∧
     (Tsp.twoOpt (Tsp.nearestNeighbor c4W 1) c4W 1000).Perm
       (List.range c4W.length)) :=
  ⟨by simp [c4W], by norm_num [c4W], by norm_num [c4W],
   C4_perm_amended c4W 1 1000 (by simp [c4W]) (by norm_num [c4W])
     (by norm_num [c4W])⟩

/-- C4 counterexample: on 1001 coincident points (> 1000, so the
spatial-index path is taken) the tour is just `[0]`, not a permutation of
the 1001 input indices: the expanding-ring search's `maxRadius` is 0
while the search starts at `gridSize = 1`, so no neighbour is ever
found and the construction loop breaks at once. -/
theorem C4_counterexample :
    ¬ (Tsp.nearestNeighbor (List.replicate 1001 (⟨0, 0⟩ : Pt)) 0).Perm
        (List.range (List.replicate 1001 (⟨0, 0⟩ : Pt)).length) := by
  rw [Tsp.nn_replicate_eval]
  intro hperm
  have hlen := hperm.length_eq
  simp at hlen

end Claims

end MuralBot

namespace MuralBot

namespace KMeans

/-- An RGB color `{r, g, b}` (the sample/centroid objects of kMeans.js). -/
@[ext]
structure Color where
  r : ℝ
  g : ℝ
  b : ℝ

/-- `rgbDistance` (colorUtils.js): Euclidean distance in RGB space. -/
def rgbDistance (c1 c2 : Color) : ℝ :=
  Real.sqrt ((c1.r - c2.r) * (c1.r - c2.r) + (c1.g - c2.g) * (c1.g - c2.g) +
    (c1.b - c2.b) * (c1.b - c2.b))

/-- `clampRgb` (colorUtils.js): round each channel and clamp it to
`[0, 255]`. -/
def clampRgb (c : Color) : Color :=
  ⟨max 0 (min 255 (jsRound c.r)), max 0 (min 255 (jsRound c.g)),
   max 0 (min 255 (jsRound c.b))⟩

/-- The sampling loop of `_extractColorSamples`, with explicit fuel: the
loop advances `i` by `stride = 4 · step ≥ 4` each pass, so `data.length`
units of fuel are more than enough.  Fully transparent pixels
(`alpha === 0`) are skipped. -/
def extractAux (data : List ℝ) (stride : ℕ) : ℕ → ℕ → List Color
  | 0, _ => []
  | fuel + 1, i =>
    if i < data.length then
      (if data.getD (i + 3) 0 = 0 then []
       else [⟨data.getD i 0, data.getD (i + 1) 0, data.getD (i + 2) 0⟩]) ++
        extractAux data stride fuel (i + stride)
    else []

/-- `_extractColorSamples`: walk the flat RGBA array with stride
`4 · max(1, ⌊sampleRate⌋)`, collecting the opaque pixels in order. -/
def extractColorSamples (data : List ℝ) (sampleRate : ℝ) : List Color :=
  extractAux data (4 * max 1 (⌊sampleRate⌋).toNat) data.length 0

/-- The `Infinity`-seeded nearest-centroid distance fold inside
`_kMeansPlusPlus` (`none` plays the role of the `Infinity` seed, which the
first centroid always beats). -/
def minDistTo (s : Color) (centroids : List Color) : Option ℝ :=
  centroids.foldl
    (fun acc c =>
      some (match acc with
        | none => rgbDistance s c
        | some m => min m (rgbDistance s c)))
    none

/-- The `distances` array of `_kMeansPlusPlus`: squared nearest-centroid
distance of every sample.  `centroids` is never empty where this is used,
so the `Infinity` seed never escapes and the `getD`-default is
irrelevant. -/
def kppDistances (samples centroids : List Color) : List ℝ :=
  samples.map fun s =>
    (minDistTo s centroids).getD 0 * (minDistTo s centroids).getD 0

/-- The roulette-wheel scan of `_kMeansPlusPlus`: subtract the weights
until the running value drops to `≤ 0`, returning that sample (`none`
models the JS loop finishing without a pick, which leaves the centroid
list unchanged). -/
def rouletteAux : List (Color × ℝ) → ℝ → Option Color
  | [], _ => none
  | (c, d) :: rest, random =>
    if random - d ≤ 0 then some c else rouletteAux rest (random - d)

/-- One body of the `for (let i = 1; i < k; i++)` loop of
`_kMeansPlusPlus`: roulette selection over the squared distances with
threshold `random · total`, appending the picked sample. -/
def kppPick (samples centroids : List Color) (random : ℝ) : List Color :=
  match rouletteAux (samples.zip (kppDistances samples centroids))
      (random * (kppDistances samples centroids).sum) with
  | some c => centroids ++ [c]
  | none => centroids

/-- The remaining-centroid loop of `_kMeansPlusPlus`: `i` picks left,
consuming one random number per pick. -/
def kppLoop (samples : List Color) (rng : ℕ → ℝ) :
    ℕ → List Color → ℕ → List Color × ℕ
  | 0, centroids, cnt => (centroids, cnt)
  | i + 1, centroids, cnt =>
    kppLoop samples rng i (kppPick samples centroids (rng cnt)) (cnt + 1)

/-- `_kMeansPlusPlus`: first centroid at the random index
`⌊random · n⌋`, then `k − 1` roulette picks.  Returns the centroids and
the next index into the random stream. -/
def kMeansPlusPlus (samples : List Color) (k : ℕ) (rng : ℕ → ℝ) :
    List Color × ℕ :=
  kppLoop samples rng (k - 1)
    [samples.getD (⌊rng 0 * samples.length⌋).toNat ⟨0, 0, 0⟩] 1

/-- The nearest-centroid index of a sample (inner loop of
`_assignToClusters`): strict improvement over an `Infinity` seed (`none`),
defaulting to cluster `0`. -/
def nearestClusterIdx (s : Color) (centroids : List Color) : ℕ :=
  ((List.range centroids.length).foldl
    (fun acc i =>
      match acc with
      | none => some (rgbDistance s (centroids.getD i ⟨0, 0, 0⟩), i)
      | some md =>
        if rgbDistance s (centroids.getD i ⟨0, 0, 0⟩) < md.1 then
          some (rgbDistance s (centroids.getD i ⟨0, 0, 0⟩), i)
        else acc)
    none).elim 0 Prod.snd

/-- `_assignToClusters`: each sample is pushed, in order, onto the cluster
of its nearest centroid — the cluster of index `i` is exactly the in-order
filter of the samples whose nearest centroid is `i`. -/
def assignToClusters (samples centroids : List Color) : List (List Color) :=
  (List.range centroids.length).map fun i =>
    samples.filter fun s => nearestClusterIdx s centroids == i

/-- Mean color of a non-empty cluster (`_calculateCentroids`). -/
def meanColor (cluster : List Color) : Color :=
  ⟨(cluster.map Color.r).sum / cluster.length,
   (cluster.map Color.g).sum / cluster.length,
   (cluster.map Color.b).sum / cluster.length⟩

/-- The replacement color for an empty cluster (`_calculateCentroids`):
three fresh random numbers, each floored after scaling by 256. -/
def randColor (rng : ℕ → ℝ) (cnt : ℕ) : Color :=
  ⟨(⌊rng cnt * 256⌋ : ℤ), (⌊rng (cnt + 1) * 256⌋ : ℤ),
   (⌊rng (cnt + 2) * 256⌋ : ℤ)⟩

/-- `_calculateCentroids`: the mean of each cluster, an empty cluster
being replaced by a random color (consuming three random numbers). -/
def calcCentroids (rng : ℕ → ℝ) : List (List Color) → ℕ → List Color × ℕ
  | [], cnt => ([], cnt)
  | cluster :: rest, cnt =>
    if cluster.length = 0 then
      (randColor rng cnt :: (calcCentroids rng rest (cnt + 3)).1,
       (calcCentroids rng rest (cnt + 3)).2)
    else
      (meanColor cluster :: (calcCentroids rng rest cnt).1,
       (calcCentroids rng rest cnt).2)

/-- `_checkConvergence`: `false` as soon as some centroid moved strictly
more than `threshold`. -/
def checkConvergence (oldC newC : List Color) (threshold : ℝ) : Bool :=
  (List.range oldC.length).all fun i =>
    !decide (threshold <
      rgbDistance (oldC.getD i ⟨0, 0, 0⟩) (newC.getD i ⟨0, 0, 0⟩))

/-- The main k-means `while` loop of `findDominantColors`
(`convergenceThreshold = 1.0`).  `fuel` is the number of iterations still
allowed (`maxIterations − iteration`); returns the final centroids, the
iteration count, and the next random index. -/
def kmLoop (samples : List Color) (rng : ℕ → ℝ) :
    ℕ → List Color → ℕ → ℕ → List Color × ℕ × ℕ
  | 0, centroids, iter, cnt => (centroids, iter, cnt)
  | fuel + 1, centroids, iter, cnt =>
    if checkConvergence centroids
        (calcCentroids rng (assignToClusters samples centroids) cnt).1 1 then
      ((calcCentroids rng (assignToClusters samples centroids) cnt).1,
       iter + 1,
       (calcCentroids rng (assignToClusters samples centroids) cnt).2)
    else
      kmLoop samples rng fuel
        (calcCentroids rng (assignToClusters samples centroids) cnt).1
        (iter + 1)
        (calcCentroids rng (assignToClusters samples centroids) cnt).2

/-- k-means++ initialisation followed by the iteration loop. -/
def runKMeans (samples : List Color) (numColors maxIterations : ℕ)
    (rng : ℕ → ℝ) : List Color × ℕ × ℕ :=
  kmLoop samples rng maxIterations (kMeansPlusPlus samples numColors rng).1 0
    (kMeansPlusPlus samples numColors rng).2

/-- `findDominantColors` on a flat RGBA array: `none` models the promise
rejection for an image with no opaque samples; otherwise the returned
palette together with the number of clustering iterations performed
(`0` on the `samples.length <= numColors` shortcut, which returns
`samples.slice(0, numColors)` unclamped). -/
def findDominantColors (data : List ℝ) (numColors maxIterations : ℕ)
    (sampleRate : ℝ) (rng : ℕ → ℝ) : Option (List Color × ℕ) :=
  if (extractColorSamples data sampleRate).length = 0 then none
  else if (extractColorSamples data sampleRate).length ≤ numColors then
    some ((extractColorSamples data sampleRate).take numColors, 0)
  else
    some ((runKMeans (extractColorSamples data sampleRate) numColors
        maxIterations rng).1.map clampRgb,
      (runKMeans (extractColorSamples data sampleRate) numColors
        maxIterations rng).2.1)

end KMeans

end MuralBot

namespace MuralBot

namespace KMeans

/-- A color is at RGB distance zero from itself. -/
theorem rgbDistance_self (c : Color) : rgbDistance c c = 0 := by
  simp [rgbDistance]

/-- With a single centroid every sample lands in cluster `0`. -/
theorem nearestClusterIdx_singleton (s c : Color) :
    nearestClusterIdx s [c] = 0 := rfl

/-- With a single centroid, assignment puts every sample into the one
cluster, in order. -/
theorem assign_singleton (samples : List Color) (c : Color) :
    assignToClusters samples [c] = [samples] := by
  simp only [assignToClusters, List.length_singleton, List.range_succ,
    List.range_zero, List.nil_append, List.map_cons, List.map_nil]
  rw [List.filter_eq_self.mpr]
  intro s _
  rw [nearestClusterIdx_singleton]
  rfl

/-- The mean of `n > 0` copies of a color is that color. -/
theorem meanColor_replicate (n : ℕ) (c : Color) (hn : n ≠ 0) :
    meanColor (List.replicate n c) = c := by
  have hn' : (n : ℝ) ≠ 0 := Nat.cast_ne_zero.mpr hn
  cases c with
  | mk r g b =>
    simp only [meanColor, List.map_replicate, List.sum_replicate,
      List.length_replicate, nsmul_eq_mul]
    rw [mul_div_cancel_left₀ r hn', mul_div_cancel_left₀ g hn',
      mul_div_cancel_left₀ b hn']

/-- `calcCentroids` on a single non-empty cluster takes its mean and
consumes no randomness. -/
theorem calcCentroids_single (rng : ℕ → ℝ) (cluster : List Color) (cnt : ℕ)
    (h : cluster ≠ []) :
    calcCentroids rng [cluster] cnt = ([meanColor cluster], cnt) := by
  simp [calcCentroids, List.length_eq_zero, h]

/-- A repeated singleton centroid list passes the convergence check. -/
theorem checkConvergence_single_self (c : Color) (t : ℝ) (ht : 0 ≤ t) :
    checkConvergence [c] [c] t = true := by
  simp [checkConvergence, List.range_succ, rgbDistance_self]
  exact ht

/-- `kmLoop` from a single centroid that is already the mean of the (all
identical, non-empty) samples: converges in exactly one iteration. -/
theorem kmLoop_singleton_converged (samples : List Color) (c : Color)
    (rng : ℕ → ℝ) (m iter cnt : ℕ) (hne : samples ≠ [])
    (hmean : meanColor samples = c) :
    kmLoop samples rng (m + 1) [c] iter cnt = ([c], iter + 1, cnt) := by
  have hassign := assign_singleton samples c
  have hcalc := calcCentroids_single rng samples cnt hne
  simp only [kmLoop, hassign, hcalc, hmean]
  rw [if_pos (checkConvergence_single_self c 1 (by norm_num))]

/-- `kMeansPlusPlus` with `k = 1` performs no roulette picks: it returns
the single random first sample. -/
theorem kMeansPlusPlus_one (samples : List Color) (rng : ℕ → ℝ) :
    kMeansPlusPlus samples 1 rng =
      ([samples.getD (⌊rng 0 * samples.length⌋).toNat ⟨0, 0, 0⟩], 1) := rfl

/-- The random first-centroid index is always in range. -/
theorem floorIdx_lt (x : ℝ) (n : ℕ) (hn : 0 < n) (_h0 : 0 ≤ x)
    (h1 : x < 1) : (⌊x * n⌋).toNat < n := by
  have h2 : x * n < n := by
    calc x * n < 1 * n := by
          apply mul_lt_mul_of_pos_right h1
          exact_mod_cast hn
      _ = n := one_mul _
  have h3 : ⌊x * (n : ℝ)⌋ < (n : ℤ) := Int.floor_lt.mpr (by exact_mod_cast h2)
  omega

end KMeans

namespace Claims

/-- **C3** (amended).  For an image whose sampled opaque pixels all share
one color `c`: (a) when the sample count is at most `numColors` the
quantizer returns the first `min(numColors, count)` samples unchanged
(all equal to `c`) with zero clustering iterations; (b) when there are at
least two samples and `numColors = 1` it returns the single clamped
color after exactly one iteration. -/
theorem C3_singleColor_amended (data : List ℝ) (k maxIter : ℕ)
    (sampleRate : ℝ) (rng : ℕ → ℝ) (c : KMeans.Color)
    (hrng0 : 0 ≤ rng 0) (hrng1 : rng 0 < 1)
    (hne : KMeans.extractColorSamples data sampleRate ≠ [])
    (hsingle : ∀ s ∈ KMeans.extractColorSamples data sampleRate, s = c)
    (hmax : 1 ≤ maxIter) :
    ((KMeans.extractColorSamples data sampleRate).length ≤ k →
      KMeans.findDominantColors data k maxIter sampleRate rng =
        some ((KMeans.extractColorSamples data sampleRate).take k, 0) ∧
      ∀ s ∈ (KMeans.extractColorSamples data sampleRate).take k, s = c) ∧
    (1 < (KMeans.extractColorSamples data sampleRate).length →
      KMeans.findDominantColors data 1 maxIter sampleRate rng =
        some ([KMeans.clampRgb c], 1)) := by
  set S := KMeans.extractColorSamples data sampleRate with hS
  have hlen0 : ¬ S.length = 0 := by
    simpa [List.length_eq_zero] using hne
  constructor
  · intro hlek
    constructor
    · simp only [KMeans.findDominantColors, ← hS]
      rw [if_neg hlen0, if_pos hlek]
    · intro s hs
      exact hsingle s (List.mem_of_mem_take hs)
  · intro h1n
    have hn0 : 0 < S.length := by omega
    have hidx : (⌊rng 0 * (S.length : ℝ)⌋).toNat < S.length :=
      KMeans.floorIdx_lt _ _ hn0 hrng0 hrng1
    have hfirst :
        S.getD (⌊rng 0 * (S.length : ℝ)⌋).toNat ⟨0, 0, 0⟩ = c := by
      rw [List.getD_eq_getElem _ _ hidx]
      exact hsingle _ (List.getElem_mem hidx)
    have hmean : KMeans.meanColor S = c := by
      rw [List.eq_replicate_of_mem hsingle]
      exact KMeans.meanColor_replicate _ _ (by omega)
    obtain ⟨m, rfl⟩ : ∃ m, maxIter = m + 1 := ⟨maxIter - 1, by omega⟩
    have hkpp : KMeans.kMeansPlusPlus S 1 rng = ([c], 1) := by
      rw [KMeans.kMeansPlusPlus_one, hfirst]
    have hrun : KMeans.runKMeans S 1 (m + 1) rng = ([c], 1, 1) := by
      simp only [KMeans.runKMeans, hkpp]
      exact KMeans.kmLoop_singleton_converged S c rng m 0 1 hne hmean
    simp only [KMeans.findDominantColors, ← hS]
    rw [if_neg hlen0, if_neg (by omega), hrun]
    simp

/-- The all-white three-pixel RGBA buffer of the C3 witness and
counterexample. -/
def c3Data : List ℝ :=
  [255, 255, 255, 255, 255, 255, 255, 255, 255, 255, 255, 255]

/-- White. -/
def c3White : KMeans.Color := ⟨255, 255, 255⟩

/-- Black, the deterministic "random" reseed color under the all-zero
random stream. -/
def c3Black : KMeans.Color := ⟨0, 0, 0⟩

/-- Sampling the all-white buffer yields three white samples. -/
theorem c3_extract_eval :
    KMeans.extractColorSamples c3Data 1 = [c3White, c3White, c3White] := by
  norm_num [KMeans.extractColorSamples, KMeans.extractAux, c3Data, c3White]

/-- C3 witness: the three-white-pixel buffer with `k = 3` takes the
shortcut (palette = the three samples, zero iterations), and with
`k = 1` clusters for exactly one iteration, returning white. -/
theorem C3_singleColor_amended_witness :
    (KMeans.extractColorSamples c3Data 1).length ≤ 3 ∧
    KMeans.findDominantColors c3Data 3 50 1 (fun _ => 0) =
      some ((KMeans.extractColorSamples c3Data 1).take 3, 0) ∧
    1 < (KMeans.extractColorSamples c3Data 1).length ∧
    KMeans.findDominantColors c3Data 1 50 1 (fun _ => 0) =
      some ([KMeans.clampRgb c3White], 1) := by
  have h := C3_singleColor_amended c3Data 3 50 1 (fun _ => 0) c3White
    (by norm_num) (by norm_num)
    (by rw [c3_extract_eval]; simp)
    (by rw [c3_extract_eval]; simp)
    (by norm_num)
  have hl : (KMeans.extractColorSamples c3Data 1).length ≤ 3 := by
    rw [c3_extract_eval]
    norm_num
  have hg : 1 < (KMeans.extractColorSamples c3Data 1).length := by
    rw [c3_extract_eval]; norm_num
  exact ⟨hl, (h.1 hl).1, hg, h.2 hg⟩

/-- White to white: distance zero. -/
theorem c3_dist_ww : KMeans.rgbDistance c3White c3White = 0 :=
  KMeans.rgbDistance_self _

/-- White to black: distance `√195075`. -/
theorem c3_dist_wb :
    KMeans.rgbDistance c3White c3Black = Real.sqrt 195075 := by
  norm_num [KMeans.rgbDistance, c3White, c3Black]

/-- The white-to-black distance exceeds the convergence threshold 1. -/
theorem c3_dist_wb_gt : (1 : ℝ) < KMeans.rgbDistance c3White c3Black := by
  rw [c3_dist_wb, show (1 : ℝ) = Real.sqrt 1 by simp]
  exact Real.sqrt_lt_sqrt (by norm_num) (by norm_num)

/-- The white-to-black distance is non-negative. -/
theorem c3_dist_wb_nonneg :
    ¬ KMeans.rgbDistance c3White c3Black < 0 := by
  rw [c3_dist_wb]
  exact not_lt.mpr (Real.sqrt_nonneg _)

/-- k-means++ on three whites with `k = 2` under the all-zero random
stream: both picks are white. -/
theorem c3_kpp :
    KMeans.kMeansPlusPlus [c3White, c3White, c3White] 2 (fun _ => 0) =
      ([c3White, c3White], 2) := by
  norm_num [KMeans.kMeansPlusPlus, KMeans.kppLoop, KMeans.kppPick,
    KMeans.kppDistances, KMeans.minDistTo, KMeans.rouletteAux,
    KMeans.rgbDistance_self]

/-- Every white sample is nearest to the first of two white centroids. -/
theorem c3_nearest_ww :
    KMeans.nearestClusterIdx c3White [c3White, c3White] = 0 := by
  norm_num [KMeans.nearestClusterIdx, List.range_succ,
    KMeans.rgbDistance_self]

/-- Every white sample is nearest to white rather than black. -/
theorem c3_nearest_wb :
    KMeans.nearestClusterIdx c3White [c3White, c3Black] = 0 := by
  norm_num [KMeans.nearestClusterIdx, List.range_succ,
    KMeans.rgbDistance_self, c3_dist_wb_nonneg]

/-- Assignment to two white centroids: all samples in cluster 0, cluster 1
empty. -/
theorem c3_assign_ww :
    KMeans.assignToClusters [c3White, c3White, c3White] [c3White, c3White] =
      [[c3White, c3White, c3White], []] := by
  have hb0 : ((0 : ℕ) == 0) = true := rfl
  have hb1 : ((0 : ℕ) == 1) = false := rfl
  norm_num [KMeans.assignToClusters, List.range_succ, c3_nearest_ww,
    List.filter, hb0, hb1]

/-- Assignment to centroids white/black: all samples in cluster 0,
cluster 1 empty. -/
theorem c3_assign_wb :
    KMeans.assignToClusters [c3White, c3White, c3White] [c3White, c3Black] =
      [[c3White, c3White, c3White], []] := by
  have hb0 : ((0 : ℕ) == 0) = true := rfl
  have hb1 : ((0 : ℕ) == 1) = false := rfl
  norm_num [KMeans.assignToClusters, List.range_succ, c3_nearest_wb,
    List.filter, hb0, hb1]

/-- New centroids for clusters `[three whites, empty]`: the mean white and
the random reseed black, consuming three random numbers. -/
theorem c3_calc (cnt : ℕ) :
    KMeans.calcCentroids (fun _ => 0)
        [[c3White, c3White, c3White], []] cnt =
      ([c3White, c3Black], cnt + 3) := by
  norm_num [KMeans.calcCentroids, KMeans.meanColor, KMeans.randColor,
    c3White, c3Black]

/-- Centroids `[white, white] → [white, black]` have not converged: black
moved by `√195075 > 1`. -/
theorem c3_conv_first :
    KMeans.checkConvergence [c3White, c3White] [c3White, c3Black] 1 =
      false := by
  have h1 := c3_dist_wb_gt
  norm_num [KMeans.checkConvergence, List.range_succ,
    KMeans.rgbDistance_self, h1]

/-- Centroids `[white, black] → [white, black]` have converged. -/
theorem c3_conv_second :
    KMeans.checkConvergence [c3White, c3Black] [c3White, c3Black] 1 =
      true := by
  norm_num [KMeans.checkConvergence, List.range_succ,
    KMeans.rgbDistance_self]

/-- `clampRgb` fixes white. -/
theorem c3_clamp_w : KMeans.clampRgb c3White = c3White := by
  have h : MuralBot.jsRound (255 : ℝ) = 255 := by
    rw [MuralBot.jsRound]
    norm_num
  norm_num [KMeans.clampRgb, c3White, h]

/-- `clampRgb` fixes black. -/
theorem c3_clamp_b : KMeans.clampRgb c3Black = c3Black := by
  have h : MuralBot.jsRound (0 : ℝ) = 0 := by
    rw [MuralBot.jsRound]
    norm_num
  norm_num [KMeans.clampRgb, c3Black, h]

/-- The k-means loop on three whites from centroids `[white, white]`:
the empty second cluster is reseeded black, convergence fails once, and
the loop stops after two iterations with palette `[white, black]`. -/
theorem c3_kmLoop :
    KMeans.kmLoop [c3White, c3White, c3White] (fun _ => 0) 50
        [c3White, c3White] 0 2 = ([c3White, c3Black], 2, 8) := by
  norm_num [KMeans.kmLoop, c3_assign_ww, c3_assign_wb, c3_calc,
    c3_conv_first, c3_conv_second]

/-- C3 counterexample: on the all-white three-pixel image with `k = 2`
(distinct sampled color count `1 ≤ k`) the quantizer performs two
clustering iterations, not zero, and returns the palette
`[white, black]`, which is not `k` copies of the image color: the empty
second cluster is reseeded with a random color. -/
theorem C3_counterexample :
    KMeans.findDominantColors c3Data 2 50 1 (fun _ => 0) =
      some ([c3White, c3Black], 2) ∧ c3Black ≠ c3White := by
  constructor
  · simp only [KMeans.findDominantColors, c3_extract_eval]
    rw [if_neg (by norm_num), if_neg (by norm_num)]
    simp only [KMeans.runKMeans, c3_kpp, c3_kmLoop]
    norm_num [c3_clamp_w, c3_clamp_b]
  · intro h
    have := congrArg KMeans.Color.r h
    norm_num [c3Black, c3White] at this

end Claims

end MuralBot

namespace MuralBot

namespace Gcode

/-- Left-pad with zeros to width `w`. -/
def padZeros (w : ℕ) (s : String) : String :=
  String.mk (List.replicate (w - s.length) '0') ++ s

/-- `Number.toFixed(decimals)` for a non-negative value: scale by
`10^decimals`, round (ties half-up), and print integer and fraction
digits. -/
def toFixedPos (decimals : ℕ) (v : ℝ) : String :=
  if decimals = 0 then (⌊v * (10 : ℝ) ^ decimals + 1/2⌋).toNat.repr
  else ((⌊v * (10 : ℝ) ^ decimals + 1/2⌋).toNat / 10 ^ decimals).repr ++
    "." ++
    padZeros decimals
      (((⌊v * (10 : ℝ) ^ decimals + 1/2⌋).toNat % 10 ^ decimals).repr)

/-- `formatNumber(value, decimals)` = `Number(value).toFixed(decimals)`. -/
def formatNumber (v : ℝ) (decimals : ℕ) : String :=
  if v < 0 then "-" ++ toFixedPos decimals (-v) else toFixedPos decimals v

/-- JS number→string coercion inside template literals; it only ever
occurs inside `; `-prefixed comment text, which no theorem below
inspects (integral values print their digits, as in JS). -/
def numToString (v : ℝ) : String := (⌊v⌋ : ℤ).repr

/-- `G0(X, Y, Z, feedRate)` (gcodeBuilder.js). -/
def G0 (X Y Z : ℝ) (feedRate : Option ℝ) : String :=
  "G0 X" ++ formatNumber X 2 ++ " Y" ++ formatNumber Y 2 ++
    " Z" ++ formatNumber Z 2 ++
    (match feedRate with
     | some f => " F" ++ (⌊f + 1/2⌋ : ℤ).repr
     | none => "")

/-- `M3()`: spray on. -/
def M3 : String := "M3 S255"

/-- `M5()`: spray off. -/
def M5 : String := "M5"

/-- `M6(toolNumber)`: tool (can) change. -/
def M6 (toolNumber : Option ℝ) : String :=
  "M6" ++
    (match toolNumber with
     | some t => " T" ++ (⌊t + 1/2⌋ : ℤ).repr
     | none => "")

/-- `G4(seconds)`: dwell. -/
def G4 (seconds : ℝ) : String := "G4 P" ++ formatNumber seconds 1

/-- `comment(text)`. -/
def comment (text : String) : String := "; " ++ text

/-- `G28()`: home all axes. -/
def G28 : String := "G28"

/-- `G21()`: millimeter units. -/
def G21 : String := "G21"

/-- `G90()`: absolute positioning. -/
def G90 : String := "G90"

/-- `M84()`: disable motors. -/
def M84 : String := "M84"

/-- `commentBlock(title, lines)`: separator, title and lines, each
prefixed `; `, joined with newlines into a single string. -/
def commentBlock (title : String) (ls : List String) : String :=
  "; ================================\n" ++
    String.intercalate "\n"
      (("; " ++ title) :: (ls.map (fun l => "; " ++ l) ++
        ["; ================================"]))

/-- `separator(label)`. -/
def separator (label : Option String) : String :=
  match label with
  | some l => "; === " ++ l ++ " ==="
  | none => "; ========================================"

/-- `paintDot(X, Y, Z, dwellTime, moveSpeed)`: rapid move, spray on,
dwell, spray off. -/
def paintDot (X Y Z dwellTime moveSpeed : ℝ) : List String :=
  [G0 X Y Z (some moveSpeed), M3, G4 dwellTime, M5]

/-- The JS `a || d` default pattern applied to an optionally-chained
field: `undefined` and the falsy `0` both fall back to the default. -/
def jsOr (v : Option ℝ) (d : ℝ) : ℝ :=
  match v with
  | none => d
  | some x => if x = 0 then d else x

/-- The canvas state consumed by `createAnchorConfig` (widths/heights in
cm, optional anchor overrides). -/
structure CanvasState where
  width : ℝ
  height : ℝ
  anchorTopLeft : Option Pt
  anchorTopRight : Option Pt
  anchorBottomLeft : Option Pt
  anchorBottomRight : Option Pt

/-- `createAnchorConfig(canvasState)` (fileManager.js): defaults via `||`,
bottom-center the midpoint of the bottom anchors, cm scaled to mm. -/
def createAnchorConfig (c : CanvasState) : Transformer.Anchors :=
  { topLeft := ⟨jsOr (c.anchorTopLeft.map Pt.x) 0 * 10,
               jsOr (c.anchorTopLeft.map Pt.y) 0 * 10⟩
    topRight := ⟨jsOr (c.anchorTopRight.map Pt.x) c.width * 10,
                jsOr (c.anchorTopRight.map Pt.y) 0 * 10⟩
    bottomCenter := ⟨(jsOr (c.anchorBottomLeft.map Pt.x) 0 +
        jsOr (c.anchorBottomRight.map Pt.x) c.width) / 2 * 10,
      jsOr (c.anchorBottomLeft.map Pt.y) c.height * 10⟩ }

/-- `scaleToPhysical` (fileManager.js); `none` models the errors thrown
for non-positive image or physical dimensions. -/
def scaleToPhysical (pixelX pixelY imageWidth imageHeight
    physicalWidth physicalHeight : ℝ) : Option Pt :=
  if imageWidth ≤ 0 ∨ imageHeight ≤ 0 then none
  else if physicalWidth ≤ 0 ∨ physicalHeight ≤ 0 then none
  else some ⟨round2 (pixelX * (physicalWidth / imageWidth)),
             round2 (pixelY * (physicalHeight / imageHeight))⟩

/-- The configuration fields consumed by the dot-mode generator
(`config.canvas`, `config.paint.paintingMode`,
`config.robot.{paintCapacity, moveSpeed, paintSpeed, refillPosition}`,
`config.paint.pointillism.{minDotSize, maxDotSize, dotDensity}`). -/
structure Config where
  canvas : CanvasState
  paintingMode : String
  paintCapacity : ℝ
  moveSpeed : ℝ
  paintSpeed : ℝ
  refillPosition : Pt
  minDotSize : ℝ
  maxDotSize : ℝ
  dotDensity : ℝ

/-- A color layer: its color and its `ImageData` (flat RGBA list). -/
structure Layer where
  color : KMeans.Color
  width : ℕ
  height : ℕ
  data : List ℝ

/-- `generateHeader(config)`; the timestamp (`new Date().toISOString()`)
is environment input and is passed explicitly. -/
def generateHeader (cfg : Config) (timestamp : String) : List String :=
  [commentBlock "MURALBOT G-CODE"
     ["Generated: " ++ timestamp,
      "Canvas: " ++ numToString cfg.canvas.width ++ "cm x " ++
        numToString cfg.canvas.height ++ "cm",
      "Painting Mode: " ++ cfg.paintingMode,
      "Paint Capacity: " ++ numToString cfg.paintCapacity ++ "ml",
      "Move Speed: " ++ numToString cfg.moveSpeed ++ "mm/min",
      "Paint Speed: " ++ numToString cfg.paintSpeed ++ "mm/min"],
   "",
   separator (some "INITIALIZATION"), G21, G90, G28, M5,
   comment "Ready to paint"]

/-- `generateFooter()`. -/
def generateFooter : List String :=
  ["", separator (some "END SEQUENCE"), M5, G28, M84,
   comment "End of G-Code"]

/-- `generateRefillSequence(currentPos, config, anchors)`. -/
def generateRefillSequence (currentPos : Transformer.Trilat) (cfg : Config)
    (anchors : Transformer.Anchors) : List String :=
  [separator (some "REFILL SEQUENCE"),
   comment "Moving to refill position",
   G0 (Transformer.cartesianToTrilateration (cfg.refillPosition.x * 10)
       (cfg.refillPosition.y * 10) anchors).X
     (Transformer.cartesianToTrilateration (cfg.refillPosition.x * 10)
       (cfg.refillPosition.y * 10) anchors).Y
     (Transformer.cartesianToTrilateration (cfg.refillPosition.x * 10)
       (cfg.refillPosition.y * 10) anchors).Z (some cfg.moveSpeed),
   comment "Waiting for refill (30 seconds)",
   G4 30,
   comment "Returning to painting",
   G0 currentPos.X currentPos.Y currentPos.Z (some cfg.moveSpeed)]

/-- `generateColorChangeSequence(config, anchors)`. -/
def generateColorChangeSequence (cfg : Config)
    (anchors : Transformer.Anchors) : List String :=
  [separator (some "COLOR CHANGE"),
   M6 none,
   comment "Moving to change position",
   G0 (Transformer.cartesianToTrilateration (cfg.refillPosition.x * 10)
       (cfg.refillPosition.y * 10) anchors).X
     (Transformer.cartesianToTrilateration (cfg.refillPosition.x * 10)
       (cfg.refillPosition.y * 10) anchors).Y
     (Transformer.cartesianToTrilateration (cfg.refillPosition.x * 10)
       (cfg.refillPosition.y * 10) anchors).Z (some cfg.moveSpeed),
   comment "Waiting for can change (60 seconds)",
   G4 60,
   comment "Ready to continue"]

/-- `_extractPixelCoordinates(imageData)`: the `{x, y}` of every pixel
with positive alpha, in row-major order. -/
def extractPixelCoordinates (width height : ℕ) (data : List ℝ) :
    List (ℕ × ℕ) :=
  (List.range height).flatMap fun y =>
    (List.range width).filterMap fun x =>
      if 0 < data.getD ((y * width + x) * 4 + 3) 0 then some (x, y)
      else none

/-- `_downsamplePixels`: grid spacing `max(1, ⌊√(10000/density)⌋)`; keep
the first pixel of each grid cell, in first-encounter order (JS `Map`
value iteration order).  The image dimensions are unused by the source. -/
def downsamplePixels (pixels : List (ℕ × ℕ)) (density : ℝ) :
    List (ℕ × ℕ) :=
  (pixels.foldl
    (fun (acc : List (ℕ × ℕ) × List (ℕ × ℕ)) p =>
      if (p.1 / max 1 (⌊Real.sqrt (10000 / density)⌋).toNat,
          p.2 / max 1 (⌊Real.sqrt (10000 / density)⌋).toNat) ∈ acc.2 then acc
      else (acc.1 ++ [p],
        acc.2 ++ [(p.1 / max 1 (⌊Real.sqrt (10000 / density)⌋).toNat,
          p.2 / max 1 (⌊Real.sqrt (10000 / density)⌋).toNat)]))
    ([], [])).1

/-- The generator's mutable state: `this._currentPosition` (pixel
coordinates), the refill tracker, and the next index into the random
stream. -/
structure GenSt where
  pos : Option (ℕ × ℕ)
  tracker : Refill.Tracker
  rix : ℕ

/-- `_paintSingleDot`: scale, transform, random dot size, paint-usage
tracking with an optional refill sequence, then the four-command dot
block; updates the current position and consumes one random number. -/
def paintSingleDot (cfg : Config) (anchors : Transformer.Anchors)
    (imageWidth imageHeight : ℕ) (cw ch : ℝ) (rng : ℕ → ℝ)
    (st : GenSt) (pixel : ℕ × ℕ) : Option (GenSt × List String) :=
  match scaleToPhysical pixel.1 pixel.2 imageWidth imageHeight cw ch with
  | none => none
  | some physical =>
    match Refill.addDotUsage st.tracker
        (cfg.minDotSize + rng st.rix * (cfg.maxDotSize - cfg.minDotSize))
        0.1 with
    | none => none
    | some tb =>
      some (⟨some pixel, if tb.2 then Refill.refill tb.1 else tb.1,
             st.rix + 1⟩,
        (if tb.2 then
          comment "Paint low - refill needed" ::
            generateRefillSequence
              (Transformer.cartesianToTrilateration physical.x physical.y
                anchors) cfg anchors
         else []) ++
        paintDot
          (Transformer.cartesianToTrilateration physical.x physical.y
            anchors).X
          (Transformer.cartesianToTrilateration physical.x physical.y
            anchors).Y
          (Transformer.cartesianToTrilateration physical.x physical.y
            anchors).Z 0.1 cfg.moveSpeed)

/-- The dot-painting loop: one `_paintSingleDot` per dot, lines
concatenated in order. -/
def paintDots (cfg : Config) (anchors : Transformer.Anchors)
    (imageWidth imageHeight : ℕ) (cw ch : ℝ) (rng : ℕ → ℝ) :
    List (ℕ × ℕ) → GenSt → Option (GenSt × List String)
  | [], st => some (st, [])
  | p :: rest, st =>
    match paintSingleDot cfg anchors imageWidth imageHeight cw ch rng
        st p with
    | none => none
    | some r =>
      match paintDots cfg anchors imageWidth imageHeight cw ch rng
          rest r.1 with
      | none => none
      | some r' => some (r'.1, r.2 ++ r'.2)

/-- The start-index scan of `generatePointillismGcode`: index of the
pixel (in the ORIGINAL pixel list, not the downsampled one) closest to
the current position; earliest strict minimum wins, default 0. -/
def nearestStartIdx (pixels : List (ℕ × ℕ)) (q : ℕ × ℕ) : ℕ :=
  ((List.range pixels.length).foldl
    (fun acc i =>
      match acc with
      | none => some (Real.sqrt
          ((((pixels.getD i (0, 0)).1 : ℝ) - q.1) *
             (((pixels.getD i (0, 0)).1 : ℝ) - q.1) +
           (((pixels.getD i (0, 0)).2 : ℝ) - q.2) *
             (((pixels.getD i (0, 0)).2 : ℝ) - q.2)), i)
      | some md =>
        if Real.sqrt
            ((((pixels.getD i (0, 0)).1 : ℝ) - q.1) *
               (((pixels.getD i (0, 0)).1 : ℝ) - q.1) +
             (((pixels.getD i (0, 0)).2 : ℝ) - q.2) *
               (((pixels.getD i (0, 0)).2 : ℝ) - q.2)) < md.1 then
          some (Real.sqrt
            ((((pixels.getD i (0, 0)).1 : ℝ) - q.1) *
               (((pixels.getD i (0, 0)).1 : ℝ) - q.1) +
             (((pixels.getD i (0, 0)).2 : ℝ) - q.2) *
               (((pixels.getD i (0, 0)).2 : ℝ) - q.2)), i)
        else acc)
    none).elim 0 Prod.snd

/-- `generatePointillismGcode`: downsample, then either grid order
(> 10000 dots) or a TSP tour.  When the start-index scan lands outside
the downsampled list (it scans the original pixels) and that list has at
least two entries, the JS tour construction dereferences an undefined
point and throws a `TypeError`; `none` models that crash. -/
def generatePointillismGcode (pixels : List (ℕ × ℕ))
    (imageWidth imageHeight : ℕ) (cfg : Config)
    (anchors : Transformer.Anchors) (cw ch : ℝ) (rng : ℕ → ℝ)
    (st : GenSt) : Option (GenSt × List String) :=
  if 10000 < (downsamplePixels pixels cfg.dotDensity).length then
    (paintDots cfg anchors imageWidth imageHeight cw ch rng
        (downsamplePixels pixels cfg.dotDensity) st).map
      (fun r => (r.1,
        [comment ("Painting " ++
            (downsamplePixels pixels cfg.dotDensity).length.repr ++
            " dots (" ++ numToString cfg.dotDensity ++ "% density)"),
         comment "Using grid order (too many dots for TSP optimization)"]
          ++ r.2))
  else if 1 < (downsamplePixels pixels cfg.dotDensity).length ∧
      (downsamplePixels pixels cfg.dotDensity).length ≤
        (match st.pos with
         | none => 0
         | some q => if pixels.length = 0 then 0
                     else nearestStartIdx pixels q) then
    none
  else
    (paintDots cfg anchors imageWidth imageHeight cw ch rng
        ((Tsp.solveTSP
            ((downsamplePixels pixels cfg.dotDensity).map
              (fun p => ⟨(p.1 : ℝ), (p.2 : ℝ)⟩))
            (match st.pos with
             | none => 0
             | some q => if pixels.length = 0 then 0
                         else nearestStartIdx pixels q)
            (decide ((downsamplePixels pixels cfg.dotDensity).length < 500))
            1000).map
          (fun k => (downsamplePixels pixels cfg.dotDensity).getD k (0, 0)))
        st).map
      (fun r => (r.1,
        [comment ("Painting " ++
            (downsamplePixels pixels cfg.dotDensity).length.repr ++
            " dots (" ++ numToString cfg.dotDensity ++ "% density)"),
         comment "Optimizing dot order using TSP...",
         comment ("Tour optimized: " ++
            (Tsp.solveTSP
              ((downsamplePixels pixels cfg.dotDensity).map
                (fun p => ⟨(p.1 : ℝ), (p.2 : ℝ)⟩))
              (match st.pos with
               | none => 0
               | some q => if pixels.length = 0 then 0
                           else nearestStartIdx pixels q)
              (decide
                ((downsamplePixels pixels cfg.dotDensity).length < 500))
              1000).length.repr ++ " dots")] ++ r.2))

/-- `generateLayerGcode`: layer banner, optional color change, then the
mode-specific body.  Only pointillism mode is modelled (`none`
otherwise). -/
def generateLayerGcode (layer : Layer) (layerIndex : ℕ) (cfg : Config)
    (anchors : Transformer.Anchors) (cw ch : ℝ) (rng : ℕ → ℝ)
    (st : GenSt) : Option (GenSt × List String) :=
  if cfg.paintingMode = "pointillism" then
    (generatePointillismGcode
        (extractPixelCoordinates layer.width layer.height layer.data)
        layer.width layer.height cfg anchors cw ch rng st).map
      (fun r => (r.1,
        [separator (some ("COLOR LAYER " ++ (layerIndex + 1).repr)),
         comment ("Color: RGB(" ++ (⌊layer.color.r + 1/2⌋ : ℤ).repr ++
           ", " ++ (⌊layer.color.g + 1/2⌋ : ℤ).repr ++ ", " ++
           (⌊layer.color.b + 1/2⌋ : ℤ).repr ++ ")"),
         comment ("Pixels: " ++
           (extractPixelCoordinates layer.width layer.height
             layer.data).length.repr)] ++
        (if 0 < layerIndex then generateColorChangeSequence cfg anchors
         else []) ++ r.2))
  else none

/-- `generateColorLayersGcode`: each layer's G-code followed by a blank
line. -/
def generateColorLayersGcode (cfg : Config)
    (anchors : Transformer.Anchors) (cw ch : ℝ) (rng : ℕ → ℝ) :
    List Layer → ℕ → GenSt → Option (GenSt × List String)
  | [], _, st => some (st, [])
  | l :: rest, i, st =>
    match generateLayerGcode l i cfg anchors cw ch rng st with
    | none => none
    | some r =>
      match generateColorLayersGcode cfg anchors cw ch rng rest (i + 1)
          r.1 with
      | none => none
      | some r' => some (r'.1, r.2 ++ [""] ++ r'.2)

/-- `generate(config, colorLayers)` in color-layer (pointillism) mode:
header, blank line, the layers, blank line, footer.  `none` models the
promise rejections (bad paint capacity, no layers, or a crash inside a
layer); the returned value is the line list that the source joins with
newlines. -/
def generate (cfg : Config) (colorLayers : List Layer)
    (timestamp : String) (rng : ℕ → ℝ) : Option (List String) :=
  match Refill.reset cfg.paintCapacity with
  | none => none
  | some tracker =>
    match colorLayers with
    | [] => none
    | _ :: _ =>
      (generateColorLayersGcode cfg (createAnchorConfig cfg.canvas)
          (cfg.canvas.width * 10) (cfg.canvas.height * 10) rng
          colorLayers 0 ⟨none, tracker, 0⟩).map
        (fun r => generateHeader cfg timestamp ++ [""] ++ r.2 ++ [""] ++
          generateFooter)

/-- The surviving sample points of a layer: its opaque pixels after
grid downsampling. -/
def survivors (cfg : Config) (l : Layer) : ℕ :=
  (downsamplePixels (extractPixelCoordinates l.width l.height l.data)
    cfg.dotDensity).length

end Gcode

end MuralBot

namespace MuralBot

namespace Gcode

/-- A comment line never equals the spray-on command. -/
theorem comment_ne_M3 (t : String) : comment t ≠ M3 := by
  intro he
  have h := congrArg String.data he
  simp [comment, M3, String.data_append] at h

/-- A comment line never equals the spray-off command. -/
theorem comment_ne_M5 (t : String) : comment t ≠ M5 := by
  intro he
  have h := congrArg String.data he
  simp [comment, M5, String.data_append] at h

/-- A comment line never equals the homing command. -/
theorem comment_ne_G28 (t : String) : comment t ≠ G28 := by
  intro he
  have h := congrArg String.data he
  simp [comment, G28, String.data_append] at h

/-- A separator line never equals the spray-on command. -/
theorem separator_ne_M3 (l : Option String) : separator l ≠ M3 := by
  cases l <;>
    · intro he
      have h := congrArg String.data he
      simp [separator, M3, String.data_append] at h

/-- A separator line never equals the spray-off command. -/
theorem separator_ne_M5 (l : Option String) : separator l ≠ M5 := by
  cases l <;>
    · intro he
      have h := congrArg String.data he
      simp [separator, M5, String.data_append] at h

/-- A separator line never equals the homing command. -/
theorem separator_ne_G28 (l : Option String) : separator l ≠ G28 := by
  cases l <;>
    · intro he
      have h := congrArg String.data he
      simp [separator, G28, String.data_append] at h

/-- A comment block never equals the spray-on command. -/
theorem commentBlock_ne_M3 (t : String) (ls : List String) :
    commentBlock t ls ≠ M3 := by
  intro he
  have h := congrArg String.data he
  simp [commentBlock, M3, String.data_append] at h

/-- A comment block never equals the spray-off command. -/
theorem commentBlock_ne_M5 (t : String) (ls : List String) :
    commentBlock t ls ≠ M5 := by
  intro he
  have h := congrArg String.data he
  simp [commentBlock, M5, String.data_append] at h

/-- A comment block never equals the homing command. -/
theorem commentBlock_ne_G28 (t : String) (ls : List String) :
    commentBlock t ls ≠ G28 := by
  intro he
  have h := congrArg String.data he
  simp [commentBlock, G28, String.data_append] at h

/-- A rapid-move line never equals the spray-on command. -/
theorem G0_ne_M3 (x y z : ℝ) (f : Option ℝ) : G0 x y z f ≠ M3 := by
  cases f <;>
    · intro he
      have h := congrArg String.data he
      simp [G0, M3, String.data_append] at h

/-- A rapid-move line never equals the spray-off command. -/
theorem G0_ne_M5 (x y z : ℝ) (f : Option ℝ) : G0 x y z f ≠ M5 := by
  cases f <;>
    · intro he
      have h := congrArg String.data he
      simp [G0, M5, String.data_append] at h

/-- A rapid-move line never equals the homing command. -/
theorem G0_ne_G28 (x y z : ℝ) (f : Option ℝ) : G0 x y z f ≠ G28 := by
  cases f <;>
    · intro he
      have h := congrArg String.data he
      simp [G0, G28, String.data_append] at h

/-- A dwell line never equals the spray-on command. -/
theorem G4_ne_M3 (s : ℝ) : G4 s ≠ M3 := by
  intro he
  have h := congrArg String.data he
  simp [G4, M3, String.data_append] at h

/-- A dwell line never equals the spray-off command. -/
theorem G4_ne_M5 (s : ℝ) : G4 s ≠ M5 := by
  intro he
  have h := congrArg String.data he
  simp [G4, M5, String.data_append] at h

/-- A dwell line never equals the homing command. -/
theorem G4_ne_G28 (s : ℝ) : G4 s ≠ G28 := by
  intro he
  have h := congrArg String.data he
  simp [G4, G28, String.data_append] at h

/-- A tool-change line never equals the spray-on command. -/
theorem M6_ne_M3 (t : Option ℝ) : M6 t ≠ M3 := by
  cases t <;>
    · intro he
      have h := congrArg String.data he
      simp [M6, M3, String.data_append] at h

/-- A tool-change line never equals the spray-off command. -/
theorem M6_ne_M5 (t : Option ℝ) : M6 t ≠ M5 := by
  cases t <;>
    · intro he
      have h := congrArg String.data he
      simp [M6, M5, String.data_append] at h

/-- A tool-change line never equals the homing command. -/
theorem M6_ne_G28 (t : Option ℝ) : M6 t ≠ G28 := by
  cases t <;>
    · intro he
      have h := congrArg String.data he
      simp [M6, G28, String.data_append] at h


/-- Pairwise distinctness of the fixed command strings and the blank
line, as needed by the counting lemmas. -/
theorem M5_ne_M3 : M5 ≠ M3 := by decide

theorem M3_ne_M5 : M3 ≠ M5 := by decide

theorem G28_ne_M3 : G28 ≠ M3 := by decide

theorem G28_ne_M5 : G28 ≠ M5 := by decide

theorem M3_ne_G28 : M3 ≠ G28 := by decide

theorem M5_ne_G28 : M5 ≠ G28 := by decide

theorem G21_ne_M3 : G21 ≠ M3 := by decide

theorem G21_ne_M5 : G21 ≠ M5 := by decide

theorem G21_ne_G28 : G21 ≠ G28 := by decide

theorem G90_ne_M3 : G90 ≠ M3 := by decide

theorem G90_ne_M5 : G90 ≠ M5 := by decide

theorem G90_ne_G28 : G90 ≠ G28 := by decide

theorem M84_ne_M3 : M84 ≠ M3 := by decide

theorem M84_ne_M5 : M84 ≠ M5 := by decide

theorem M84_ne_G28 : M84 ≠ G28 := by decide

theorem empty_ne_M3 : ("" : String) ≠ M3 := by decide

theorem empty_ne_M5 : ("" : String) ≠ M5 := by decide

theorem empty_ne_G28 : ("" : String) ≠ G28 := by decide

/-- Counting commands in the four-line dot block: exactly one `M3 S255`,
one `M5`, no `G28`. -/
theorem count_paintDot (x y z d m : ℝ) :
    (paintDot x y z d m).count M3 = 1 ∧ (paintDot x y z d m).count M5 = 1 ∧
    (paintDot x y z d m).count G28 = 0 := by
  refine ⟨?_, ?_, ?_⟩ <;>
    simp [paintDot, List.count_cons, G0_ne_M3, G0_ne_M5, G0_ne_G28,
      G4_ne_M3, G4_ne_M5, G4_ne_G28, M5_ne_M3, M3_ne_M5, M3_ne_G28,
      M5_ne_G28]

/-- The refill sequence contains no spray or homing commands. -/
theorem count_refillSeq (pos : Transformer.Trilat) (cfg : Config)
    (anchors : Transformer.Anchors) :
    (generateRefillSequence pos cfg anchors).count M3 = 0 ∧
    (generateRefillSequence pos cfg anchors).count M5 = 0 ∧
    (generateRefillSequence pos cfg anchors).count G28 = 0 := by
  refine ⟨?_, ?_, ?_⟩ <;>
    simp [generateRefillSequence, List.count_cons, comment_ne_M3,
      comment_ne_M5, comment_ne_G28, separator_ne_M3, separator_ne_M5,
      separator_ne_G28, G0_ne_M3, G0_ne_M5, G0_ne_G28, G4_ne_M3,
      G4_ne_M5, G4_ne_G28]

/-- The color-change sequence contains no spray or homing commands. -/
theorem count_colorChange (cfg : Config) (anchors : Transformer.Anchors) :
    (generateColorChangeSequence cfg anchors).count M3 = 0 ∧
    (generateColorChangeSequence cfg anchors).count M5 = 0 ∧
    (generateColorChangeSequence cfg anchors).count G28 = 0 := by
  refine ⟨?_, ?_, ?_⟩ <;>
    simp [generateColorChangeSequence, List.count_cons, comment_ne_M3,
      comment_ne_M5, comment_ne_G28, separator_ne_M3, separator_ne_M5,
      separator_ne_G28, G0_ne_M3, G0_ne_M5, G0_ne_G28, G4_ne_M3,
      G4_ne_M5, G4_ne_G28, M6_ne_M3, M6_ne_M5, M6_ne_G28]

/-- The header: no spray-on, one nozzle-off safety `M5`, and exactly one
`G28` (the initialization homing). -/
theorem count_header (cfg : Config) (ts : String) :
    (generateHeader cfg ts).count M3 = 0 ∧
    (generateHeader cfg ts).count M5 = 1 ∧
    (generateHeader cfg ts).count G28 = 1 := by
  refine ⟨?_, ?_, ?_⟩ <;>
    simp [generateHeader, List.count_cons, commentBlock_ne_M3,
      commentBlock_ne_M5, commentBlock_ne_G28, comment_ne_M3,
      comment_ne_M5, comment_ne_G28, separator_ne_M3, separator_ne_M5,
      separator_ne_G28, G21_ne_M3, G21_ne_M5, G21_ne_G28, G90_ne_M3,
      G90_ne_M5, G90_ne_G28, G28_ne_M3, G28_ne_M5, M5_ne_M3, M5_ne_G28,
      empty_ne_M3, empty_ne_M5, empty_ne_G28]

/-- The footer: no spray-on, one nozzle-off safety `M5`, and exactly one
`G28` (the return home). -/
theorem count_footer :
    generateFooter.count M3 = 0 ∧ generateFooter.count M5 = 1 ∧
    generateFooter.count G28 = 1 := by
  refine ⟨?_, ?_, ?_⟩ <;>
    simp [generateFooter, List.count_cons, comment_ne_M3, comment_ne_M5,
      comment_ne_G28, separator_ne_M3, separator_ne_M5, separator_ne_G28,
      M84_ne_M3, M84_ne_M5, M84_ne_G28, G28_ne_M3, G28_ne_M5, M5_ne_M3,
      M5_ne_G28, empty_ne_M3, empty_ne_M5, empty_ne_G28]

end Gcode

end MuralBot

namespace MuralBot

namespace Tsp

/-- In the brute-force regime (at most 1000 points) with an in-range
start index — or with fewer than two points — the nearest-neighbor tour
visits every point exactly once, so its length is the point count. -/
theorem nearestNeighbor_length (points : List Pt) (start : ℕ)
    (hsz : points.length ≤ 1000)
    (hstart : start < points.length ∨ points.length ≤ 1) :
    (nearestNeighbor points start).length = points.length := by
  by_cases h0 : points.length = 0
  · simp only [nearestNeighbor]
    rw [if_pos h0, h0]
    rfl
  · by_cases h1 : points.length = 1
    · simp only [nearestNeighbor]
      rw [if_neg h0, if_pos h1, h1]
      rfl
    · have hst : start < points.length := by
        rcases hstart with h | h
        · exact h
        · omega
      have hperm : (nearestNeighbor points start).Perm
          (List.range points.length) := by
        simp only [nearestNeighbor]
        rw [if_neg h0, if_neg h1]
        rw [show decide (1000 < points.length) = false from by
          rw [decide_eq_false_iff_not]; omega]
        apply nnAux_perm points _ _ points.length [start] [start] start rfl
          (List.nodup_singleton start)
        · intro v hv
          rw [List.mem_singleton] at hv
          subst hv
          exact hst
        · rw [List.length_singleton]
          omega
      rw [hperm.length_eq, List.length_range]

/-- `solveTSP` returns a tour visiting every point exactly once, in the
same regime: 2-opt only permutes the nearest-neighbor tour. -/
theorem solveTSP_length (points : List Pt) (start : ℕ) (optimize : Bool)
    (maxIter : ℕ) (hsz : points.length ≤ 1000)
    (hstart : start < points.length ∨ points.length ≤ 1) :
    (solveTSP points start optimize maxIter).length = points.length := by
  simp only [solveTSP]
  split
  · exact ((twoOpt_spec _ points maxIter).2.length_eq).trans
      (nearestNeighbor_length points start hsz hstart)
  · exact nearestNeighbor_length points start hsz hstart

end Tsp

namespace Gcode

/-- A successful `_paintSingleDot` emits exactly one `M3 S255`, one `M5`
and no `G28` (the optional refill sequence adds none of these). -/
theorem paintSingleDot_count (cfg : Config) (anchors : Transformer.Anchors)
    (iw ih : ℕ) (cw ch : ℝ) (rng : ℕ → ℝ) (st : GenSt) (p : ℕ × ℕ)
    (r : GenSt × List String)
    (h : paintSingleDot cfg anchors iw ih cw ch rng st p = some r) :
    r.2.count M3 = 1 ∧ r.2.count M5 = 1 ∧ r.2.count G28 = 0 := by
  unfold paintSingleDot at h
  cases hsc : scaleToPhysical p.1 p.2 iw ih cw ch with
  | none => rw [hsc] at h; simp at h
  | some physical =>
    rw [hsc] at h
    cases had : Refill.addDotUsage st.tracker
        (cfg.minDotSize + rng st.rix * (cfg.maxDotSize - cfg.minDotSize))
        0.1 with
    | none => rw [had] at h; simp at h
    | some tb =>
      rw [had] at h
      simp only [Option.some.injEq] at h
      subst h
      dsimp only
      have hp := count_paintDot
        (Transformer.cartesianToTrilateration physical.x physical.y
          anchors).X
        (Transformer.cartesianToTrilateration physical.x physical.y
          anchors).Y
        (Transformer.cartesianToTrilateration physical.x physical.y
          anchors).Z 0.1 cfg.moveSpeed
      have hr := count_refillSeq
        (Transformer.cartesianToTrilateration physical.x physical.y
          anchors) cfg anchors
      cases hb : tb.2 with
      | false =>
        refine ⟨?_, ?_, ?_⟩ <;>
          simp [hp.1, hp.2.1, hp.2.2]
      | true =>
        refine ⟨?_, ?_, ?_⟩ <;>
          simp [List.count_append, List.count_cons, hr.1, hr.2.1, hr.2.2,
            hp.1, hp.2.1, hp.2.2, comment_ne_M3, comment_ne_M5,
            comment_ne_G28]

/-- The dot loop paints every dot of its list: the emitted lines contain
one `M3 S255` and one `M5` per dot and no `G28`. -/
theorem paintDots_count (cfg : Config) (anchors : Transformer.Anchors)
    (iw ih : ℕ) (cw ch : ℝ) (rng : ℕ → ℝ) :
    ∀ (dots : List (ℕ × ℕ)) (st : GenSt) (r : GenSt × List String),
    paintDots cfg anchors iw ih cw ch rng dots st = some r →
    r.2.count M3 = dots.length ∧ r.2.count M5 = dots.length ∧
    r.2.count G28 = 0 := by
  intro dots
  induction dots with
  | nil =>
    intro st r h
    simp only [paintDots, Option.some.injEq] at h
    subst h
    simp
  | cons p rest ihd =>
    intro st r h
    simp only [paintDots] at h
    cases h1 : paintSingleDot cfg anchors iw ih cw ch rng st p with
    | none => rw [h1] at h; simp at h
    | some r1 =>
      rw [h1] at h
      dsimp only at h
      cases h2 : paintDots cfg anchors iw ih cw ch rng rest r1.1 with
      | none => rw [h2] at h; simp at h
      | some r2 =>
        rw [h2] at h
        simp only [Option.some.injEq] at h
        subst h
        dsimp only
        have hc1 := paintSingleDot_count cfg anchors iw ih cw ch rng st p
          r1 h1
        have hc2 := ihd r1.1 r2 h2
        refine ⟨?_, ?_, ?_⟩
        · rw [List.count_append, hc1.1, hc2.1, List.length_cons]
          omega
        · rw [List.count_append, hc1.2.1, hc2.2.1, List.length_cons]
          omega
        · rw [List.count_append, hc1.2.2, hc2.2.2]

/-- A successful pointillism body paints exactly one dot per surviving
(downsampled) sample point, with no homing command, provided the
survivors are within the brute-force TSP regime (at most 1000). -/
theorem pointillism_count (pixels : List (ℕ × ℕ)) (iw ih : ℕ)
    (cfg : Config) (anchors : Transformer.Anchors) (cw ch : ℝ)
    (rng : ℕ → ℝ) (st : GenSt) (r : GenSt × List String)
    (hsmall : (downsamplePixels pixels cfg.dotDensity).length ≤ 1000)
    (h : generatePointillismGcode pixels iw ih cfg anchors cw ch rng st =
      some r) :
    r.2.count M3 = (downsamplePixels pixels cfg.dotDensity).length ∧
    r.2.count M5 = (downsamplePixels pixels cfg.dotDensity).length ∧
    r.2.count G28 = 0 := by
  unfold generatePointillismGcode at h
  rw [if_neg (by omega :
    ¬ 10000 < (downsamplePixels pixels cfg.dotDensity).length)] at h
  generalize hsi : (match st.pos with
    | none => 0
    | some q => if pixels.length = 0 then 0
                else nearestStartIdx pixels q) = si at h
  by_cases hg : 1 < (downsamplePixels pixels cfg.dotDensity).length ∧
      (downsamplePixels pixels cfg.dotDensity).length ≤ si
  · rw [if_pos hg] at h
    simp at h
  · rw [if_neg hg] at h
    cases hp : paintDots cfg anchors iw ih cw ch rng
        ((Tsp.solveTSP
            ((downsamplePixels pixels cfg.dotDensity).map
              (fun p => ⟨(p.1 : ℝ), (p.2 : ℝ)⟩)) si
            (decide ((downsamplePixels pixels cfg.dotDensity).length < 500))
            1000).map
          (fun k => (downsamplePixels pixels cfg.dotDensity).getD k (0, 0)))
        st with
    | none => rw [hp] at h; simp at h
    | some rp =>
      rw [hp] at h
      simp only [Option.map_some', Option.some.injEq] at h
      subst h
      dsimp only
      have htour : (Tsp.solveTSP
          ((downsamplePixels pixels cfg.dotDensity).map
            (fun p => (⟨(p.1 : ℝ), (p.2 : ℝ)⟩ : Pt))) si
          (decide ((downsamplePixels pixels cfg.dotDensity).length < 500))
          1000).length =
          (downsamplePixels pixels cfg.dotDensity).length := by
        rw [Tsp.solveTSP_length]
        · rw [List.length_map]
        · rw [List.length_map]
          exact hsmall
        · rw [List.length_map]
          omega
      have hdots := paintDots_count cfg anchors iw ih cw ch rng _ _ _ hp
      refine ⟨?_, ?_, ?_⟩ <;>
        simp [List.count_cons, comment_ne_M3, comment_ne_M5,
          comment_ne_G28, hdots.1, hdots.2.1, hdots.2.2, List.length_map,
          htour]

/-- A successful layer body paints exactly one dot per surviving sample
point of the layer and emits no homing command. -/
theorem layer_count (l : Layer) (i : ℕ) (cfg : Config)
    (anchors : Transformer.Anchors) (cw ch : ℝ) (rng : ℕ → ℝ)
    (st : GenSt) (r : GenSt × List String)
    (hsmall : survivors cfg l ≤ 1000)
    (h : generateLayerGcode l i cfg anchors cw ch rng st = some r) :
    r.2.count M3 = survivors cfg l ∧ r.2.count M5 = survivors cfg l ∧
    r.2.count G28 = 0 := by
  unfold generateLayerGcode at h
  by_cases hm : cfg.paintingMode = "pointillism"
  · rw [if_pos hm] at h
    cases hp : generatePointillismGcode
        (extractPixelCoordinates l.width l.height l.data) l.width l.height
        cfg anchors cw ch rng st with
    | none => rw [hp] at h; simp at h
    | some rp =>
      rw [hp] at h
      simp only [Option.map_some', Option.some.injEq] at h
      subst h
      dsimp only
      have hc := pointillism_count _ _ _ _ _ _ _ _ _ _ hsmall hp
      have hchg := count_colorChange cfg anchors
      by_cases hi : 0 < i
      · refine ⟨?_, ?_, ?_⟩ <;>
          simp [hi, List.count_append, List.count_cons, separator_ne_M3,
            separator_ne_M5, separator_ne_G28, comment_ne_M3,
            comment_ne_M5, comment_ne_G28, hchg.1, hchg.2.1, hchg.2.2,
            hc.1, hc.2.1, hc.2.2, survivors]
      · refine ⟨?_, ?_, ?_⟩ <;>
          simp [hi, List.count_append, List.count_cons, separator_ne_M3,
            separator_ne_M5, separator_ne_G28, comment_ne_M3,
            comment_ne_M5, comment_ne_G28, hc.1, hc.2.1, hc.2.2,
            survivors]
  · rw [if_neg hm] at h
    simp at h

/-- A successful run over a layer list paints one dot per surviving
sample point, summed over the layers, and emits no homing command. -/
theorem layers_count (cfg : Config) (anchors : Transformer.Anchors)
    (cw ch : ℝ) (rng : ℕ → ℝ) :
    ∀ (L : List Layer) (i : ℕ) (st : GenSt) (r : GenSt × List String),
    (∀ l ∈ L, survivors cfg l ≤ 1000) →
    generateColorLayersGcode cfg anchors cw ch rng L i st = some r →
    r.2.count M3 = (L.map (survivors cfg)).sum ∧
    r.2.count M5 = (L.map (survivors cfg)).sum ∧
    r.2.count G28 = 0 := by
  intro L
  induction L with
  | nil =>
    intro i st r _ h
    simp only [generateColorLayersGcode, Option.some.injEq] at h
    subst h
    simp
  | cons l rest ihd =>
    intro i st r hL h
    simp only [generateColorLayersGcode] at h
    cases h1 : generateLayerGcode l i cfg anchors cw ch rng st with
    | none => rw [h1] at h; simp at h
    | some r1 =>
      rw [h1] at h
      dsimp only at h
      cases h2 : generateColorLayersGcode cfg anchors cw ch rng rest
          (i + 1) r1.1 with
      | none => rw [h2] at h; simp at h
      | some r2 =>
        rw [h2] at h
        simp only [Option.some.injEq] at h
        subst h
        dsimp only
        have hc1 := layer_count l i cfg anchors cw ch rng st r1
          (hL l (List.mem_cons_self l rest)) h1
        have hc2 := ihd (i + 1) r1.1 r2
          (fun x hx => hL x (List.mem_cons_of_mem l hx)) h2
        refine ⟨?_, ?_, ?_⟩ <;>
          simp [List.count_append, List.count_cons, empty_ne_M3,
            empty_ne_M5, empty_ne_G28, hc1.1, hc1.2.1, hc1.2.2, hc2.1,
            hc2.2.1, hc2.2.2]

/-- At most one pixel per image position survives extraction. -/
theorem extract_length_le (w h : ℕ) (data : List ℝ) :
    (extractPixelCoordinates w h data).length ≤ h * w := by
  unfold extractPixelCoordinates
  have h2 : ((List.range h).map fun _ => w).sum = h * w := by
    rw [List.map_const']
    simp [List.sum_replicate, smul_eq_mul]
  rw [List.length_flatMap, ← h2]
  apply List.sum_le_sum
  intro y _
  exact le_trans (List.length_filterMap_le _ _)
    (le_of_eq (List.length_range w))

/-- Downsampling never adds pixels. -/
theorem downsample_length_le (ps : List (ℕ × ℕ)) (d : ℝ) :
    (downsamplePixels ps d).length ≤ ps.length := by
  unfold downsamplePixels
  suffices haux : ∀ (qs : List (ℕ × ℕ)) (acc : List (ℕ × ℕ) × List (ℕ × ℕ)),
      (qs.foldl
        (fun acc p =>
          if (p.1 / max 1 (⌊Real.sqrt (10000 / d)⌋).toNat,
              p.2 / max 1 (⌊Real.sqrt (10000 / d)⌋).toNat) ∈ acc.2 then acc
          else (acc.1 ++ [p],
            acc.2 ++ [(p.1 / max 1 (⌊Real.sqrt (10000 / d)⌋).toNat,
              p.2 / max 1 (⌊Real.sqrt (10000 / d)⌋).toNat)])) acc).1.length ≤
        acc.1.length + qs.length by
    simpa using haux ps ([], [])
  intro qs
  induction qs with
  | nil => intro acc; simp
  | cons p rest ihq =>
    intro acc
    rw [List.foldl_cons]
    by_cases hm : (p.1 / max 1 (⌊Real.sqrt (10000 / d)⌋).toNat,
        p.2 / max 1 (⌊Real.sqrt (10000 / d)⌋).toNat) ∈ acc.2
    · rw [if_pos hm]
      refine le_trans (ihq acc) ?_
      rw [List.length_cons]
      omega
    · rw [if_neg hm]
      refine le_trans (ihq _) ?_
      simp only [List.length_cons, List.length_append,
        List.length_singleton, List.length_nil]
      omega

/-- `_paintSingleDot` always succeeds on positive image and canvas
dimensions: the dot area `π r²` is never negative, so the usage tracker
never rejects it. -/
theorem paintSingleDot_some (cfg : Config) (anchors : Transformer.Anchors)
    (iw ih : ℕ) (cw ch : ℝ) (rng : ℕ → ℝ) (st : GenSt) (p : ℕ × ℕ)
    (hiw : 0 < iw) (hih : 0 < ih) (hcw : 0 < cw) (hch : 0 < ch) :
    ∃ r, paintSingleDot cfg anchors iw ih cw ch rng st p = some r := by
  unfold paintSingleDot
  have hsc : scaleToPhysical p.1 p.2 iw ih cw ch =
      some ⟨round2 (p.1 * (cw / iw)), round2 (p.2 * (ch / ih))⟩ := by
    unfold scaleToPhysical
    rw [if_neg, if_neg]
    · push_neg
      exact ⟨hcw, hch⟩
    · push_neg
      constructor
      · exact_mod_cast Nat.cast_pos.mpr hiw
      · exact_mod_cast Nat.cast_pos.mpr hih
  rw [hsc]
  dsimp only
  have harea : ¬ Real.pi *
      ((cfg.minDotSize + rng st.rix * (cfg.maxDotSize - cfg.minDotSize)) /
        2) *
      ((cfg.minDotSize + rng st.rix * (cfg.maxDotSize - cfg.minDotSize)) /
        2) < 0 := by
    push_neg
    have h := Real.pi_pos
    nlinarith [sq_nonneg ((cfg.minDotSize + rng st.rix *
      (cfg.maxDotSize - cfg.minDotSize)) / 2)]
  unfold Refill.addDotUsage Refill.addUsage
  rw [if_neg harea]
  simp only [Refill.needsRefill, if_neg Refill.thr_ok, Option.map_some']
  exact ⟨_, rfl⟩

/-- The dot loop always succeeds on positive dimensions. -/
theorem paintDots_some (cfg : Config) (anchors : Transformer.Anchors)
    (iw ih : ℕ) (cw ch : ℝ) (rng : ℕ → ℝ) (hiw : 0 < iw) (hih : 0 < ih)
    (hcw : 0 < cw) (hch : 0 < ch) :
    ∀ (dots : List (ℕ × ℕ)) (st : GenSt),
    ∃ r, paintDots cfg anchors iw ih cw ch rng dots st = some r := by
  intro dots
  induction dots with
  | nil => intro st; exact ⟨_, rfl⟩
  | cons p rest ihd =>
    intro st
    obtain ⟨r1, h1⟩ := paintSingleDot_some cfg anchors iw ih cw ch rng st
      p hiw hih hcw hch
    obtain ⟨r2, h2⟩ := ihd r1.1
    refine ⟨(r2.1, r1.2 ++ r2.2), ?_⟩
    simp only [paintDots]
    rw [h1]
    dsimp only
    rw [h2]

/-- From a fresh position (`_currentPosition = null`, as on the first
layer) the pointillism body always succeeds on positive dimensions: the
start index is 0, so the out-of-range crash cannot occur. -/
theorem pointillism_some (pixels : List (ℕ × ℕ)) (iw ih : ℕ)
    (cfg : Config) (anchors : Transformer.Anchors) (cw ch : ℝ)
    (rng : ℕ → ℝ) (tracker : Refill.Tracker) (rix : ℕ)
    (hiw : 0 < iw) (hih : 0 < ih) (hcw : 0 < cw) (hch : 0 < ch) :
    ∃ r, generatePointillismGcode pixels iw ih cfg anchors cw ch rng
      ⟨none, tracker, rix⟩ = some r := by
  unfold generatePointillismGcode
  by_cases h10 : 10000 < (downsamplePixels pixels cfg.dotDensity).length
  · rw [if_pos h10]
    obtain ⟨rp, hp⟩ := paintDots_some cfg anchors iw ih cw ch rng hiw hih
      hcw hch (downsamplePixels pixels cfg.dotDensity) ⟨none, tracker, rix⟩
    rw [hp]
    exact ⟨_, rfl⟩
  · rw [if_neg h10]
    dsimp only
    rw [if_neg (by omega :
      ¬(1 < (downsamplePixels pixels cfg.dotDensity).length ∧
        (downsamplePixels pixels cfg.dotDensity).length ≤ 0))]
    obtain ⟨rp, hp⟩ := paintDots_some cfg anchors iw ih cw ch rng hiw hih
      hcw hch _ (⟨none, tracker, rix⟩ : GenSt)
    rw [hp]
    exact ⟨_, rfl⟩

/-- A first pointillism layer always succeeds on positive dimensions. -/
theorem layer_some (l : Layer) (cfg : Config)
    (anchors : Transformer.Anchors) (cw ch : ℝ) (rng : ℕ → ℝ)
    (tracker : Refill.Tracker) (rix : ℕ)
    (hmode : cfg.paintingMode = "pointillism") (hw : 0 < l.width)
    (hh : 0 < l.height) (hcw : 0 < cw) (hch : 0 < ch) :
    ∃ r, generateLayerGcode l 0 cfg anchors cw ch rng
      ⟨none, tracker, rix⟩ = some r := by
  unfold generateLayerGcode
  rw [if_pos hmode]
  obtain ⟨rp, hp⟩ := pointillism_some
    (extractPixelCoordinates l.width l.height l.data) l.width l.height cfg
    anchors cw ch rng tracker rix hw hh hcw hch
  rw [hp]
  exact ⟨_, rfl⟩

/-- Single-layer pointillism generation succeeds whenever the paint
capacity and all dimensions are positive. -/
theorem generate_single_some (cfg : Config) (l : Layer) (ts : String)
    (rng : ℕ → ℝ) (hcap : 0 < cfg.paintCapacity)
    (hmode : cfg.paintingMode = "pointillism") (hw : 0 < l.width)
    (hh : 0 < l.height) (hcw : 0 < cfg.canvas.width)
    (hch : 0 < cfg.canvas.height) :
    ∃ stream, generate cfg [l] ts rng = some stream := by
  unfold generate
  have hr : Refill.reset cfg.paintCapacity =
      some ⟨cfg.paintCapacity, cfg.paintCapacity, 0, 0, []⟩ := by
    unfold Refill.reset
    rw [if_neg (not_le.mpr hcap)]
  rw [hr]
  dsimp only
  obtain ⟨r1, h1⟩ := layer_some l cfg (createAnchorConfig cfg.canvas)
    (cfg.canvas.width * 10) (cfg.canvas.height * 10) rng
    ⟨cfg.paintCapacity, cfg.paintCapacity, 0, 0, []⟩ 0 hmode hw hh
    (by positivity) (by positivity)
  simp only [generateColorLayersGcode]
  rw [h1]
  dsimp only
  exact ⟨_, rfl⟩

/-- A successful pointillism body emits no homing command, with no bound
on the number of survivors. -/
theorem pointillism_G28 (pixels : List (ℕ × ℕ)) (iw ih : ℕ)
    (cfg : Config) (anchors : Transformer.Anchors) (cw ch : ℝ)
    (rng : ℕ → ℝ) (st : GenSt) (r : GenSt × List String)
    (h : generatePointillismGcode pixels iw ih cfg anchors cw ch rng st =
      some r) :
    r.2.count G28 = 0 := by
  unfold generatePointillismGcode at h
  by_cases h10 : 10000 < (downsamplePixels pixels cfg.dotDensity).length
  · rw [if_pos h10] at h
    cases hp : paintDots cfg anchors iw ih cw ch rng
        (downsamplePixels pixels cfg.dotDensity) st with
    | none => rw [hp] at h; simp at h
    | some rp =>
      rw [hp] at h
      simp only [Option.map_some', Option.some.injEq] at h
      subst h
      dsimp only
      have hdots := paintDots_count cfg anchors iw ih cw ch rng _ _ _ hp
      simp [List.count_cons, comment_ne_G28, hdots.2.2]
  · rw [if_neg h10] at h
    generalize hsi : (match st.pos with
      | none => 0
      | some q => if pixels.length = 0 then 0
                  else nearestStartIdx pixels q) = si at h
    by_cases hg : 1 < (downsamplePixels pixels cfg.dotDensity).length ∧
        (downsamplePixels pixels cfg.dotDensity).length ≤ si
    · rw [if_pos hg] at h
      simp at h
    · rw [if_neg hg] at h
      cases hp : paintDots cfg anchors iw ih cw ch rng
          ((Tsp.solveTSP
              ((downsamplePixels pixels cfg.dotDensity).map
                (fun p => ⟨(p.1 : ℝ), (p.2 : ℝ)⟩)) si
              (decide
                ((downsamplePixels pixels cfg.dotDensity).length < 500))
              1000).map
            (fun k => (downsamplePixels pixels cfg.dotDensity).getD k
              (0, 0)))
          st with
      | none => rw [hp] at h; simp at h
      | some rp =>
        rw [hp] at h
        simp only [Option.map_some', Option.some.injEq] at h
        subst h
        dsimp only
        have hdots := paintDots_count cfg anchors iw ih cw ch rng _ _ _ hp
        simp [List.count_cons, comment_ne_G28, hdots.2.2]

/-- A successful layer body emits no homing command, with no bound on
the number of survivors. -/
theorem layer_G28 (l : Layer) (i : ℕ) (cfg : Config)
    (anchors : Transformer.Anchors) (cw ch : ℝ) (rng : ℕ → ℝ)
    (st : GenSt) (r : GenSt × List String)
    (h : generateLayerGcode l i cfg anchors cw ch rng st = some r) :
    r.2.count G28 = 0 := by
  unfold generateLayerGcode at h
  by_cases hm : cfg.paintingMode = "pointillism"
  · rw [if_pos hm] at h
    cases hp : generatePointillismGcode
        (extractPixelCoordinates l.width l.height l.data) l.width l.height
        cfg anchors cw ch rng st with
    | none => rw [hp] at h; simp at h
    | some rp =>
      rw [hp] at h
      simp only [Option.map_some', Option.some.injEq] at h
      subst h
      dsimp only
      have hc := pointillism_G28 _ _ _ _ _ _ _ _ _ _ hp
      have hchg := count_colorChange cfg anchors
      by_cases hi : 0 < i
      · simp [hi, List.count_append, List.count_cons, separator_ne_G28,
          comment_ne_G28, hchg.2.2, hc]
      · simp [hi, List.count_append, List.count_cons, separator_ne_G28,
          comment_ne_G28, hc]
  · rw [if_neg hm] at h
    simp at h

/-- A successful run over a layer list emits no homing command, with no
bound on the survivor counts. -/
theorem layers_G28 (cfg : Config) (anchors : Transformer.Anchors)
    (cw ch : ℝ) (rng : ℕ → ℝ) :
    ∀ (L : List Layer) (i : ℕ) (st : GenSt) (r : GenSt × List String),
    generateColorLayersGcode cfg anchors cw ch rng L i st = some r →
    r.2.count G28 = 0 := by
  intro L
  induction L with
  | nil =>
    intro i st r h
    simp only [generateColorLayersGcode, Option.some.injEq] at h
    subst h
    simp
  | cons l rest ihd =>
    intro i st r h
    simp only [generateColorLayersGcode] at h
    cases h1 : generateLayerGcode l i cfg anchors cw ch rng st with
    | none => rw [h1] at h; simp at h
    | some r1 =>
      rw [h1] at h
      dsimp only at h
      cases h2 : generateColorLayersGcode cfg anchors cw ch rng rest
          (i + 1) r1.1 with
      | none => rw [h2] at h; simp at h
      | some r2 =>
        rw [h2] at h
        simp only [Option.some.injEq] at h
        subst h
        dsimp only
        have hc1 := layer_G28 l i cfg anchors cw ch rng st r1 h1
        have hc2 := ihd (i + 1) r1.1 r2 h2
        simp [List.count_append, List.count_cons, empty_ne_G28, hc1, hc2]

/-- From a fresh position, a successful pointillism body paints exactly
one `M3 S255` per stop of the TSP tour over the survivors (which need
not visit all of them). -/
theorem pointillism_count_M3 (pixels : List (ℕ × ℕ)) (iw ih : ℕ)
    (cfg : Config) (anchors : Transformer.Anchors) (cw ch : ℝ)
    (rng : ℕ → ℝ) (tracker : Refill.Tracker) (rix : ℕ)
    (r : GenSt × List String)
    (h10 : (downsamplePixels pixels cfg.dotDensity).length ≤ 10000)
    (h : generatePointillismGcode pixels iw ih cfg anchors cw ch rng
      ⟨none, tracker, rix⟩ = some r) :
    r.2.count M3 =
      (Tsp.solveTSP
        ((downsamplePixels pixels cfg.dotDensity).map
          (fun p => ⟨(p.1 : ℝ), (p.2 : ℝ)⟩)) 0
        (decide ((downsamplePixels pixels cfg.dotDensity).length < 500))
        1000).length := by
  unfold generatePointillismGcode at h
  rw [if_neg (by omega :
    ¬ 10000 < (downsamplePixels pixels cfg.dotDensity).length)] at h
  dsimp only at h
  rw [if_neg (by omega :
    ¬(1 < (downsamplePixels pixels cfg.dotDensity).length ∧
      (downsamplePixels pixels cfg.dotDensity).length ≤ 0))] at h
  cases hp : paintDots cfg anchors iw ih cw ch rng
      ((Tsp.solveTSP
          ((downsamplePixels pixels cfg.dotDensity).map
            (fun p => ⟨(p.1 : ℝ), (p.2 : ℝ)⟩)) 0
          (decide ((downsamplePixels pixels cfg.dotDensity).length < 500))
          1000).map
        (fun k => (downsamplePixels pixels cfg.dotDensity).getD k (0, 0)))
      ⟨none, tracker, rix⟩ with
  | none => rw [hp] at h; simp at h
  | some rp =>
    rw [hp] at h
    simp only [Option.map_some', Option.some.injEq] at h
    subst h
    dsimp only
    have hdots := paintDots_count cfg anchors iw ih cw ch rng _ _ _ hp
    simp [List.count_cons, comment_ne_M3, hdots.1, List.length_map]

/-- The same count, lifted to a first (index-0) layer. -/
theorem layer_count_M3 (l : Layer) (cfg : Config)
    (anchors : Transformer.Anchors) (cw ch : ℝ) (rng : ℕ → ℝ)
    (tracker : Refill.Tracker) (rix : ℕ) (r : GenSt × List String)
    (h10 : survivors cfg l ≤ 10000)
    (h : generateLayerGcode l 0 cfg anchors cw ch rng
      ⟨none, tracker, rix⟩ = some r) :
    r.2.count M3 =
      (Tsp.solveTSP
        ((downsamplePixels
            (extractPixelCoordinates l.width l.height l.data)
            cfg.dotDensity).map (fun p => ⟨(p.1 : ℝ), (p.2 : ℝ)⟩)) 0
        (decide ((downsamplePixels
            (extractPixelCoordinates l.width l.height l.data)
            cfg.dotDensity).length < 500)) 1000).length := by
  unfold generateLayerGcode at h
  by_cases hm : cfg.paintingMode = "pointillism"
  · rw [if_pos hm] at h
    cases hp : generatePointillismGcode
        (extractPixelCoordinates l.width l.height l.data) l.width l.height
        cfg anchors cw ch rng ⟨none, tracker, rix⟩ with
    | none => rw [hp] at h; simp at h
    | some rp =>
      rw [hp] at h
      simp only [Option.map_some', Option.some.injEq] at h
      subst h
      dsimp only
      have hc := pointillism_count_M3 _ _ _ _ _ _ _ _ _ _ _ h10 hp
      simp [List.count_append, List.count_cons, separator_ne_M3,
        comment_ne_M3, hc]
  · rw [if_neg hm] at h
    simp at h

/-- The same count, lifted through a single-layer `generate` run. -/
theorem generate_count_M3_single (cfg : Config) (l : Layer) (ts : String)
    (rng : ℕ → ℝ) (stream : List String)
    (h10 : survivors cfg l ≤ 10000)
    (hgen : generate cfg [l] ts rng = some stream) :
    stream.count M3 =
      (Tsp.solveTSP
        ((downsamplePixels
            (extractPixelCoordinates l.width l.height l.data)
            cfg.dotDensity).map (fun p => ⟨(p.1 : ℝ), (p.2 : ℝ)⟩)) 0
        (decide ((downsamplePixels
            (extractPixelCoordinates l.width l.height l.data)
            cfg.dotDensity).length < 500)) 1000).length := by
  unfold generate at hgen
  cases hr : Refill.reset cfg.paintCapacity with
  | none => rw [hr] at hgen; simp at hgen
  | some tracker =>
    rw [hr] at hgen
    dsimp only at hgen
    cases hgl : generateLayerGcode l 0 cfg (createAnchorConfig cfg.canvas)
        (cfg.canvas.width * 10) (cfg.canvas.height * 10) rng
        ⟨none, tracker, 0⟩ with
    | none =>
      simp only [generateColorLayersGcode, hgl] at hgen
      simp at hgen
    | some r1 =>
      simp only [generateColorLayersGcode, hgl] at hgen
      simp only [Option.map_some', Option.some.injEq] at hgen
      subst hgen
      have hc := layer_count_M3 l cfg _ _ _ rng tracker 0 r1 h10 hgl
      have hh := count_header cfg ts
      have hf := count_footer
      simp [List.count_append, List.count_cons, hh.1, hf.1, hc,
        empty_ne_M3]

end Gcode

end MuralBot

namespace MuralBot

namespace Claims

/-- The C8 witness configuration: a 10 cm × 10 cm canvas with the
default anchor triangle, pointillism mode at 100% density. -/
def c8Cfg : Gcode.Config :=
  { canvas := ⟨10, 10, none, none, none, none⟩
    paintingMode := "pointillism"
    paintCapacity := 100
    moveSpeed := 3000
    paintSpeed := 1500
    refillPosition := ⟨0, 0⟩
    minDotSize := 2
    maxDotSize := 5
    dotDensity := 100 }

/-- The C8 witness layer: a 4 × 4 flat white RGBA buffer. -/
def c8Layer : Gcode.Layer :=
  { color := ⟨255, 255, 255⟩
    width := 4
    height := 4
    data := List.replicate 64 255 }

/-- **C8** (amended).  In dot (pointillism) mode, whenever G-code
generation succeeds, the generated command stream contains exactly two
`G28` homing commands — one contributed by the initialization preamble
and one by the end sequence — and, provided every layer's surviving
(downsampled) sample count is at most 1000 (the brute-force
tour-construction regime), exactly one `M3 S255` per surviving sample
point and one matching `M5` per dot plus the two nozzle-off safety
`M5`s of header and footer.  Above 1000 survivors the spatial-index
tour construction can drop surviving points (see the counterexample),
so the per-survivor pairing need not hold there. -/
theorem C8_dot_stream_counts_amended (cfg : Gcode.Config)
    (L : List Gcode.Layer) (ts : String) (rng : ℕ → ℝ)
    (stream : List String)
    (hgen : Gcode.generate cfg L ts rng = some stream) :
    stream.count Gcode.G28 = 2 ∧
    (Gcode.generateHeader cfg ts).count Gcode.G28 = 1 ∧
    Gcode.generateFooter.count Gcode.G28 = 1 ∧
    ((∀ l ∈ L, Gcode.survivors cfg l ≤ 1000) →
      stream.count Gcode.M3 = (L.map (Gcode.survivors cfg)).sum ∧
      stream.count Gcode.M5 = (L.map (Gcode.survivors cfg)).sum + 2) := by
  unfold Gcode.generate at hgen
  cases hr : Refill.reset cfg.paintCapacity with
  | none => rw [hr] at hgen; simp at hgen
  | some tracker =>
    rw [hr] at hgen
    dsimp only at hgen
    cases L with
    | nil => simp at hgen
    | cons l rest =>
      cases hgl : Gcode.generateColorLayersGcode cfg
          (Gcode.createAnchorConfig cfg.canvas) (cfg.canvas.width * 10)
          (cfg.canvas.height * 10) rng (l :: rest) 0
          ⟨none, tracker, 0⟩ with
      | none => rw [hgl] at hgen; simp at hgen
      | some r =>
        rw [hgl] at hgen
        simp only [Option.map_some', Option.some.injEq] at hgen
        subst hgen
        have hg28 := Gcode.layers_G28 cfg _ _ _ rng (l :: rest) 0 _ r hgl
        have hh := Gcode.count_header cfg ts
        have hf := Gcode.count_footer
        refine ⟨?_, hh.2.2, hf.2.2, ?_⟩
        · simp [List.count_append, List.count_cons, hh.2.2, hf.2.2, hg28,
            Gcode.empty_ne_G28]
        · intro hsmall
          have hc := Gcode.layers_count cfg _ _ _ rng (l :: rest) 0 _ r
            hsmall hgl
          refine ⟨?_, ?_⟩ <;>
            simp [List.count_append, List.count_cons, hh.1, hh.2.1, hf.1,
              hf.2.1, hc.1, hc.2.1, Gcode.empty_ne_M3,
              Gcode.empty_ne_M5] <;> omega

/-- C8 witness: the spec's own scenario — a 4 × 4 flat-color buffer as a
single layer of a 10 cm canvas at 100% density — generates successfully,
and the stream satisfies all counting properties, including the
per-survivor pairing (it has at most 16 ≤ 1000 survivors). -/
theorem C8_dot_stream_counts_amended_witness :
    (∀ l ∈ [c8Layer], Gcode.survivors c8Cfg l ≤ 1000) ∧
    (Gcode.generate c8Cfg [c8Layer] "2026-01-01T00:00:00.000Z"
        (fun _ => 0)).elim False (fun stream =>
      stream.count Gcode.G28 = 2 ∧
      (Gcode.generateHeader c8Cfg "2026-01-01T00:00:00.000Z").count
        Gcode.G28 = 1 ∧
      Gcode.generateFooter.count Gcode.G28 = 1 ∧
      stream.count Gcode.M3 = ([c8Layer].map (Gcode.survivors c8Cfg)).sum ∧
      stream.count Gcode.M5 =
        ([c8Layer].map (Gcode.survivors c8Cfg)).sum + 2) := by
  have hsmall : ∀ l ∈ [c8Layer], Gcode.survivors c8Cfg l ≤ 1000 := by
    intro l hl
    rw [List.mem_singleton] at hl
    subst hl
    refine le_trans (Gcode.downsample_length_le _ _) ?_
    refine le_trans (Gcode.extract_length_le _ _ _) ?_
    norm_num [c8Layer]
  obtain ⟨s, hs⟩ := Gcode.generate_single_some c8Cfg c8Layer
    "2026-01-01T00:00:00.000Z" (fun _ => 0) (by norm_num [c8Cfg]) rfl
    (by norm_num [c8Layer]) (by norm_num [c8Layer]) (by norm_num [c8Cfg])
    (by norm_num [c8Cfg])
  refine ⟨hsmall, ?_⟩
  rw [hs]
  have h := C8_dot_stream_counts_amended c8Cfg [c8Layer]
    "2026-01-01T00:00:00.000Z" (fun _ => 0) s hs
  exact ⟨h.1, h.2.1, h.2.2.1, (h.2.2.2 hsmall).1, (h.2.2.2 hsmall).2⟩

/-- Filtering with an everywhere-true condition keeps everything. -/
theorem filterMap_if_true {α β : Type} (l : List α) (p : α → Prop)
    [DecidablePred p] (g : α → β) (h : ∀ a ∈ l, p a) :
    (l.filterMap fun a => if p a then some (g a) else none) = l.map g := by
  induction l with
  | nil => rfl
  | cons a t ih =>
    simp only [List.filterMap_cons, if_pos (h a (List.mem_cons_self a t)),
      List.map_cons]
    rw [ih fun b hb => h b (List.mem_cons_of_mem a hb)]

/-- Filtering with an everywhere-false condition drops everything. -/
theorem filterMap_if_false {α β : Type} (l : List α) (p : α → Prop)
    [DecidablePred p] (g : α → β) (h : ∀ a ∈ l, ¬ p a) :
    (l.filterMap fun a => if p a then some (g a) else none) = [] :=
  List.filterMap_eq_nil_iff.mpr fun a ha => if_neg (h a ha)

/-- A flat map of singletons is a map. -/
theorem flatMap_one {α β : Type} (l : List α) (g : α → β) :
    (l.flatMap fun a => [g a]) = l.map g := by
  induction l with
  | nil => rfl
  | cons a t ih => simp only [List.flatMap_cons, List.map_cons,
      List.singleton_append, ih]

/-- Gluing `k` consecutive stride-`s` blocks of `List.range'`. -/
theorem flatMap_range'_blocks (a s k : ℕ) :
    ((List.range' 0 k).flatMap fun b => List.range' (a + b * s) s) =
    List.range' a (k * s) := by
  induction k with
  | zero => simp
  | succ k ih =>
    rw [List.range'_1_concat, List.flatMap_append, ih]
    simp only [List.flatMap_cons, List.flatMap_nil, List.append_nil,
      Nat.zero_add]
    rw [show a + k * s = a + 1 * (k * s) by ring, List.range'_append]
    rw [show s + k * s = (k + 1) * s by ring]

/-- The C8 counterexample configuration: pointillism at the documented
100% density on a 10 m × 10 m canvas. -/
def c8xCfg : Gcode.Config :=
  { canvas := ⟨1000, 1000, none, none, none, none⟩
    paintingMode := "pointillism"
    paintCapacity := 100
    moveSpeed := 3000
    paintSpeed := 1500
    refillPosition := ⟨0, 0⟩
    minDotSize := 2
    maxDotSize := 5
    dotDensity := 100 }

/-- The opaque pixels of the counterexample image: the single far pixel
at the origin, plus a 49 × 51 grid of pixels (stepping by 10 in both
directions, so each lands in its own downsampling cell) in the opposite
corner. -/
abbrev c8xSel (x y : ℕ) : Prop :=
  (x = 0 ∧ y = 0) ∨ (9520 ≤ x ∧ 10 ∣ x ∧ 9500 ≤ y ∧ 10 ∣ y)

/-- The flat RGBA buffer of the counterexample image: alpha 255 exactly
at the selected pixels. -/
def c8xData : List ℝ :=
  (List.range (10001 * 10001 * 4)).map fun i =>
    if i % 4 = 3 then
      (if c8xSel (i / 4 % 10001) (i / 4 / 10001) then (255 : ℝ) else 0)
    else 0

/-- The counterexample layer: a 10001 × 10001 image with the buffer
above. -/
def c8xLayer : Gcode.Layer :=
  { color := ⟨0, 0, 0⟩
    width := 10001
    height := 10001
    data := c8xData }

/-- The corner cluster, in extraction (row-major) order. -/
def c8xCluster : List (ℕ × ℕ) :=
  (List.range' 0 51).flatMap fun j =>
    (List.range' 0 49).map fun i => (9520 + i * 10, 9500 + j * 10)

/-- All opaque pixels, in extraction order: the origin pixel first. -/
def c8xPixels : List (ℕ × ℕ) := (0, 0) :: c8xCluster

/-- Reading the alpha channel of the counterexample buffer. -/
theorem c8x_getD (x y : ℕ) (hx : x < 10001) (hy : y < 10001) :
    c8xData.getD ((y * 10001 + x) * 4 + 3) 0 =
      if c8xSel x y then (255 : ℝ) else 0 := by
  have hidx : (y * 10001 + x) * 4 + 3 < 10001 * 10001 * 4 := by omega
  unfold c8xData
  rw [List.getD_eq_getElem _ _
    (by rw [List.length_map, List.length_range]; exact hidx)]
  rw [List.getElem_map, List.getElem_range]
  have h1 : ((y * 10001 + x) * 4 + 3) % 4 = 3 := by omega
  have h2 : ((y * 10001 + x) * 4 + 3) / 4 = y * 10001 + x := by omega
  rw [h1, h2]
  have h3 : (y * 10001 + x) % 10001 = x := by omega
  have h4 : (y * 10001 + x) / 10001 = y := by omega
  rw [h3, h4, if_pos rfl]

/-- One extraction row of the counterexample image, as selected by the
arithmetic pixel predicate. -/
def c8xRow (y : ℕ) : List (ℕ × ℕ) :=
  (List.range 10001).filterMap fun x =>
    if c8xSel x y then some (x, y) else none

/-- Row 0 contains only the origin pixel. -/
theorem c8xRow_zero : c8xRow 0 = [(0, 0)] := by
  unfold c8xRow
  have hsplit : List.range 10001 = List.range' 0 1 ++ List.range' 1 10000 := by
    rw [List.range_eq_range']
    have := List.range'_append 0 1 10000 1
    simpa using this.symm
  rw [hsplit, List.filterMap_append]
  rw [filterMap_if_true (List.range' 0 1) (fun x => c8xSel x 0)
    (fun x => (x, 0)) ?htrue]
  rw [filterMap_if_false (List.range' 1 10000) (fun x => c8xSel x 0)
    (fun x => (x, 0)) ?hfalse]
  · rfl
  case htrue =>
    intro a ha
    rw [List.mem_range'_1] at ha
    left
    omega
  case hfalse =>
    intro a ha
    rw [List.mem_range'_1] at ha
    rintro (⟨h1, h2⟩ | ⟨h1, h2, h3, h4⟩) <;> omega

/-- Rows 1 through 9499 are empty. -/
theorem c8xRow_mid (y : ℕ) (h1 : 1 ≤ y) (h2 : y ≤ 9499) : c8xRow y = [] := by
  unfold c8xRow
  apply filterMap_if_false
  intro a _
  rintro (⟨g1, g2⟩ | ⟨g1, g2, g3, g4⟩) <;> omega

/-- Rows at or above 9500 whose index is not a multiple of 10 are
empty. -/
theorem c8xRow_skip (y : ℕ) (h1 : 9500 ≤ y) (h3 : ¬ 10 ∣ y) :
    c8xRow y = [] := by
  unfold c8xRow
  apply filterMap_if_false
  intro a _
  rintro (⟨g1, g2⟩ | ⟨g1, g2, g3, g4⟩)
  · omega
  · exact h3 g4

/-- Cluster rows: the 49 pixels with x stepping by 10 from 9520. -/
theorem c8xRow_cluster (y : ℕ) (h1 : 9500 ≤ y) (h2 : y ≤ 10000)
    (h3 : 10 ∣ y) :
    c8xRow y = (List.range' 0 49).map fun i => (9520 + i * 10, y) := by
  unfold c8xRow
  have hsplit : List.range 10001 =
      List.range' 0 9520 ++ List.range' 9520 481 := by
    rw [List.range_eq_range']
    have := List.range'_append 0 9520 481 1
    simpa using this.symm
  rw [hsplit, List.filterMap_append]
  rw [filterMap_if_false (List.range' 0 9520) (fun x => c8xSel x y)
    (fun x => (x, y)) ?hlow]
  case hlow =>
    intro a ha
    rw [List.mem_range'_1] at ha
    rintro (⟨g1, g2⟩ | ⟨g1, g2, g3, g4⟩) <;> omega
  rw [List.nil_append]
  have hblocks : List.range' 9520 481 =
      ((List.range' 0 48).flatMap fun b => List.range' (9520 + b * 10) 10)
        ++ [10000] := by
    rw [flatMap_range'_blocks]
    have := List.range'_1_concat 9520 480
    simpa using this
  rw [hblocks, List.filterMap_append]
  have hblock : ∀ b ∈ List.range' 0 48,
      (List.range' (9520 + b * 10) 10).filterMap
        (fun x => if c8xSel x y then some (x, y) else none) =
      [(9520 + b * 10, y)] := by
    intro b hb
    rw [List.mem_range'_1] at hb
    have hsp : List.range' (9520 + b * 10) 10 =
        List.range' (9520 + b * 10) 1 ++
          List.range' (9520 + b * 10 + 1) 9 := by
      have := List.range'_append (9520 + b * 10) 1 9 1
      simpa using this.symm
    rw [hsp, List.filterMap_append]
    rw [filterMap_if_true (List.range' (9520 + b * 10) 1)
      (fun x => c8xSel x y) (fun x => (x, y)) ?hone]
    rw [filterMap_if_false (List.range' (9520 + b * 10 + 1) 9)
      (fun x => c8xSel x y) (fun x => (x, y)) ?hrest]
    · rfl
    case hone =>
      intro a ha
      rw [List.mem_range'_1] at ha
      right
      refine ⟨by omega, ?_, h1, h3⟩
      have : a = 9520 + b * 10 := by omega
      subst this
      omega
    case hrest =>
      intro a ha
      rw [List.mem_range'_1] at ha
      rintro (⟨g1, g2⟩ | ⟨g1, g2, g3, g4⟩)
      · omega
      · obtain ⟨c, hc⟩ := g2
        omega
  rw [List.filterMap_flatMap, List.flatMap_congr hblock, flatMap_one]
  have hsel : c8xSel 10000 y := Or.inr ⟨by norm_num, by norm_num, h1, h3⟩
  have hlast : (([10000] : List ℕ).filterMap
      fun x => if c8xSel x y then some (x, y) else none) = [(10000, y)] := by
    simp [hsel]
  rw [hlast]
  have hsplit49 : List.range' 0 49 = List.range' 0 48 ++ [48] := by
    have := List.range'_1_concat 0 48
    simpa using this
  rw [hsplit49, List.map_append]
  norm_num

/-- Extracting opaque pixels from the counterexample image gives the
origin pixel followed by the 51 × 49 far cluster, in row-major order. -/
theorem c8x_extract :
    Gcode.extractPixelCoordinates 10001 10001 c8xData = c8xPixels := by
  have hrow : ∀ y ∈ List.range 10001,
      ((List.range 10001).filterMap fun x =>
        if 0 < c8xData.getD ((y * 10001 + x) * 4 + 3) 0 then some (x, y)
        else none) = c8xRow y := by
    intro y hy
    rw [List.mem_range] at hy
    unfold c8xRow
    apply List.filterMap_congr
    intro x hx
    rw [List.mem_range] at hx
    rw [c8x_getD x y hx hy]
    by_cases hc : c8xSel x y
    · norm_num [hc]
    · norm_num [hc]
  unfold Gcode.extractPixelCoordinates
  rw [List.flatMap_congr hrow]
  have hsplitY : List.range 10001 =
      (List.range' 0 1 ++ List.range' 1 9499) ++ List.range' 9500 501 := by
    rw [List.range_eq_range']
    have e1 : List.range' 0 1 ++ List.range' 1 9499 = List.range' 0 9500 := by
      have := List.range'_append 0 1 9499 1
      simpa using this
    have e2 : List.range' 0 9500 ++ List.range' 9500 501 =
        List.range' 0 10001 := by
      have := List.range'_append 0 9500 501 1
      simpa using this
    rw [e1, e2]
  rw [hsplitY, List.flatMap_append, List.flatMap_append]
  have p1 : (List.range' 0 1).flatMap c8xRow = [(0, 0)] := by
    simp [c8xRow_zero]
  have p2 : (List.range' 1 9499).flatMap c8xRow = [] := by
    rw [List.flatMap_eq_nil_iff]
    intro y hy
    rw [List.mem_range'_1] at hy
    exact c8xRow_mid y (by omega) (by omega)
  have p3 : (List.range' 9500 501).flatMap c8xRow = c8xCluster := by
    have hb : List.range' 9500 501 =
        ((List.range' 0 50).flatMap fun b => List.range' (9500 + b * 10) 10)
          ++ [10000] := by
      rw [flatMap_range'_blocks]
      have := List.range'_1_concat 9500 500
      simpa using this
    rw [hb, List.flatMap_append, List.flatMap_assoc]
    have hblockrow : ∀ b ∈ List.range' 0 50,
        (List.range' (9500 + b * 10) 10).flatMap c8xRow =
        (List.range' 0 49).map fun i => (9520 + i * 10, 9500 + b * 10) := by
      intro b hb'
      rw [List.mem_range'_1] at hb'
      have hsp : List.range' (9500 + b * 10) 10 =
          List.range' (9500 + b * 10) 1 ++
            List.range' (9500 + b * 10 + 1) 9 := by
        have := List.range'_append (9500 + b * 10) 1 9 1
        simpa using this.symm
      rw [hsp, List.flatMap_append]
      have hone : (List.range' (9500 + b * 10) 1).flatMap c8xRow =
          c8xRow (9500 + b * 10) := by
        simp
      have hz : (List.range' (9500 + b * 10 + 1) 9).flatMap c8xRow = [] := by
        rw [List.flatMap_eq_nil_iff]
        intro y hy
        rw [List.mem_range'_1] at hy
        refine c8xRow_skip y (by omega) ?_
        rintro ⟨c, hc⟩
        omega
      rw [hone, hz, List.append_nil]
      exact c8xRow_cluster (9500 + b * 10) (by omega) (by omega)
        ⟨950 + b, by ring⟩
    rw [List.flatMap_congr hblockrow]
    have hlastrow : ([10000] : List ℕ).flatMap c8xRow =
        (List.range' 0 49).map fun i => (9520 + i * 10, 10000) := by
      rw [show ([10000] : List ℕ).flatMap c8xRow = c8xRow 10000 by simp]
      exact c8xRow_cluster 10000 (by norm_num) (by norm_num)
        ⟨1000, by norm_num⟩
    rw [hlastrow]
    unfold c8xCluster
    have h51 : List.range' 0 51 = List.range' 0 50 ++ [50] := by
      have := List.range'_1_concat 0 50
      simpa using this
    rw [h51, List.flatMap_append]
    norm_num
  rw [p1, p2, p3, List.append_nil]
  rfl

/-- The downsampling fold keeps every pixel when no processed key is
repeated and no pending key is already recorded. -/
theorem c8_fold_aux (S : ℕ) (ps : List (ℕ × ℕ)) :
    ∀ (a seen : List (ℕ × ℕ)),
    (∀ p ∈ ps, (p.1 / S, p.2 / S) ∉ seen) →
    ps.Pairwise (fun p q => (p.1 / S, p.2 / S) ≠ (q.1 / S, q.2 / S)) →
    (ps.foldl
      (fun (acc : List (ℕ × ℕ) × List (ℕ × ℕ)) p =>
        if (p.1 / S, p.2 / S) ∈ acc.2 then acc
        else (acc.1 ++ [p], acc.2 ++ [(p.1 / S, p.2 / S)]))
      (a, seen)).1 = a ++ ps := by
  induction ps with
  | nil => intro a seen _ _; simp
  | cons p t ih =>
    intro a seen hnot hpw
    rw [List.foldl_cons]
    rw [if_neg (hnot p (List.mem_cons_self p t))]
    have h1 : ∀ q ∈ t, (q.1 / S, q.2 / S) ∉ seen ++ [(p.1 / S, p.2 / S)] := by
      intro q hq
      rw [List.mem_append]
      rintro (hs | hs)
      · exact hnot q (List.mem_cons_of_mem p hq) hs
      · rw [List.mem_singleton] at hs
        exact (List.pairwise_cons.mp hpw).1 q hq hs.symm
    have := ih (a ++ [p]) (seen ++ [(p.1 / S, p.2 / S)]) h1
      (List.pairwise_cons.mp hpw).2
    rw [this]
    simp

/-- Downsampling is the identity on a pixel list whose grid keys are
pairwise distinct. -/
theorem downsamplePixels_inj (ps : List (ℕ × ℕ)) (density : ℝ)
    (h : ps.Pairwise fun p q =>
      (p.1 / max 1 (⌊Real.sqrt (10000 / density)⌋).toNat,
       p.2 / max 1 (⌊Real.sqrt (10000 / density)⌋).toNat) ≠
      (q.1 / max 1 (⌊Real.sqrt (10000 / density)⌋).toNat,
       q.2 / max 1 (⌊Real.sqrt (10000 / density)⌋).toNat)) :
    Gcode.downsamplePixels ps density = ps := by
  unfold Gcode.downsamplePixels
  have := c8_fold_aux (max 1 (⌊Real.sqrt (10000 / density)⌋).toNat) ps [] []
    (fun p _ => List.not_mem_nil _) h
  simpa using this

/-- At the documented 100% density the downsampling grid spacing is 10. -/
theorem c8x_spacing : max 1 (⌊Real.sqrt (10000 / (100 : ℝ))⌋).toNat = 10 := by
  have h : Real.sqrt (10000 / (100 : ℝ)) = 10 := by
    apply sqrt_eval (by norm_num)
    norm_num
  rw [h]
  rw [show ((10 : ℝ)) = ((10 : ℤ) : ℝ) by norm_num, Int.floor_intCast]
  rfl

/-- The counterexample pixels occupy pairwise-distinct spacing-10 grid
cells. -/
theorem c8x_pairwise : c8xPixels.Pairwise fun p q =>
    (p.1 / 10, p.2 / 10) ≠ (q.1 / 10, q.2 / 10) := by
  unfold c8xPixels c8xCluster
  rw [List.pairwise_cons]
  constructor
  · intro q hq
    rw [List.mem_flatMap] at hq
    obtain ⟨j, hj, hq⟩ := hq
    rw [List.mem_map] at hq
    obtain ⟨i, hi, rfl⟩ := hq
    intro hk
    rw [Prod.mk.injEq] at hk
    omega
  · rw [List.pairwise_flatMap]
    constructor
    · intro j hj
      rw [List.pairwise_map]
      refine List.Pairwise.imp ?_ (List.pairwise_lt_range' 0 49 1)
      intro a b hab hk
      rw [Prod.mk.injEq] at hk
      omega
    · refine List.Pairwise.imp ?_ (List.pairwise_lt_range' 0 51 1)
      intro j1 j2 hj x hx y hy
      rw [List.mem_map] at hx hy
      obtain ⟨i1, hi1, rfl⟩ := hx
      obtain ⟨i2, hi2, rfl⟩ := hy
      intro hk
      rw [Prod.mk.injEq] at hk
      omega

/-- Downsampling leaves the counterexample pixel list unchanged. -/
theorem c8x_down : Gcode.downsamplePixels c8xPixels 100 = c8xPixels := by
  apply downsamplePixels_inj
  simp only [c8x_spacing]
  exact c8x_pairwise

/-- The counterexample has exactly 2500 pixels. -/
theorem c8xPixels_length : c8xPixels.length = 2500 := by
  unfold c8xPixels c8xCluster
  rw [List.length_cons, List.length_flatMap]
  simp only [Function.comp_def, List.length_map, List.length_range',
    List.map_const', List.sum_replicate, smul_eq_mul]

/-- The counterexample layer has 2500 surviving dots — far above the
1000-point cap of the exhaustive solver. -/
theorem c8x_survivors : Gcode.survivors c8xCfg c8xLayer = 2500 := by
  unfold Gcode.survivors
  dsimp only [c8xLayer, c8xCfg]
  rw [c8x_extract, c8x_down, c8xPixels_length]

/-- `gridInsert` preserves a property of all bucket items when the new
item has it. -/
theorem gridInsert_items {Q : ℕ × Pt → Prop} :
    ∀ (g : List ((ℤ × ℤ) × List (ℕ × Pt))) (k : ℤ × ℤ) (v : ℕ × Pt),
    (∀ e ∈ g, ∀ it ∈ e.2, Q it) → Q v →
    ∀ e ∈ (Tsp.gridInsert g k v : List ((ℤ × ℤ) × List (ℕ × Pt))),
      ∀ it ∈ e.2, Q it := by
  intro g
  induction g with
  | nil =>
    intro k v _ hv e he it hit
    simp only [Tsp.gridInsert, List.mem_singleton] at he
    subst he
    rw [List.mem_singleton] at hit
    subst hit
    exact hv
  | cons b rest ih =>
    intro k v hg hv e he it hit
    obtain ⟨k', vs⟩ := b
    simp only [Tsp.gridInsert] at he
    by_cases hk : k' = k
    · rw [if_pos hk] at he
      rw [List.mem_cons] at he
      rcases he with rfl | he
      · rw [List.mem_append] at hit
        rcases hit with hit | hit
        · exact hg (k', vs) (List.mem_cons_self _ _) it hit
        · rw [List.mem_singleton] at hit
          subst hit
          exact hv
      · exact hg e (List.mem_cons_of_mem _ he) it hit
    · rw [if_neg hk] at he
      rw [List.mem_cons] at he
      rcases he with rfl | he
      · exact hg (k', vs) (List.mem_cons_self _ _) it hit
      · exact ih k v (fun d hd => hg d (List.mem_cons_of_mem _ hd)) hv
          e he it hit

/-- Folding grid insertions preserves the item property. -/
theorem buildGrid_aux {Q : ℕ × Pt → Prop} (points : List Pt) (gs : ℝ)
    (hQ : ∀ i < points.length, Q (i, points.getD i ⟨0, 0⟩)) :
    ∀ (l : List ℕ) (g : List ((ℤ × ℤ) × List (ℕ × Pt))),
    (∀ i ∈ l, i < points.length) →
    (∀ e ∈ g, ∀ it ∈ e.2, Q it) →
    ∀ e ∈ (l.foldl
      (fun g i => Tsp.gridInsert g
        (Tsp.cellKey (points.getD i ⟨0, 0⟩) gs) (i, points.getD i ⟨0, 0⟩))
      g : List ((ℤ × ℤ) × List (ℕ × Pt))), ∀ it ∈ e.2, Q it := by
  intro l
  induction l with
  | nil => intro g _ hg; exact hg
  | cons i t ih =>
    intro g hl hg
    rw [List.foldl_cons]
    exact ih _ (fun j hj => hl j (List.mem_cons_of_mem i hj))
      (gridInsert_items g _ _ hg (hQ i (hl i (List.mem_cons_self i t))))

/-- Every item of every bucket of `buildGrid` is an in-range index paired
with the point at that index. -/
theorem buildGrid_items {Q : ℕ × Pt → Prop} (points : List Pt) (gs : ℝ)
    (hQ : ∀ i < points.length, Q (i, points.getD i ⟨0, 0⟩)) :
    ∀ e ∈ (Tsp.buildGrid points gs : List ((ℤ × ℤ) × List (ℕ × Pt))),
      ∀ it ∈ e.2, Q it := by
  unfold Tsp.buildGrid
  exact buildGrid_aux points gs hQ (List.range points.length) []
    (fun i hi => List.mem_range.mp hi)
    (fun e he => absurd he (List.not_mem_nil e))

/-- A successful grid lookup returns one of the grid buckets. -/
theorem gridFind_mem (g : List ((ℤ × ℤ) × List (ℕ × Pt))) (k : ℤ × ℤ)
    (items : List (ℕ × Pt)) (h : Tsp.gridFind g k = some items) :
    ∃ e ∈ g, e.2 = items := by
  unfold Tsp.gridFind at h
  cases hf : List.find? (fun e => e.1 = k) g with
  | none => rw [hf] at h; simp at h
  | some e =>
    rw [hf] at h
    simp only [Option.map_some', Option.some.injEq] at h
    exact ⟨e, List.mem_of_find?_eq_some hf, h⟩

/-- Every candidate returned by `findInRadius` comes from a grid bucket
item and lies within the Euclidean radius. -/
theorem findInRadius_spec (idx : Tsp.SpatialIndex) (pt : Pt) (r : ℝ)
    (c : ℕ × Pt × ℝ) (hc : c ∈ Tsp.findInRadius idx pt r) :
    ∃ e : (ℤ × ℤ) × List (ℕ × Pt),
      e ∈ (idx.grid : List ((ℤ × ℤ) × List (ℕ × Pt))) ∧
      ∃ it : ℕ × Pt, it ∈ e.2 ∧ c.1 = it.1 ∧ c.2.1 = it.2 ∧
        Tsp.distance pt it.2 ≤ r := by
  unfold Tsp.findInRadius at hc
  rw [List.mem_flatMap] at hc
  obtain ⟨dx, _, hc⟩ := hc
  rw [List.mem_flatMap] at hc
  obtain ⟨dy, _, hc⟩ := hc
  cases hf : Tsp.gridFind idx.grid
      (⌊pt.x / idx.gridSize⌋ + dx, ⌊pt.y / idx.gridSize⌋ + dy) with
  | none => rw [hf] at hc; exact absurd hc (List.not_mem_nil c)
  | some items =>
    rw [hf] at hc
    rw [List.mem_filterMap] at hc
    obtain ⟨it, hit, heq⟩ := hc
    by_cases hd : Tsp.distance pt it.2 ≤ r
    · rw [if_pos hd, Option.some.injEq] at heq
      obtain ⟨e, he, rfl⟩ := gridFind_mem idx.grid _ items hf
      subst heq
      exact ⟨e, he, it, hit, rfl, rfl, hd⟩
    · rw [if_neg hd] at heq
      exact absurd heq (by simp)

/-- If every candidate index is already visited, nothing is picked. -/
theorem pickCandidate_vis (visited : List ℕ) :
    ∀ (cands : List (ℕ × Pt × ℝ)),
    (∀ c ∈ cands, c.1 ∈ visited) →
    Tsp.pickCandidate cands visited = none := by
  intro cands
  induction cands with
  | nil => intro _; rfl
  | cons c t ih =>
    intro h
    unfold Tsp.pickCandidate
    rw [List.foldl_cons]
    dsimp only
    rw [if_pos (h c (List.mem_cons_self c t))]
    exact ih fun d hd => h d (List.mem_cons_of_mem c hd)

/-- Coordinate bounds for cluster pixels. -/
theorem c8xCluster_mem (p : ℕ × ℕ) (hp : p ∈ c8xCluster) :
    9520 ≤ p.1 ∧ p.1 ≤ 10000 ∧ 9500 ≤ p.2 ∧ p.2 ≤ 10000 := by
  unfold c8xCluster at hp
  rw [List.mem_flatMap] at hp
  obtain ⟨j, hj, hp⟩ := hp
  rw [List.mem_map] at hp
  obtain ⟨i, hi, rfl⟩ := hp
  rw [List.mem_range'_1] at hi hj
  exact ⟨by omega, by omega, by omega, by omega⟩

/-- Cluster membership from grid coordinates. -/
theorem c8xCluster_mem_of (i j : ℕ) (hi : i < 49) (hj : j < 51) :
    (9520 + i * 10, 9500 + j * 10) ∈ c8xCluster := by
  unfold c8xCluster
  rw [List.mem_flatMap]
  refine ⟨j, by rw [List.mem_range'_1]; omega, ?_⟩
  rw [List.mem_map]
  exact ⟨i, by rw [List.mem_range'_1]; omega, rfl⟩

/-- Every counterexample pixel has both coordinates at most 10000. -/
theorem c8xPixels_bound (p : ℕ × ℕ) (hp : p ∈ c8xPixels) :
    p.1 ≤ 10000 ∧ p.2 ≤ 10000 := by
  unfold c8xPixels at hp
  rw [List.mem_cons] at hp
  rcases hp with rfl | hp
  · exact ⟨by norm_num, by norm_num⟩
  · have h := c8xCluster_mem p hp
    exact ⟨h.2.1, h.2.2.2⟩

/-- The cluster has 51 rows of 49 pixels. -/
theorem c8xCluster_length : c8xCluster.length = 2499 := by
  have h := c8xPixels_length
  unfold c8xPixels at h
  rw [List.length_cons] at h
  omega

/-- The counterexample point list handed to the TSP solver. -/
def c8xP : List Pt := c8xPixels.map fun p => ⟨(p.1 : ℝ), (p.2 : ℝ)⟩

theorem c8xP_length : c8xP.length = 2500 := by
  unfold c8xP
  rw [List.length_map, c8xPixels_length]

theorem c8xP_cons : c8xP = (⟨0, 0⟩ : Pt) ::
    c8xCluster.map (fun p => (⟨(p.1 : ℝ), (p.2 : ℝ)⟩ : Pt)) := by
  unfold c8xP c8xPixels
  rw [List.map_cons]
  congr 1
  show (⟨((0 : ℕ) : ℝ), ((0 : ℕ) : ℝ)⟩ : Pt) = ⟨0, 0⟩
  norm_num

theorem c8xP_head : c8xP.getD 0 ⟨0, 0⟩ = (⟨0, 0⟩ : Pt) := by
  rw [c8xP_cons, List.getD_cons_zero]

/-- `foldOpt` over a non-empty list is a plain fold seeded at the head. -/
theorem foldOpt_cons (f : ℝ → ℝ → ℝ) (g : Pt → ℝ) (p : Pt)
    (rest : List Pt) :
    Tsp.foldOpt f g (p :: rest) =
      some (rest.foldl (fun m q => f m (g q)) (g p)) := by
  unfold Tsp.foldOpt
  rw [List.foldl_cons]
  dsimp only
  generalize g p = a
  induction rest generalizing a with
  | nil => rfl
  | cons q t ih =>
    rw [List.foldl_cons, List.foldl_cons]
    dsimp only
    exact ih (f a (g q))

/-- A min-fold stays at a seed that bounds the list from below. -/
theorem foldl_min_const (g : Pt → ℝ) :
    ∀ (l : List Pt) (B : ℝ), (∀ q ∈ l, B ≤ g q) →
    l.foldl (fun m q => min m (g q)) B = B := by
  intro l
  induction l with
  | nil => intro B _; rfl
  | cons q t ih =>
    intro B h
    rw [List.foldl_cons]
    rw [min_eq_left (h q (List.mem_cons_self q t))]
    exact ih B fun p hp => h p (List.mem_cons_of_mem q hp)

/-- A max-fold stays at a seed that bounds the list from above. -/
theorem foldl_max_const (g : Pt → ℝ) :
    ∀ (l : List Pt) (B : ℝ), (∀ q ∈ l, g q ≤ B) →
    l.foldl (fun m q => max m (g q)) B = B := by
  intro l
  induction l with
  | nil => intro B _; rfl
  | cons q t ih =>
    intro B h
    rw [List.foldl_cons]
    rw [max_eq_left (h q (List.mem_cons_self q t))]
    exact ih B fun p hp => h p (List.mem_cons_of_mem q hp)

/-- A max-fold reaches an attained upper bound. -/
theorem foldl_max_eq (g : Pt → ℝ) :
    ∀ (l : List Pt) (a B : ℝ), a ≤ B → (∀ p ∈ l, g p ≤ B) →
    (∃ p ∈ l, g p = B) →
    l.foldl (fun m q => max m (g q)) a = B := by
  intro l
  induction l with
  | nil =>
    intro a B _ _ hat
    obtain ⟨p, hp, _⟩ := hat
    exact absurd hp (List.not_mem_nil p)
  | cons q t ih =>
    intro a B ha hub hat
    rw [List.foldl_cons]
    obtain ⟨p, hp, hB⟩ := hat
    rw [List.mem_cons] at hp
    rcases hp with rfl | hp
    · rw [hB, max_eq_right ha]
      exact foldl_max_const g t B
        fun r hr => hub r (List.mem_cons_of_mem p hr)
    · exact ih (max a (g q)) B
        (max_le ha (hub q (List.mem_cons_self q t)))
        (fun r hr => hub r (List.mem_cons_of_mem q hr)) ⟨p, hp, hB⟩

theorem c8xP_minX : (Tsp.foldOpt min Pt.x c8xP).getD 0 = 0 := by
  rw [c8xP_cons, foldOpt_cons, Option.getD_some]
  rw [show Pt.x ⟨0, 0⟩ = 0 from rfl]
  apply foldl_min_const
  intro q hq
  rw [List.mem_map] at hq
  obtain ⟨p, hp, rfl⟩ := hq
  show (0 : ℝ) ≤ (p.1 : ℝ)
  exact Nat.cast_nonneg p.1

theorem c8xP_minY : (Tsp.foldOpt min Pt.y c8xP).getD 0 = 0 := by
  rw [c8xP_cons, foldOpt_cons, Option.getD_some]
  rw [show Pt.y ⟨0, 0⟩ = 0 from rfl]
  apply foldl_min_const
  intro q hq
  rw [List.mem_map] at hq
  obtain ⟨p, hp, rfl⟩ := hq
  show (0 : ℝ) ≤ (p.2 : ℝ)
  exact Nat.cast_nonneg p.2

theorem c8xP_maxX : (Tsp.foldOpt max Pt.x c8xP).getD 0 = 10000 := by
  rw [c8xP_cons, foldOpt_cons, Option.getD_some]
  rw [show Pt.x ⟨0, 0⟩ = 0 from rfl]
  apply foldl_max_eq
  · norm_num
  · intro q hq
    rw [List.mem_map] at hq
    obtain ⟨p, hp, rfl⟩ := hq
    show (p.1 : ℝ) ≤ 10000
    exact_mod_cast (c8xCluster_mem p hp).2.1
  · refine ⟨⟨((9520 + 48 * 10 : ℕ) : ℝ), ((9500 + 0 * 10 : ℕ) : ℝ)⟩, ?_, ?_⟩
    · exact List.mem_map_of_mem _
        (c8xCluster_mem_of 48 0 (by norm_num) (by norm_num))
    · show ((9520 + 48 * 10 : ℕ) : ℝ) = 10000
      norm_num

theorem c8xP_maxY : (Tsp.foldOpt max Pt.y c8xP).getD 0 = 10000 := by
  rw [c8xP_cons, foldOpt_cons, Option.getD_some]
  rw [show Pt.y ⟨0, 0⟩ = 0 from rfl]
  apply foldl_max_eq
  · norm_num
  · intro q hq
    rw [List.mem_map] at hq
    obtain ⟨p, hp, rfl⟩ := hq
    show (p.2 : ℝ) ≤ 10000
    exact_mod_cast (c8xCluster_mem p hp).2.2.2
  · refine ⟨⟨((9520 + 0 * 10 : ℕ) : ℝ), ((9500 + 50 * 10 : ℕ) : ℝ)⟩, ?_, ?_⟩
    · exact List.mem_map_of_mem _
        (c8xCluster_mem_of 0 50 (by norm_num) (by norm_num))
    · show ((9500 + 50 * 10 : ℕ) : ℝ) = 10000
      norm_num

/-- The automatic grid size for the counterexample points is 200. -/
theorem c8xP_gridSize : Tsp.calculateOptimalGridSize c8xP = 200 := by
  simp only [Tsp.calculateOptimalGridSize]
  rw [if_neg (by rw [c8xP_length]; norm_num)]
  rw [c8xP_minX, c8xP_minY, c8xP_maxX, c8xP_maxY, c8xP_length]
  rw [show ((10000 : ℝ) - 0) * (10000 - 0) = 10000 * 10000 from by ring]
  rw [sqrt_eval (by norm_num : (0 : ℝ) ≤ 10000) rfl]
  rw [show (((2500 : ℕ) : ℝ)) = 50 * 50 from by norm_num]
  rw [sqrt_eval (by norm_num : (0 : ℝ) ≤ 50) rfl]
  norm_num

/-- The expanding-search radius cap for the counterexample points. -/
theorem c8xP_maxRadius :
    max |c8xP.foldl (fun m p => max m p.x) 0|
        |c8xP.foldl (fun m p => max m p.y) 0| * 2 = 20000 := by
  have hx : c8xP.foldl (fun m p => max m p.x) 0 = 10000 := by
    apply foldl_max_eq Pt.x c8xP 0 10000 (by norm_num)
    · intro q hq
      unfold c8xP at hq
      rw [List.mem_map] at hq
      obtain ⟨p, hp, rfl⟩ := hq
      show (p.1 : ℝ) ≤ 10000
      exact_mod_cast (c8xPixels_bound p hp).1
    · refine ⟨⟨((9520 + 48 * 10 : ℕ) : ℝ), ((9500 + 0 * 10 : ℕ) : ℝ)⟩, ?_, ?_⟩
      · unfold c8xP c8xPixels
        exact List.mem_map_of_mem _ (List.mem_cons_of_mem _
          (c8xCluster_mem_of 48 0 (by norm_num) (by norm_num)))
      · show ((9520 + 48 * 10 : ℕ) : ℝ) = 10000
        norm_num
  have hy : c8xP.foldl (fun m p => max m p.y) 0 = 10000 := by
    apply foldl_max_eq Pt.y c8xP 0 10000 (by norm_num)
    · intro q hq
      unfold c8xP at hq
      rw [List.mem_map] at hq
      obtain ⟨p, hp, rfl⟩ := hq
      show (p.2 : ℝ) ≤ 10000
      exact_mod_cast (c8xPixels_bound p hp).2
    · refine ⟨⟨((9520 + 0 * 10 : ℕ) : ℝ), ((9500 + 50 * 10 : ℕ) : ℝ)⟩, ?_, ?_⟩
      · unfold c8xP c8xPixels
        exact List.mem_map_of_mem _ (List.mem_cons_of_mem _
          (c8xCluster_mem_of 0 50 (by norm_num) (by norm_num)))
      · show ((9500 + 50 * 10 : ℕ) : ℝ) = 10000
        norm_num
  rw [hx, hy, abs_of_nonneg (by norm_num : (0 : ℝ) ≤ 10000), max_self]
  norm_num

/-- Every counterexample point other than the start lies further than
12800 from the origin. -/
theorem c8xP_far (j : ℕ) (hjlen : j < 2500) (hj0 : j ≠ 0) :
    12800 < Tsp.distance ⟨0, 0⟩ (c8xP.getD j ⟨0, 0⟩) := by
  obtain ⟨m, rfl⟩ : ∃ m, j = m + 1 := ⟨j - 1, by omega⟩
  have hmm : m < (c8xCluster.map
      (fun p => (⟨(p.1 : ℝ), (p.2 : ℝ)⟩ : Pt))).length := by
    rw [List.length_map, c8xCluster_length]
    omega
  rw [c8xP_cons, List.getD_cons_succ]
  rw [List.getD_eq_getElem _ _ hmm]
  have hmem := List.getElem_mem hmm
  rw [List.mem_map] at hmem
  obtain ⟨p, hp, heq⟩ := hmem
  rw [← heq]
  obtain ⟨h1, h2, h3, h4⟩ := c8xCluster_mem p hp
  have hx : (9520 : ℝ) ≤ (p.1 : ℝ) := by exact_mod_cast h1
  have hy : (9500 : ℝ) ≤ (p.2 : ℝ) := by exact_mod_cast h3
  show (12800 : ℝ) < Real.sqrt
    ((0 - (p.1 : ℝ)) * (0 - (p.1 : ℝ)) + (0 - (p.2 : ℝ)) * (0 - (p.2 : ℝ)))
  clear heq hp hmm hj0 h1 h2 h3 h4
  have a1 : (9520 : ℝ) * 9520 ≤ (p.1 : ℝ) * (p.1 : ℝ) :=
    mul_le_mul hx hx (by norm_num) (by linarith)
  have a2 : (9500 : ℝ) * 9500 ≤ (p.2 : ℝ) * (p.2 : ℝ) :=
    mul_le_mul hy hy (by norm_num) (by linarith)
  have hring : (0 - (p.1 : ℝ)) * (0 - (p.1 : ℝ)) +
      (0 - (p.2 : ℝ)) * (0 - (p.2 : ℝ)) =
      (p.1 : ℝ) * (p.1 : ℝ) + (p.2 : ℝ) * (p.2 : ℝ) := by ring
  have hlt : (12800 : ℝ) * 12800 <
      (0 - (p.1 : ℝ)) * (0 - (p.1 : ℝ)) + (0 - (p.2 : ℝ)) * (0 - (p.2 : ℝ)) := by
    rw [hring]
    linarith [a1, a2]
  have hs := Real.sqrt_lt_sqrt (by positivity) hlt
  rw [sqrt_eval (by norm_num : (0 : ℝ) ≤ 12800) rfl] at hs
  exact hs

/-- The grid of a spatial index, unfolded. -/
theorem mkSpatialIndex_grid (points : List Pt) :
    (Tsp.mkSpatialIndex points).grid =
      Tsp.buildGrid points (Tsp.calculateOptimalGridSize points) := rfl

/-- Every bucket item of the counterexample index is an in-range pixel
index paired with its point. -/
theorem c8xP_grid_ok :
    ∀ e ∈ ((Tsp.mkSpatialIndex c8xP).grid :
        List ((ℤ × ℤ) × List (ℕ × Pt))),
      ∀ it ∈ e.2, it.1 < 2500 ∧ it.2 = c8xP.getD it.1 ⟨0, 0⟩ := by
  rw [mkSpatialIndex_grid]
  apply buildGrid_items
  intro i hi
  rw [c8xP_length] at hi
  exact ⟨hi, rfl⟩

/-- At any radius at most 12800, every candidate around the origin is
the already-visited start index 0. -/
theorem c8x_candidates (r : ℝ) (hr : r ≤ 12800) (c : ℕ × Pt × ℝ)
    (hc : c ∈ Tsp.findInRadius (Tsp.mkSpatialIndex c8xP) ⟨0, 0⟩ r) :
    c.1 = 0 := by
  obtain ⟨e, he, it, hit, h1, _, hd⟩ :=
    findInRadius_spec (Tsp.mkSpatialIndex c8xP) ⟨0, 0⟩ r c hc
  obtain ⟨hlt, hpt⟩ := c8xP_grid_ok e he it hit
  by_contra h0
  have hfar : 12800 < Tsp.distance ⟨0, 0⟩ it.2 := by
    rw [hpt]
    exact c8xP_far it.1 hlt (by omega)
  linarith

/-- The expanding-ring search around the origin never finds an unvisited
candidate: every reachable radius stays below the cluster distance. -/
theorem c8x_expand_none :
    ∀ (fuel k : ℕ),
      Tsp.expandSearch (Tsp.mkSpatialIndex c8xP) ⟨0, 0⟩ [0] 20000 fuel
        (200 * 2 ^ k) = none := by
  intro fuel
  induction fuel with
  | zero => intro k; rfl
  | succ fuel ih =>
    intro k
    rw [Tsp.expandSearch]
    by_cases hle : (200 : ℝ) * 2 ^ k ≤ 20000
    · rw [if_pos hle]
      have hk : k ≤ 6 := by
        by_contra hk7
        push_neg at hk7
        have h7 : (2 : ℝ) ^ 7 ≤ 2 ^ k :=
          pow_le_pow_right₀ (by norm_num) hk7
        norm_num at h7
        nlinarith
      have hr : (200 : ℝ) * 2 ^ k ≤ 12800 := by
        have h6 : (2 : ℝ) ^ k ≤ 2 ^ 6 :=
          pow_le_pow_right₀ (by norm_num) hk
        norm_num at h6
        nlinarith
      rw [pickCandidate_vis [0] _ fun c hc => by
        rw [List.mem_singleton]
        exact c8x_candidates _ hr c hc]
      have h2k : (200 : ℝ) * 2 ^ k * 2 = 200 * 2 ^ (k + 1) := by ring
      rw [h2k]
      exact ih (k + 1)
    · rw [if_neg hle]

/-- On the counterexample points the spatial-index nearest-neighbor tour
degenerates to the start index alone. -/
theorem c8x_nn : Tsp.nearestNeighbor c8xP 0 = [0] := by
  simp only [Tsp.nearestNeighbor]
  rw [if_neg (by rw [c8xP_length]; norm_num),
    if_neg (by rw [c8xP_length]; norm_num)]
  rw [show decide (1000 < c8xP.length) = true from by
    rw [c8xP_length]; rfl]
  rw [c8xP_maxRadius]
  rw [show c8xP.length = 2499 + 1 from by rw [c8xP_length]]
  rw [Tsp.nnAux]
  rw [if_pos (by rw [c8xP_length]; norm_num :
    ([0] : List ℕ).length < c8xP.length)]
  rw [if_pos rfl]
  rw [c8xP_head]
  rw [show (Tsp.mkSpatialIndex c8xP).gridSize = 200 from by
    rw [Tsp.mkSpatialIndex_gridSize, c8xP_gridSize]]
  rw [show (200 : ℝ) = 200 * 2 ^ 0 from by norm_num]
  rw [c8x_expand_none]

/-- C8 counterexample: a pointillism run whose single layer has 2500
surviving sample points — above the 1000-point spatial-index threshold.
The generated stream is produced successfully, but contains a single
`M3 S255` rather than one per surviving point: the auto-sized search grid
(cell 200) caps the expanding-ring search at radius 12800, short of the
far cluster at distance ≈ 13449 from the start pixel, so the
nearest-neighbor tour degenerates to the start index alone and 2499
survivors are never painted. -/
theorem C8_counterexample :
    1000 < Gcode.survivors c8xCfg c8xLayer ∧
    (Gcode.generate c8xCfg [c8xLayer] "2026-01-01T00:00:00.000Z"
        (fun _ => 0)).elim False (fun stream =>
      stream.count Gcode.M3 ≠
        ([c8xLayer].map (Gcode.survivors c8xCfg)).sum) := by
  constructor
  · rw [c8x_survivors]
    norm_num
  · obtain ⟨s, hs⟩ := Gcode.generate_single_some c8xCfg c8xLayer
      "2026-01-01T00:00:00.000Z" (fun _ => 0) (by norm_num [c8xCfg]) rfl
      (by norm_num [c8xLayer]) (by norm_num [c8xLayer])
      (by norm_num [c8xCfg]) (by norm_num [c8xCfg])
    rw [hs]
    dsimp only [Option.elim]
    have hm3 := Gcode.generate_count_M3_single c8xCfg c8xLayer
      "2026-01-01T00:00:00.000Z" (fun _ => 0) s
      (by rw [c8x_survivors]; norm_num) hs
    rw [hm3]
    have hsum : ([c8xLayer].map (Gcode.survivors c8xCfg)).sum = 2500 := by
      rw [List.map_cons, List.map_nil, List.sum_cons, List.sum_nil,
        c8x_survivors]
      rfl
    rw [hsum]
    dsimp only [c8xLayer, c8xCfg]
    rw [c8x_extract, c8x_down]
    rw [show decide (c8xPixels.length < 500) = false from by
      rw [c8xPixels_length]; rfl]
    rw [show (c8xPixels.map fun p => (⟨(p.1 : ℝ), (p.2 : ℝ)⟩ : Pt)) = c8xP
      from rfl]
    have hst : Tsp.solveTSP c8xP 0 false 1000 = [0] := by
      simp only [Tsp.solveTSP]
      rw [c8x_nn]
      rw [if_neg (by simp)]
    rw [hst]
    norm_num

end Claims











end MuralBot
